import Mathlib

/-! placemat, the QEMU provider (`qemu.go`) and the menu templates
(`template.go`).

A shallow embedding of the node/pod runtime of placemat and the properties of
its BMC signal interceptor, VM handle, command sequencing, namespace
provisioning, NAT rules, teardown, MAC addresses, node start-up and cluster
start-up, and of the address plan that `ToTemplateArgs` computes.

Conventions of the embedding:

* a Go `[]byte` and a Go `string` used as bytes are `List UInt8`; strings that
  are only copied or concatenated (names, arguments) are Lean `String`s;
* a Go `error` is `Option Error`, `none` being `nil`;
* a channel is the list of the messages sent on it, oldest first; a send is
  taken to complete;
* external effects (running a command, removing a directory) append to a trace
  of the `World`, and their result is an arbitrary function of the history;
* logging is not part of the model.
-/

namespace Placemat

/-- A non-nil Go `error` value. -/
abbrev Error := String

/-! ## BMC signal interceptor (`processWriter`) -/

/-- The constant `maxBufferSize` of `qemu.go`. -/
def maxBufferSize : Nat := 256

/-- The struct `bmcInfo`: BMC information notified by a guest VM. -/
structure bmcInfo where
  serial : String
  bmcAddress : List UInt8
deriving DecidableEq, Repr

/-- The struct `processWriter`. The send-only channel `ch` is the list of the
messages sent on it so far. -/
structure processWriter where
  data : List UInt8
  serial : String
  sent : Bool
  ch : List bmcInfo
deriving DecidableEq, Repr

/-- Go's `bytes.IndexByte`: the index of the first `c` in `p`, or `-1`. -/
def IndexByte (p : List UInt8) (c : UInt8) : Int :=
  if c ∈ p then (p.indexOf c : Int) else -1

/-- The method `(*processWriter).Write`. `TrimSpace` stands for the standard
library's `strings.TrimSpace` on the bytes of a string. The result is the
writer after the call with the returned `(n, err)`. -/
def processWriter.Write (TrimSpace : List UInt8 → List UInt8) (w : processWriter)
    (p : List UInt8) : processWriter × Nat × Option Error :=
  let n := p.length
  if w.sent then
    (w, n, none)
  else
    let index := IndexByte p 10
    if index == -1 then
      let w1 := { w with data := w.data ++ p }
      if w1.data.length > maxBufferSize then
        ({ w1 with data := [] }, n, none)
      else
        (w1, n, none)
    else
      let w1 := { w with data := w.data ++ p.take index.toNat }
      let bmcAddress := TrimSpace w1.data
      let w2 := { w1 with ch := w1.ch ++ [bmcInfo.mk w1.serial bmcAddress] }
      ({ w2 with sent := true }, n, none)

/-- The writer after a sequence of `Write` calls, one per chunk, in order. -/
def processWriter.writeAll (TrimSpace : List UInt8 → List UInt8) :
    processWriter → List (List UInt8) → processWriter
  | w, [] => w
  | w, p :: ps => processWriter.writeAll TrimSpace (w.Write TrimSpace p).1 ps

/-- The condition under which a `Write` of chunk `p` takes the branch that
discards the buffer: not yet sent, no newline in `p`, and the accumulated
length above `maxBufferSize`. -/
def processWriter.discards (w : processWriter) (p : List UInt8) : Bool :=
  !w.sent && IndexByte p 10 == -1 && decide ((w.data ++ p).length > maxBufferSize)

/-- The table `asciiSpace` of Go's `strings` package: tab, newline, vertical
tab, form feed, carriage return, space. -/
def asciiSpace (c : UInt8) : Bool :=
  c == 9 || c == 10 || c == 11 || c == 12 || c == 13 || c == 32

/-- What `strings.TrimSpace` returns on a string of ASCII bytes: the string
without its leading and trailing `asciiSpace` bytes. Used as a concrete
instance of the `TrimSpace` parameter. -/
def asciiTrimSpace (s : List UInt8) : List UInt8 :=
  ((s.dropWhile asciiSpace).reverse.dropWhile asciiSpace).reverse

/-! ## VM handle (`nodeVM`) -/

/-- A `net.Conn` seen from its writing side: the strings handed to its `Write`
method so far, oldest first. -/
structure Conn where
  written : List String
deriving DecidableEq, Repr

/-- Go's `io.WriteString(c, s)`: `Write` is called on the connection with the
bytes of `s`; `result` is the error that call returns (nil when the write
succeeds). -/
def WriteString (c : Conn) (s : String) (result : Option Error) : Conn × Option Error :=
  ({ written := c.written ++ [s] }, result)

/-- The struct `nodeVM`. The process handle `cmd` is not read by the methods
below and is left out. -/
structure nodeVM where
  monitor : Conn
  running : Bool
deriving DecidableEq, Repr

/-- The method `(*nodeVM).isRunning`. -/
def nodeVM.isRunning (n : nodeVM) : Bool :=
  n.running

/-- The method `(*nodeVM).powerOn`; `result` is what a write to the monitor
returns if one is made. The error of `io.WriteString` is dropped. -/
def nodeVM.powerOn (n : nodeVM) (result : Option Error) : nodeVM :=
  if n.running then
    n
  else
    let m := (WriteString n.monitor "system_reset\ncont\n" result).1
    { monitor := m, running := true }

/-- The method `(*nodeVM).powerOff`; `result` is what a write to the monitor
returns if one is made. The error of `io.WriteString` is dropped. -/
def nodeVM.powerOff (n : nodeVM) (result : Option Error) : nodeVM :=
  if !n.running then
    n
  else
    let m := (WriteString n.monitor "stop\n" result).1
    { monitor := m, running := false }

/-- How many times the string `s` has been written to the connection. -/
def Conn.timesWritten (c : Conn) (s : String) : Nat :=
  c.written.count s

/-- The handle that `startNode` creates once the monitor socket is connected:
`running: true` on a connection nothing has been written to. -/
def startedVM : nodeVM :=
  { monitor := { written := [] }, running := true }

/-! ## External effects and command sequencing -/

/-- A task handed to `env.Go` by `Start`: the BMC handler, `startNode` for the
node of the given name, or `startPod` for the pod of the given name. -/
inductive Task where
  | handleNode
  | startNode (node : String)
  | startPod (pod : String)
deriving DecidableEq, Repr

/-- An effect on the host or on a collaborator: running an external command to
completion (`cmd.CommandContext(ctx, name, args...).Run()`),
`os.RemoveAll(path)`, and the calls made by `Start`: `NewRootfs()`, the deferred
`root.Destroy()`, `Create()` of a network, `Prepare(ctx)` of a data folder,
`os.MkdirAll(path, 0755)`, `Create(ctx, dir)` of a volume of a node,
`bmcServer.setup(networks)`, `env.Go(task)`, `env.Stop()` and `env.Wait()`. -/
inductive Action where
  | run (name : String) (args : List String)
  | removeAll (path : String)
  | newRootfs
  | rootDestroy
  | networkCreate (name : String)
  | dataFolderPrepare (name : String)
  | mkdirAll (path : String)
  | volumeCreate (node : String) (volume : String) (dir : String)
  | bmcSetup (networks : List String)
  | goTask (task : Task)
  | envStop
  | envWait
deriving DecidableEq, Repr

/-- The host as the provider sees it: the effects performed so far, oldest
first, and the result of each effect as a function of the effects before it. -/
structure World where
  trace : List Action
  outcome : List Action → Action → Option Error

/-- Perform one effect: it is recorded and its result returned. -/
def World.perform (w : World) (a : Action) : World × Option Error :=
  ({ trace := w.trace ++ [a], outcome := w.outcome }, w.outcome w.trace a)

/-- The function `execCommands`. The result is `none` when the Go code panics
(`cmds[0]` on an empty command), otherwise the world after the loop and the
returned error. -/
def execCommands : World → List (List String) → Option (World × Option Error)
  | w, [] => some (w, none)
  | w, cmds :: rest =>
    match cmds with
    | [] => none
    | name :: args =>
      match w.perform (Action.run name args) with
      | (w1, some err) => some (w1, some err)
      | (w1, none) => execCommands w1 rest

/-- The loop of `execCommandsForce`, with the variable `firstError` as an
argument. -/
def execCommandsForceLoop :
    World → Option Error → List (List String) → Option (World × Option Error)
  | w, firstError, [] => some (w, firstError)
  | w, firstError, cmds :: rest =>
    match cmds with
    | [] => none
    | name :: args =>
      match w.perform (Action.run name args) with
      | (w1, err) =>
        execCommandsForceLoop w1 (if err.isSome && firstError.isNone then err else firstError) rest

/-- The function `execCommandsForce`. The result is `none` when the Go code
panics (`cmds[0]` on an empty command). -/
def execCommandsForce (w : World) (commands : List (List String)) :
    Option (World × Option Error) :=
  execCommandsForceLoop w none commands

/-- The effect of running the command `cmds`: program `cmds[0]` with arguments
`cmds[1:]`. -/
def toAction : List String → Action
  | [] => Action.run "" []
  | name :: args => Action.run name args

/-- The result of running command number `i` of `commands` right after the
commands before it have been run, starting in world `w`. -/
def outcomeAt (w : World) (commands : List (List String)) (i : Nat) : Option Error :=
  w.outcome (w.trace ++ (commands.take i).map toAction) (toAction (commands.getD i []))

/-- A host on which exactly the commands in `failing` fail, with exit status 1,
whatever has been done before. -/
def hostFailing (failing : List Action) : World :=
  { trace := [],
    outcome := fun _ a => if a ∈ failing then some "exit status 1" else none }

/-! ## Pod network namespace -/

/-- A Go `map[string][]string` as its lookup: a key that is not in the map
gives the nil slice. -/
abbrev AddrMap := String → List String

/-- The empty map `make(map[string][]string)`. -/
def AddrMap.empty : AddrMap :=
  fun _ => []

/-- The assignment `m[k] = v`. -/
def AddrMap.set (m : AddrMap) (k : String) (v : List String) : AddrMap :=
  fun x => if x = k then v else m x

/-- The loop `for i, veth := range veths` of `makePodNS`, from index `i` on,
with the slice `cmds` built so far. `fmt.Sprintf("eth%d", i)` is the decimal
numeral of `i` after "eth". -/
def makePodNSLoop (ns : String) (ips : AddrMap) :
    Nat → List String → List (List String) → List (List String)
  | _, [], cmds => cmds
  | i, veth :: rest, cmds =>
    let eth := "eth" ++ toString i
    let cmds1 := cmds ++ [["ip", "link", "set", veth, "netns", ns, "name", eth, "up"]]
    let cmds2 := (ips veth).foldl
      (fun acc ip => acc ++ [["ip", "netns", "exec", ns, "ip", "a", "add", ip, "dev", eth]]) cmds1
    makePodNSLoop ns ips (i + 1) rest cmds2

/-- The command list that `makePodNS` hands to `execCommands`. -/
def makePodNSCommands (pod : String) (veths : List String) (ips : AddrMap) :
    List (List String) :=
  let ns := "pm_" ++ pod
  let cmds := [
    ["ip", "netns", "add", ns],
    ["ip", "netns", "exec", ns, "ip", "link", "set", "lo", "up"]]
  makePodNSLoop ns ips 0 veths cmds

/-- The function `makePodNS`. -/
def makePodNS (w : World) (pod : String) (veths : List String) (ips : AddrMap) :
    Option (World × Option Error) :=
  execCommands w (makePodNSCommands pod veths ips)

/-- The commands for the veth at index `i`: the move into the namespace under
the name `eth<i>`, then one address assignment per address of the veth. -/
def podVethCommands (ns : String) (ips : AddrMap) (iv : Nat × String) : List (List String) :=
  ["ip", "link", "set", iv.2, "netns", ns, "name", "eth" ++ toString iv.1, "up"] ::
    (ips iv.2).map
      (fun ip => ["ip", "netns", "exec", ns, "ip", "a", "add", ip, "dev", "eth" ++ toString iv.1])

/-- The map `ips` as `startPod` fills it: one assignment `ips[veth] =
iface.Addresses` per interface, in interface order. -/
def podAddrMap : List (String × List String) → AddrMap → AddrMap
  | [], m => m
  | (veth, addresses) :: rest, m => podAddrMap rest (m.set veth addresses)

/-! ## NAT rules -/

/-- The command list that `createNatRules` hands to `execCommands`. -/
def createNatRulesCommands : List (List String) :=
  ["iptables", "ip6tables"].foldl
    (fun cmds iptables => cmds ++ [
      [iptables, "-N", "PLACEMAT", "-t", "filter"],
      [iptables, "-N", "PLACEMAT", "-t", "nat"],
      [iptables, "-t", "nat", "-A", "POSTROUTING", "-j", "PLACEMAT"],
      [iptables, "-t", "filter", "-A", "FORWARD", "-j", "PLACEMAT"]])
    []

/-- The function `createNatRules`. -/
def createNatRules (w : World) : Option (World × Option Error) :=
  execCommands w createNatRulesCommands

/-- The command list that `destroyNatRules` hands to `execCommandsForce`. -/
def destroyNatRulesCommands : List (List String) :=
  ["iptables", "ip6tables"].foldl
    (fun cmds iptables => cmds ++ [
      [iptables, "-t", "filter", "-D", "FORWARD", "-j", "PLACEMAT"],
      [iptables, "-t", "nat", "-D", "POSTROUTING", "-j", "PLACEMAT"],
      [iptables, "-F", "PLACEMAT", "-t", "filter"],
      [iptables, "-X", "PLACEMAT", "-t", "filter"],
      [iptables, "-F", "PLACEMAT", "-t", "nat"],
      [iptables, "-X", "PLACEMAT", "-t", "nat"]])
    []

/-- The method `(*QemuProvider).destroyNatRules`; it reads no field of the
provider. -/
def destroyNatRules (w : World) : Option (World × Option Error) :=
  execCommandsForce w destroyNatRulesCommands

/-- What an iptables command line of the shapes used here asks for. A chain is
named by tool, table and chain name; a jump by tool, table, the chain that
holds the rule and the target chain. -/
inductive NatOp where
  | newChain (tool table chain : String)
  | appendJump (tool table chain target : String)
  | deleteJump (tool table chain target : String)
  | flushChain (tool table chain : String)
  | deleteChain (tool table chain : String)
deriving DecidableEq, Repr

/-- Reading of an iptables command line: `-N` creates a chain, `-A ... -j`
appends a jump, `-D ... -j` deletes a jump, `-F` flushes and `-X` deletes a
chain, `-t` names the table. -/
def natOp : List String → Option NatOp
  | [tool, "-N", chain, "-t", table] => some (NatOp.newChain tool table chain)
  | [tool, "-t", table, "-A", chain, "-j", target] =>
    some (NatOp.appendJump tool table chain target)
  | [tool, "-t", table, "-D", chain, "-j", target] =>
    some (NatOp.deleteJump tool table chain target)
  | [tool, "-F", chain, "-t", table] => some (NatOp.flushChain tool table chain)
  | [tool, "-X", chain, "-t", table] => some (NatOp.deleteChain tool table chain)
  | _ => none

/-- The chains created by a command list, in order. -/
def chainsCreated (cmds : List (List String)) : List (String × String × String) :=
  cmds.filterMap (fun c => match natOp c with
    | some (NatOp.newChain tool table chain) => some (tool, table, chain)
    | _ => none)

/-- The chains flushed by a command list, in order. -/
def chainsFlushed (cmds : List (List String)) : List (String × String × String) :=
  cmds.filterMap (fun c => match natOp c with
    | some (NatOp.flushChain tool table chain) => some (tool, table, chain)
    | _ => none)

/-- The chains deleted by a command list, in order. -/
def chainsDeleted (cmds : List (List String)) : List (String × String × String) :=
  cmds.filterMap (fun c => match natOp c with
    | some (NatOp.deleteChain tool table chain) => some (tool, table, chain)
    | _ => none)

/-- The jumps appended by a command list, in order. -/
def jumpsAppended (cmds : List (List String)) : List (String × String × String × String) :=
  cmds.filterMap (fun c => match natOp c with
    | some (NatOp.appendJump tool table chain target) => some (tool, table, chain, target)
    | _ => none)

/-- The jumps deleted by a command list, in order. -/
def jumpsDeleted (cmds : List (List String)) : List (String × String × String × String) :=
  cmds.filterMap (fun c => match natOp c with
    | some (NatOp.deleteJump tool table chain target) => some (tool, table, chain, target)
    | _ => none)

/-- Whether command `a` deletes a jump whose target is the chain that command
`b` deletes (same tool, same table). -/
def deletesJumpInto (a b : List String) : Bool :=
  match natOp a, natOp b with
  | some (NatOp.deleteJump tool table _ target), some (NatOp.deleteChain tool1 table1 chain1) =>
    tool == tool1 && table == table1 && target == chain1
  | _, _ => false

/-! ## Teardown -/

/-- Modelled from the spec: the name generator (`nameGenerator`, whose source
is not part of `qemu.go`): a prefix, a counter and the names issued so far, in
issuance order. -/
structure nameGenerator where
  pfx : String
  id : Nat
  generatedNames : List String
deriving DecidableEq, Repr

/-- Modelled from the spec: `New()` returns prefix + counter, a name not
returned before, and records it among the issued names. -/
def nameGenerator.New (g : nameGenerator) : String × nameGenerator :=
  (g.pfx ++ toString g.id,
    { pfx := g.pfx, id := g.id + 1,
      generatedNames := g.generatedNames ++ [g.pfx ++ toString g.id] })

/-- Modelled from the spec: `GeneratedNames()` returns all names issued so far,
in issuance order. -/
def nameGenerator.GeneratedNames (g : nameGenerator) : List String :=
  g.generatedNames

/-- What `qemu.go` reads of a `Network`. -/
structure Network where
  Name : String
deriving DecidableEq, Repr

/-- What `qemu.go` reads of a `DataFolder`. -/
structure DataFolder where
  Name : String
deriving DecidableEq, Repr

/-- The SMBIOS fields of a `Node`. -/
structure SMBIOSConfig where
  Manufacturer : String
  Product : String
  Serial : String
deriving DecidableEq, Repr

/-- A `Volume` as `qemu.go` uses it: its `Name()` and the arguments that its
`Create` returns when it succeeds. -/
structure Volume where
  Name : String
  args : List String
deriving DecidableEq, Repr

/-- The fields of a `Node` that `qemu.go` reads or writes. -/
structure Node where
  Name : String
  Interfaces : List String
  CPU : Int
  Memory : String
  UEFI : Bool
  IgnitionFile : String
  SMBIOS : SMBIOSConfig
  volumes : List Volume
  params : List String
deriving DecidableEq, Repr

/-- An interface of a `Pod`. -/
structure PodInterface where
  NetworkName : String
  Addresses : List String
deriving DecidableEq, Repr

/-- An app of a `Pod`. -/
structure PodApp where
  Image : String
deriving DecidableEq, Repr

/-- The fields of a `Pod` that `qemu.go` reads. -/
structure Pod where
  Name : String
  Interfaces : List PodInterface
  Apps : List PodApp
  initScripts : List String
deriving DecidableEq, Repr

/-- The fields of a `Cluster` that `qemu.go` reads. -/
structure Cluster where
  Networks : List Network
  Nodes : List Node
  Pods : List Pod
  DataFolders : List DataFolder
deriving DecidableEq, Repr

/-- The fields of `QemuProvider` that the functions modelled here read or
write. -/
structure QemuProvider where
  NoGraphic : Bool
  Debug : Bool
  RunDir : String
  tng : nameGenerator
  vng : nameGenerator
  dataDir : String
  tempDir : String
deriving DecidableEq, Repr

/-- The effect of `deleteTap(ctx, tap)`. -/
def deleteTapAction (tap : String) : Action :=
  Action.run "ip" ["tuntap", "delete", tap, "mode", "tap"]

/-- The effect of `deleteVeth(ctx, veth)`. -/
def deleteVethAction (veth : String) : Action :=
  Action.run "ip" ["link", "delete", veth ++ "_"]

/-- The effect of `deletePodNS(ctx, pod)`. -/
def deletePodNSAction (pod : String) : Action :=
  Action.run "ip" ["netns", "del", "pm_" ++ pod]

/-- The function `deleteTap`. -/
def deleteTap (w : World) (tap : String) : World × Option Error :=
  w.perform (deleteTapAction tap)

/-- The function `deleteVeth`. -/
def deleteVeth (w : World) (veth : String) : World × Option Error :=
  w.perform (deleteVethAction veth)

/-- The function `deletePodNS`. -/
def deletePodNS (w : World) (pod : String) : World × Option Error :=
  w.perform (deletePodNSAction pod)

/-- The loop `for _, tap := range q.tng.GeneratedNames()` of `Destroy`; an
error of `deleteTap` is logged and the loop goes on. -/
def destroyTaps : World → List String → World
  | w, [] => w
  | w, tap :: rest => destroyTaps (deleteTap w tap).1 rest

/-- The loop `for _, veth := range q.vng.GeneratedNames()` of `Destroy`; an
error of `deleteVeth` is logged and the loop goes on. -/
def destroyVeths : World → List String → World
  | w, [] => w
  | w, veth :: rest => destroyVeths (deleteVeth w veth).1 rest

/-- The loop `for _, pod := range c.Pods` of `Destroy`; an error of
`deletePodNS` is logged and the loop goes on. -/
def destroyPods : World → List Pod → World
  | w, [] => w
  | w, pod :: rest => destroyPods (deletePodNS w pod.Name).1 rest

/-- The loop `for _, n := range c.Networks` of `Destroy`: one call of
`destroyNatRules` per network; its error is logged and the loop goes on. -/
def destroyNetworks : World → List Network → Option World
  | w, [] => some w
  | w, _ :: rest =>
    match destroyNatRules w with
    | none => none
    | some (w1, _) => destroyNetworks w1 rest

/-- The method `(*QemuProvider).Destroy` for a non-nil cluster. The result is
the world after the call and the returned error. -/
def QemuProvider.Destroy (q : QemuProvider) (w : World) (c : Cluster) :
    Option (World × Option Error) :=
  let w1 := (w.perform (Action.removeAll q.tempDir)).1
  let w2 := destroyTaps w1 q.tng.GeneratedNames
  let w3 := destroyVeths w2 q.vng.GeneratedNames
  let w4 := destroyPods w3 c.Pods
  match destroyNetworks w4 c.Networks with
  | none => none
  | some w5 => some (w5, none)

/-! ## MAC addresses -/

/-- One lower-case hexadecimal digit, for a value below 16. -/
def hexDigit (n : Nat) : Char :=
  if n < 10 then Char.ofNat (48 + n) else Char.ofNat (87 + n)

/-- The verb `%02x` of `fmt` applied to a byte: two lower-case hexadecimal
digits. -/
def hex02 (b : UInt8) : String :=
  String.mk [hexDigit (b.toNat / 16), hexDigit (b.toNat % 16)]

/-- The function `generateRandomMACForKVM` as a function of the three bytes
that `rand.Read` stores in `bytes`. -/
def generateRandomMACForKVM (b0 b1 b2 : UInt8) : String :=
  let vendorPrefix := "52:54:00"
  vendorPrefix ++ ":" ++ hex02 b0 ++ ":" ++ hex02 b1 ++ ":" ++ hex02 b2

/-- The value of a hexadecimal digit, of either case. -/
def hexValue (c : Char) : Option Nat :=
  if '0' ≤ c ∧ c ≤ '9' then some (c.toNat - 48)
  else if 'a' ≤ c ∧ c ≤ 'f' then some (c.toNat - 87)
  else if 'A' ≤ c ∧ c ≤ 'F' then some (c.toNat - 55)
  else none

/-- The octet written with the two hexadecimal digits `hi`, `lo`. -/
def parseOctet (hi lo : Char) : Option Nat :=
  match hexValue hi, hexValue lo with
  | some h, some l => some (16 * h + l)
  | _, _ => none

/-- The six-octet colon form accepted by Go's `net.ParseMAC`
(`xx:xx:xx:xx:xx:xx`): the six octets, or `none` when the string does not have
this form. -/
def ParseMAC (s : String) : Option (List Nat) :=
  match s.data with
  | [a0, a1, ':', b0, b1, ':', c0, c1, ':', d0, d1, ':', e0, e1, ':', f0, f1] =>
    match parseOctet a0 a1, parseOctet b0 b1, parseOctet c0 c1, parseOctet d0 d1,
      parseOctet e0 e1, parseOctet f0 f1 with
    | some a, some b, some c, some d, some e, some f => some [a, b, c, d, e, f]
    | _, _, _, _, _, _ => none
  | _ => none

/-- Whether `c` is a decimal digit or one of `a` to `f`. -/
def isLowerHex (c : Char) : Bool :=
  ('0' ≤ c && c ≤ '9') || ('a' ≤ c && c ≤ 'f')

/-- Canonical colon-hex form: six groups of two lower-case hexadecimal digits
separated by colons. -/
def isCanonicalMAC (s : String) : Bool :=
  match s.data with
  | [a0, a1, ':', b0, b1, ':', c0, c1, ':', d0, d1, ':', e0, e1, ':', f0, f1] =>
    [a0, a1, b0, b1, c0, c1, d0, d1, e0, e1, f0, f1].all isLowerHex
  | _ => false

/-! ## Menu to template arguments (`template.go`, package `menu`)

IPv4 addresses and masks are their 32-bit values (`netutil.IP4ToInt` and
`netutil.IntToIP4` convert between the two forms); counts and indices are
natural numbers, taken to fit Go's `int`. -/

namespace Template

/-- The conversion `uint32(n)` of a non-negative `int`. -/
def uint32 (n : Nat) : Nat :=
  n % 2 ^ 32

/-- An IPv4 `net.IPNet`: address and mask as 32-bit values. -/
structure IPNet where
  IP : Nat
  Mask : Nat
deriving DecidableEq, Repr

/-- Go's `net.CIDRMask(ones, 32)` for `ones ≤ 32`: `ones` one-bits followed by
zero-bits. -/
def CIDRMask (ones : Nat) : Nat :=
  2 ^ 32 - 2 ^ (32 - ones)

/-- The first result of `net.IPMask.Size()` for a 32-bit mask: the number of
leading ones of a mask in canonical form, and 0 for any other mask. -/
def maskSize (mask : Nat) : Nat :=
  ((List.range 33).find? (fun ones => CIDRMask ones == mask)).getD 0

/-- The constant `torPerRack`. -/
def torPerRack : Nat := 2

/-- The constant `offsetNodenetToR`. -/
def offsetNodenetToR : Nat := 1

/-- The function `addToIPNet`. -/
def addToIPNet (netAddr : IPNet) (offset : Nat) : IPNet :=
  let ipInt := (netAddr.IP + uint32 offset) % 2 ^ 32
  { IP := ipInt, Mask := netAddr.Mask }

/-- The function `addToIP`. -/
def addToIP (netIP : Nat) (offset : Nat) (prefixSize : Nat) : IPNet :=
  let ipInt := (netIP + uint32 offset) % 2 ^ 32
  { IP := ipInt, Mask := CIDRMask prefixSize }

/-- The function `makeNodeNetwork`; `1 << uint(32-prefixSize) * nodeIdx` is
`(1 << (32-prefixSize)) * nodeIdx`. -/
def makeNodeNetwork (base : IPNet) (nodeIdx : Nat) : IPNet :=
  let mask := base.Mask
  let prefixSize := maskSize mask
  let offset := 2 ^ (32 - prefixSize) * nodeIdx
  let ipInt := (base.IP + uint32 offset) % 2 ^ 32
  { IP := ipInt, Mask := mask }

/-- The struct `ToR`. -/
structure ToR where
  Name : String
  SpineAddresses : List IPNet
  NodeAddress : IPNet
  NodeInterface : String
deriving DecidableEq, Repr

/-- The struct `Rack` without its node entries (`BootNode`, `CSList`,
`SSList`), which the properties below do not read. -/
structure Rack where
  Name : String
  ShortName : String
  ASN : Int
  NodeNetworkPrefixSize : Nat
  ToR1 : ToR
  ToR2 : ToR
  node0Network : IPNet
  node1Network : IPNet
  node2Network : IPNet
deriving DecidableEq, Repr

/-- The struct `Spine` without `CoreRouterAddress`. A slot of `ToRAddresses`
is `none` while it holds the nil pointer. -/
structure Spine where
  Name : String
  ShortName : String
  ToRAddresses : List (Option IPNet)
deriving DecidableEq, Repr

/-- The method `Spine.ToR1Address`; the outer `none` is the panic of an index
out of range. -/
def Spine.ToR1Address (s : Spine) (rackIdx : Nat) : Option (Option IPNet) :=
  s.ToRAddresses[rackIdx * 2]?

/-- The method `Spine.ToR2Address`; the outer `none` is the panic of an index
out of range. -/
def Spine.ToR2Address (s : Spine) (rackIdx : Nat) : Option (Option IPNet) :=
  s.ToRAddresses[rackIdx * 2 + 1]?

/-- The fields of `NetworkMenu` read by the parts of `ToTemplateArgs` modelled
here. -/
structure NetworkMenu where
  ASNBase : Int
  SpineTor : Nat
  Node : IPNet
deriving DecidableEq, Repr

/-- The struct `RackMenu`. -/
structure RackMenu where
  CS : Nat
  SS : Nat
deriving DecidableEq, Repr

/-- The struct `InventoryMenu`. -/
structure InventoryMenu where
  Spine : Nat
  Rack : List RackMenu
deriving DecidableEq, Repr

/-- The struct `NodeMenu`; its field `Type` is here `NodeType`, the integer
behind the Go type `NodeType` (`BootNode` 0, `CSNode` 1, `SSNode` 2). -/
structure NodeMenu where
  NodeType : Int
  CPU : Int
  Memory : String
deriving DecidableEq, Repr

/-- The struct `Menu` without `Account`. -/
structure Menu where
  Network : NetworkMenu
  Inventory : InventoryMenu
  Nodes : List NodeMenu
deriving DecidableEq, Repr

/-- The part of `TemplateArgs` built by the loops modelled here. -/
structure TemplateArgs where
  Racks : List Rack
  Spines : List Spine
deriving DecidableEq, Repr

/-- The table `spineToRackBases` of `ToTemplateArgs`. -/
def spineToRackBases (menu : Menu) : List (List Nat) :=
  let numRack := menu.Inventory.Rack.length
  let spineTorInt := menu.Network.SpineTor
  (List.range menu.Inventory.Spine).map (fun spineIdx =>
    (List.range numRack).map (fun rackIdx =>
      let offset := uint32 ((spineIdx * numRack + rackIdx) * torPerRack * 2)
      (spineTorInt + offset) % 2 ^ 32))

/-- The entry `bases[spineIdx][rackIdx]`. -/
def baseAt (bases : List (List Nat)) (spineIdx rackIdx : Nat) : Nat :=
  (bases.getD spineIdx []).getD rackIdx 0

/-- The function `constructToRAddresses`: the rack with `ToR1` and `ToR2`
filled in. -/
def constructToRAddresses (rack : Rack) (rackIdx : Nat) (menu : Menu)
    (bases : List (List Nat)) : Rack :=
  let tor1 : ToR :=
    { Name := rack.ToR1.Name,
      SpineAddresses := (List.range menu.Inventory.Spine).map
        (fun spineIdx => addToIP (baseAt bases spineIdx rackIdx) 1 31),
      NodeAddress := addToIPNet rack.node1Network offsetNodenetToR,
      NodeInterface := "eth" ++ toString menu.Inventory.Spine }
  let tor2 : ToR :=
    { Name := rack.ToR2.Name,
      SpineAddresses := (List.range menu.Inventory.Spine).map
        (fun spineIdx => addToIP (baseAt bases spineIdx rackIdx) 3 31),
      NodeAddress := addToIPNet rack.node2Network offsetNodenetToR,
      NodeInterface := "eth" ++ toString menu.Inventory.Spine }
  { rack with ToR1 := tor1, ToR2 := tor2 }

/-- The zero value of `ToR`. -/
def ToR.zero : ToR :=
  { Name := "", SpineAddresses := [], NodeAddress := { IP := 0, Mask := 0 }, NodeInterface := "" }

/-- The body of the loop `for rackIdx, rackMenu := range menu.Inventory.Rack`
of `ToTemplateArgs`, without the node entries. -/
def buildRack (menu : Menu) (bases : List (List Nat)) (rackIdx : Nat) : Rack :=
  let rack : Rack :=
    { Name := "rack" ++ toString rackIdx,
      ShortName := "r" ++ toString rackIdx,
      ASN := menu.Network.ASNBase + rackIdx,
      NodeNetworkPrefixSize := 0,
      ToR1 := ToR.zero,
      ToR2 := ToR.zero,
      node0Network := makeNodeNetwork menu.Network.Node (rackIdx * 3 + 0),
      node1Network := makeNodeNetwork menu.Network.Node (rackIdx * 3 + 1),
      node2Network := makeNodeNetwork menu.Network.Node (rackIdx * 3 + 2) }
  let rack1 := constructToRAddresses rack rackIdx menu bases
  { rack1 with NodeNetworkPrefixSize := maskSize menu.Network.Node.Mask }

/-- The loop `for rackIdx := range menu.Inventory.Rack` that fills
`spine.ToRAddresses`, over the rack indices `racks`, from the slice `addrs`. -/
def fillToRAddresses (bases : List (List Nat)) (spineIdx : Nat) :
    List Nat → List (Option IPNet) → List (Option IPNet)
  | [], addrs => addrs
  | rackIdx :: racks, addrs =>
    let addrs1 := addrs.set (rackIdx * torPerRack)
      (some (addToIP (baseAt bases spineIdx rackIdx) 0 31))
    let addrs2 := addrs1.set (rackIdx * torPerRack + 1)
      (some (addToIP (baseAt bases spineIdx rackIdx) 2 31))
    fillToRAddresses bases spineIdx racks addrs2

/-- The body of the loop that builds `templateArgs.Spines`, without
`CoreRouterAddress`. -/
def buildSpine (menu : Menu) (bases : List (List Nat)) (spineIdx : Nat) : Spine :=
  let numRack := menu.Inventory.Rack.length
  { Name := "spine" ++ toString (spineIdx + 1),
    ShortName := "s" ++ toString (spineIdx + 1),
    ToRAddresses := fillToRAddresses bases spineIdx (List.range numRack)
      (List.replicate (torPerRack * numRack) none) }

/-- The function `ToTemplateArgs`, restricted to the node type check, the
racks and the spines. -/
def ToTemplateArgs (menu : Menu) : Except Error TemplateArgs :=
  if menu.Nodes.all (fun node => node.NodeType == 0 || node.NodeType == 1 || node.NodeType == 2) then
    let numRack := menu.Inventory.Rack.length
    let bases := spineToRackBases menu
    Except.ok
      { Racks := (List.range numRack).map (buildRack menu bases),
        Spines := (List.range menu.Inventory.Spine).map (buildSpine menu bases) }
  else
    Except.error "invalid node type"

/-- Two addresses are the two hosts of one /31 link: they differ and agree on
their upper 31 bits. -/
def sameLink31 (a b : Nat) : Prop :=
  a ≠ b ∧ a / 2 = b / 2

/-- Address `a` lies in the network: it agrees with the network's IP on the
bits of the prefix. -/
def IPNet.contains (n : IPNet) (a : Nat) : Prop :=
  a / 2 ^ (32 - maskSize n.Mask) = n.IP / 2 ^ (32 - maskSize n.Mask)

/-- The node network number `k` of a rack: `node0Network`, `node1Network` or
`node2Network`. -/
def Rack.nodeNetwork (rack : Rack) (k : Nat) : IPNet :=
  match k with
  | 0 => rack.node0Network
  | 1 => rack.node1Network
  | _ => rack.node2Network

end Template

/-! ## SHA-1 and the node serial -/

/-- Rotation of a 32-bit word to the left by `k` bits. -/
def rotl32 (x k : Nat) : Nat :=
  ((x <<< k) ||| (x >>> (32 - k))) % 2 ^ 32

/-- The padded message of SHA-1: the message, the byte 0x80, zero bytes up to
56 modulo 64, and the bit length as 8 bytes, big-endian. -/
def sha1Pad (msg : List Nat) : List Nat :=
  let bits := 8 * msg.length
  let zeros := (119 - msg.length % 64) % 64
  msg ++ [0x80] ++ List.replicate zeros 0
    ++ (List.range 8).map (fun i => (bits >>> (8 * (7 - i))) % 256)

/-- The 80 words of the message schedule of one 64-byte block. -/
def sha1Schedule (block : List Nat) : List Nat :=
  let w16 := (List.range 16).map (fun i =>
    block.getD (4 * i) 0 * 2 ^ 24 + block.getD (4 * i + 1) 0 * 2 ^ 16
      + block.getD (4 * i + 2) 0 * 2 ^ 8 + block.getD (4 * i + 3) 0)
  (List.range 64).foldl (fun w j =>
    let i := j + 16
    w ++ [rotl32 (w.getD (i - 3) 0 ^^^ w.getD (i - 8) 0 ^^^ w.getD (i - 14) 0
      ^^^ w.getD (i - 16) 0) 1]) w16

/-- The five 32-bit words of the SHA-1 state. -/
structure Sha1State where
  a : Nat
  b : Nat
  c : Nat
  d : Nat
  e : Nat
deriving DecidableEq, Repr

/-- One of the 80 rounds of the SHA-1 compression function. -/
def sha1Round (w : List Nat) (s : Sha1State) (i : Nat) : Sha1State :=
  let f :=
    if i < 20 then (s.b &&& s.c) ||| ((s.b ^^^ 0xFFFFFFFF) &&& s.d)
    else if i < 40 then s.b ^^^ s.c ^^^ s.d
    else if i < 60 then (s.b &&& s.c) ||| (s.b &&& s.d) ||| (s.c &&& s.d)
    else s.b ^^^ s.c ^^^ s.d
  let k :=
    if i < 20 then 0x5A827999
    else if i < 40 then 0x6ED9EBA1
    else if i < 60 then 0x8F1BBCDC
    else 0xCA62C1D6
  let temp := (rotl32 s.a 5 + f + s.e + k + w.getD i 0) % 2 ^ 32
  { a := temp, b := s.a, c := rotl32 s.b 30, d := s.c, e := s.d }

/-- The SHA-1 compression of one block into the state `h`. -/
def sha1Block (h : Sha1State) (block : List Nat) : Sha1State :=
  let w := sha1Schedule block
  let s := (List.range 80).foldl (sha1Round w) h
  { a := (h.a + s.a) % 2 ^ 32, b := (h.b + s.b) % 2 ^ 32, c := (h.c + s.c) % 2 ^ 32,
    d := (h.d + s.d) % 2 ^ 32, e := (h.e + s.e) % 2 ^ 32 }

/-- The four bytes of a 32-bit word, big-endian. -/
def wordBytes (x : Nat) : List UInt8 :=
  [UInt8.ofNat (x / 2 ^ 24 % 256), UInt8.ofNat (x / 2 ^ 16 % 256),
    UInt8.ofNat (x / 2 ^ 8 % 256), UInt8.ofNat (x % 256)]

/-- Go's `sha1.Sum`: the 20 bytes of the SHA-1 digest of the message. -/
def sha1Sum (msg : List UInt8) : List UInt8 :=
  let padded := sha1Pad (msg.map UInt8.toNat)
  let h0 : Sha1State :=
    { a := 0x67452301, b := 0xEFCDAB89, c := 0x98BADCFE, d := 0x10325476, e := 0xC3D2E1F0 }
  let h := (List.range (padded.length / 64)).foldl
    (fun h i => sha1Block h ((padded.drop (64 * i)).take 64)) h0
  wordBytes h.a ++ wordBytes h.b ++ wordBytes h.c ++ wordBytes h.d ++ wordBytes h.e

/-- The function `nodeSerial`: the verb `%x` applied to the 20 bytes of
`sha1.Sum([]byte(name))`. -/
def nodeSerial (name : String) : String :=
  String.mk ((sha1Sum name.toUTF8.data.toList).flatMap (fun b => (hex02 b).data))

/-! ## Starting a node -/

/-- The constant `defaultOVMFCodePath`. -/
def defaultOVMFCodePath : String := "/usr/share/OVMF/OVMF_CODE.fd"

/-- The constant `defaultOVMFVarsPath`. -/
def defaultOVMFVarsPath : String := "/usr/share/OVMF/OVMF_VARS.fd"

/-- The constant `defaultRebootTimeout`, a `time.Duration` in nanoseconds. -/
def defaultRebootTimeout : Nat := 30 * 1000000000

/-- The constant `time.Millisecond`, in nanoseconds. -/
def Millisecond : Nat := 1000000

/-- The error for which `os.IsNotExist` holds. -/
def ENOENT : Error := "no such file or directory"

/-- Go's `os.IsNotExist` on a non-nil error. -/
def IsNotExist (err : Error) : Bool :=
  err == ENOENT

/-- The method `socketPath`; `Join` stands for `filepath.Join`. -/
def QemuProvider.socketPath (Join : List String → String) (q : QemuProvider) (host : String) :
    String :=
  Join [q.RunDir, host ++ ".socket"]

/-- The method `monitorSocketPath`; `Join` stands for `filepath.Join`. -/
def QemuProvider.monitorSocketPath (Join : List String → String) (q : QemuProvider)
    (host : String) : String :=
  Join [q.RunDir, host ++ ".monitor"]

/-- The method `nvramPath`; `Join` stands for `filepath.Join`. -/
def QemuProvider.nvramPath (Join : List String → String) (q : QemuProvider) (host : String) :
    String :=
  Join [q.dataDir, "nvram", host ++ ".fd"]

/-- An instance of `Join` for paths whose elements are clean and non-empty:
the elements separated by "/". -/
def joinSlash (elems : List String) : String :=
  "/".intercalate elems

/-- The method `qemuParams`: the arguments and the node after the call (its
SMBIOS serial is set when it was empty). The deferred `os.Remove` of the
serial socket path is not part of the model. -/
def QemuProvider.qemuParams (Join : List String → String) (q : QemuProvider) (n : Node) :
    List String × Node :=
  let params0 := ["-enable-kvm"]
  let params1 :=
    if n.IgnitionFile != "" then
      (params0 ++ ["-fw_cfg"]) ++ ["opt/com.coreos/config,file=" ++ n.IgnitionFile]
    else params0
  let params2 := if n.CPU != 0 then params1 ++ ["-smp", toString n.CPU] else params1
  let params3 := if n.Memory != "" then params2 ++ ["-m", n.Memory] else params2
  let params4 :=
    if q.NoGraphic then
      (params3 ++ ["-nographic"])
        ++ ["-serial", "unix:" ++ q.socketPath Join n.Name ++ ",server,nowait"]
    else params3
  let params5 :=
    if n.UEFI then
      (params4 ++ ["-drive", "if=pflash,file=" ++ defaultOVMFCodePath ++ ",format=raw,readonly"])
        ++ ["-drive", "if=pflash,file=" ++ q.nvramPath Join n.Name ++ ",format=raw"]
    else params4
  let smbios0 := "type=1"
  let smbios1 :=
    if n.SMBIOS.Manufacturer != "" then smbios0 ++ (",manufacturer=" ++ n.SMBIOS.Manufacturer)
    else smbios0
  let smbios2 :=
    if n.SMBIOS.Product != "" then smbios1 ++ (",product=" ++ n.SMBIOS.Product) else smbios1
  let n1 : Node :=
    if n.SMBIOS.Serial == "" then
      { n with SMBIOS := { n.SMBIOS with Serial := nodeSerial n.Name } }
    else n
  let smbios3 := smbios2 ++ (",serial=" ++ n1.SMBIOS.Serial)
  (params5 ++ ["-smbios", smbios3], n1)

/-- The command list of `createTap`. -/
def createTapCommands (tap : String) (network : String) : List (List String) :=
  [["ip", "tuntap", "add", tap, "mode", "tap"],
    ["ip", "link", "set", tap, "master", network],
    ["ip", "link", "set", tap, "up"]]

/-- The function `createTap`. -/
def createTap (w : World) (tap : String) (network : String) : Option (World × Option Error) :=
  execCommands w (createTapCommands tap network)

/-- The function `createNVRAM`; `stat` is the error of `os.Stat(p)`. -/
def createNVRAM (w : World) (stat : Option Error) (p : String) : World × Option Error :=
  match stat with
  | some err =>
    if !IsNotExist err then (w, none)
    else w.perform (Action.run "cp" [defaultOVMFVarsPath, p])
  | none => (w, none)

/-- One round of the loop that waits for the monitor socket: the error of
`os.Stat(monitor)` and, for the `select` that follows a not-exist error,
whether `ctx.Done()` is taken instead of the timer. -/
structure Poll where
  stat : Option Error
  done : Bool
deriving DecidableEq, Repr

/-- How the wait for the monitor socket ends: the file is there, the context
was cancelled, `os.Stat` failed, or the loop is still polling after the rounds
given. -/
inductive WaitResult where
  | found
  | canceled
  | failed (err : Error)
  | polling
deriving DecidableEq, Repr

/-- The loop `for { _, err = os.Stat(monitor) ... }` of `startNode` over the
rounds it goes through. -/
def waitMonitor : List Poll → WaitResult
  | [] => WaitResult.polling
  | p :: rest =>
    match p.stat with
    | none => WaitResult.found
    | some err =>
      if IsNotExist err then
        if p.done then WaitResult.canceled else waitMonitor rest
      else WaitResult.failed err

/-- What `startNode` meets outside the host commands: whether `vhost_net` was
found at start-up, the bytes `rand.Read` gives to each generated MAC address,
and the results of `os.Stat` on the NVRAM file, of `qemuCommand.Start()`, of the
rounds of the monitor wait, of `net.Dial` and of `qemuCommand.Wait()`. -/
structure NodeEnv where
  vhostNetSupported : Bool
  macBytes : Nat → UInt8 × UInt8 × UInt8
  nvramStat : Option Error
  startErr : Option Error
  polls : List Poll
  dialErr : Option Error
  waitErr : Option Error

/-- The loop `for _, br := range n.Interfaces` of `startNode`, from the
interface number `i` on: the host, the tap name generator, the error returned
from inside the loop if any, and `params`. -/
def startNodeTaps (env : NodeEnv) (uefi : Bool) :
    World → nameGenerator → Nat → List String → List String →
      Option (World × nameGenerator × Option Error × List String)
  | w, tng, _, [], params => some (w, tng, none, params)
  | w, tng, i, br :: rest, params =>
    match createTap w tng.New.1 br with
    | none => none
    | some (w1, some err) => some (w1, tng.New.2, some err, params)
    | some (w1, none) =>
      let tap := tng.New.1
      let netdev0 := "tap,id=" ++ br ++ ",ifname=" ++ tap ++ ",script=no,downscript=no"
      let netdev := if env.vhostNetSupported then netdev0 ++ ",vhost=on" else netdev0
      let params1 := params ++ ["-netdev", netdev]
      let devParams0 := ["virtio-net-pci", "netdev=" ++ br,
        "mac=" ++ generateRandomMACForKVM (env.macBytes i).1 (env.macBytes i).2.1
          (env.macBytes i).2.2]
      let devParams := if uefi then devParams0 ++ ["romfile="] else devParams0
      let params2 := params1 ++ ["-device", ",".intercalate devParams]
      startNodeTaps env uefi w1 tng.New.2 (i + 1) rest params2

/-- What a call of `startNode` has done: the node and the tap name generator
after it, the host, the arguments of `qemu-system-x86_64` and the writer bound
to its stdout once the command has been built, whether the monitor was
dialled, the serial and handle passed to `registerVM`, and the returned error
(`none` while the call is still waiting for the monitor socket). -/
structure NodeRun where
  node : Node
  tng : nameGenerator
  world : World
  args : Option (List String)
  stdout : Option processWriter
  dialed : Bool
  registered : Option (String × nodeVM)
  returned : Option (Option Error)

/-- The first part of `startNode`, up to and including `qemuCommand.Start()`;
`nodeCh` is the channel of the BMC server. In the result `returned` is `none`
when the process has been started and the call goes on to wait for the
monitor socket. The result is `none` when the Go code panics. The stderr
writer is not part of the model. -/
def QemuProvider.launchNode (Join : List String → String) (env : NodeEnv) (q : QemuProvider)
    (w : World) (nodeCh : List bmcInfo) (n : Node) : Option NodeRun :=
  let qp := q.qemuParams Join n
  let n1 := qp.2
  let params0 := n.params ++ qp.1
  match startNodeTaps env n1.UEFI w q.tng 0 n1.Interfaces params0 with
  | none => none
  | some (w1, tng1, some err, _) =>
    some { node := n1, tng := tng1, world := w1, args := none, stdout := none, dialed := false,
           registered := none, returned := some (some err) }
  | some (w1, tng1, none, params1) =>
    let nv := if n1.UEFI then createNVRAM w1 env.nvramStat (q.nvramPath Join n1.Name)
      else (w1, none)
    match nv.2 with
    | some err =>
      some { node := n1, tng := tng1, world := nv.1, args := none, stdout := none,
             dialed := false, registered := none, returned := some (some err) }
    | none =>
      let params2 := params1
        ++ ["-boot", "reboot-timeout=" ++ toString (defaultRebootTimeout / Millisecond)]
      let params3 := params2 ++ ["-serial", "stdio"]
      let monitor := q.monitorSocketPath Join n1.Name
      let params4 := params3 ++ ["-monitor", "unix:" ++ monitor ++ ",server,nowait"]
      let pw : processWriter :=
        { data := [], serial := n1.SMBIOS.Serial, sent := false, ch := nodeCh }
      some { node := n1, tng := tng1, world := nv.1, args := some params4, stdout := some pw,
             dialed := false, registered := none, returned := env.startErr.map some }

/-- The second part of `startNode`, after `qemuCommand.Start()` has succeeded:
the wait for the monitor socket, `net.Dial`, `registerVM` and
`qemuCommand.Wait()`, over the rounds `polls` of the wait. The deferred closing
of the connection and removal of the monitor socket and the goroutine that
drains the connection are not part of the model. -/
def superviseNode (polls : List Poll) (dialErr waitErr : Option Error) (run : NodeRun) :
    NodeRun :=
  match waitMonitor polls with
  | WaitResult.polling => run
  | WaitResult.canceled => { run with returned := some none }
  | WaitResult.failed err => { run with returned := some (some err) }
  | WaitResult.found =>
    match dialErr with
    | some err => { run with dialed := true, returned := some (some err) }
    | none =>
      { run with
        dialed := true,
        registered := some (run.node.SMBIOS.Serial,
          { monitor := { written := [] }, running := true }),
        returned := some waitErr }

/-- The method `startNode`. The result is `none` when the Go code panics; in
the `NodeRun`, `returned` is `none` while the call is still waiting for the
monitor socket after the rounds `env.polls`. -/
def QemuProvider.startNode (Join : List String → String) (env : NodeEnv) (q : QemuProvider)
    (w : World) (nodeCh : List bmcInfo) (n : Node) : Option NodeRun :=
  match q.launchNode Join env w nodeCh n with
  | none => none
  | some run =>
    match run.returned with
    | some _ => some run
    | none => some (superviseNode env.polls env.dialErr env.waitErr run)

/-- The name that the generator issues at its call number `i` of `New`,
counted from its present state. -/
def nameGenerator.nameAt (g : nameGenerator) (i : Nat) : String :=
  g.pfx ++ toString (g.id + i)

/-- The generator after `k` calls of `New`. -/
def nameGenerator.after (g : nameGenerator) (k : Nat) : nameGenerator :=
  { pfx := g.pfx, id := g.id + k,
    generatedNames := g.generatedNames ++ (List.range k).map g.nameAt }

/-- The `-netdev` argument for a tap on a bridge. -/
def netdevArg (vhost : Bool) (br tap : String) : String :=
  "tap,id=" ++ br ++ ",ifname=" ++ tap ++ ",script=no,downscript=no"
    ++ (if vhost then ",vhost=on" else "")

/-- The `-device` argument for an interface on a bridge. -/
def deviceArg (uefi : Bool) (br mac : String) : String :=
  "virtio-net-pci,netdev=" ++ br ++ ",mac=" ++ mac ++ (if uefi then ",romfile=" else "")

/-- The commands of `createTap` for the interfaces `brs`, the tap of interface
number `i` being the name issued at call number `i`. -/
def nodeTapCommands (g : nameGenerator) (brs : List String) : List (List String) :=
  (brs.enumFrom 0).flatMap (fun p => createTapCommands (g.nameAt p.1) p.2)

/-- The `-netdev`/`-device` pairs for the interfaces `brs`, in order, the MAC
address of interface number `p.1` made of the bytes `macBytes (i + p.1)`. -/
def nodeNetArgsFrom (env : NodeEnv) (uefi : Bool) (g : nameGenerator) (i : Nat)
    (brs : List String) : List String :=
  (brs.enumFrom 0).flatMap (fun p =>
    ["-netdev", netdevArg env.vhostNetSupported p.2 (g.nameAt p.1),
      "-device", deviceArg uefi p.2
        (generateRandomMACForKVM (env.macBytes (i + p.1)).1 (env.macBytes (i + p.1)).2.1
          (env.macBytes (i + p.1)).2.2)])

/-- The serial of a node: the configured SMBIOS serial, or `nodeSerial` of the
name when none is configured. -/
def effectiveSerial (n : Node) : String :=
  if n.SMBIOS.Serial = "" then nodeSerial n.Name else n.SMBIOS.Serial

/-- The value of the `-smbios` argument for a node and a serial. -/
def smbiosArg (n : Node) (serial : String) : String :=
  "type=1"
    ++ (if n.SMBIOS.Manufacturer = "" then "" else ",manufacturer=" ++ n.SMBIOS.Manufacturer)
    ++ (if n.SMBIOS.Product = "" then "" else ",product=" ++ n.SMBIOS.Product)
    ++ (",serial=" ++ serial)

/-- A provider after `Setup`, with nothing issued yet. -/
def exampleProvider : QemuProvider :=
  { NoGraphic := false, Debug := false, RunDir := "/run/placemat",
    tng := { pfx := "pmtap", id := 0, generatedNames := [] },
    vng := { pfx := "pmveth", id := 0, generatedNames := [] },
    dataDir := "/var/scratch/placemat", tempDir := "/var/scratch/placemat/temp/1" }

/-- A node `node1` with 2 CPUs, 2G of memory, the serial `SN-1`, and the given
UEFI flag and interfaces. -/
def exampleNode (uefi : Bool) (interfaces : List String) : Node :=
  { Name := "node1", Interfaces := interfaces, CPU := 2, Memory := "2G", UEFI := uefi,
    IgnitionFile := "", SMBIOS := { Manufacturer := "", Product := "", Serial := "SN-1" },
    volumes := [], params := [] }

/-- An environment without vhost, with MAC bytes `(i, 1, 2)` for interface
number `i`, the given result of `os.Stat` on the NVRAM file and rounds of the
monitor wait, and no failure of `Start`, `Dial` or `Wait`. -/
def exampleEnv (nvramStat : Option Error) (polls : List Poll) : NodeEnv :=
  { vhostNetSupported := false, macBytes := fun i => (UInt8.ofNat i, 1, 2),
    nvramStat := nvramStat, startErr := none, polls := polls, dialErr := none,
    waitErr := none }

/-- The run of `startNode` for `exampleNode false []` right after the VM
process has been started. -/
def exampleLaunchedRun : NodeRun :=
  { node := exampleNode false [],
    tng := exampleProvider.tng,
    world := hostFailing [],
    args := some ["-enable-kvm", "-smp", "2", "-m", "2G", "-smbios", "type=1,serial=SN-1",
      "-boot", "reboot-timeout=30000", "-serial", "stdio",
      "-monitor", "unix:/run/placemat/node1.monitor,server,nowait"],
    stdout := some { data := [], serial := "SN-1", sent := false, ch := [] },
    dialed := false,
    registered := none,
    returned := none }

/-! ## Start -/

/-- The loop `for _, n := range c.Networks` of `Start`. -/
def createNetworks : World → List Network → World × Option Error
  | w, [] => (w, none)
  | w, n :: rest =>
    match w.perform (Action.networkCreate n.Name) with
    | (w1, some err) => (w1, some err)
    | (w1, none) => createNetworks w1 rest

/-- The loop `for _, df := range c.DataFolders` of `Start`. -/
def prepareDataFolders : World → List DataFolder → World × Option Error
  | w, [] => (w, none)
  | w, df :: rest =>
    match w.perform (Action.dataFolderPrepare df.Name) with
    | (w1, some err) => (w1, some err)
    | (w1, none) => prepareDataFolders w1 rest

/-- The loop `for _, vol := range n.volumes` of `prepareNode`, over the volumes
still to prepare: the host, the returned error, and the node with the
arguments of the created volumes appended to `params`. -/
def prepareNodeLoop (Join : List String → String) (q : QemuProvider) :
    World → Node → List Volume → World × Option Error × Node
  | w, n, [] => (w, none, n)
  | w, n, vol :: rest =>
    let p := Join [q.dataDir, "volumes", n.Name]
    match w.perform (Action.mkdirAll p) with
    | (w1, some err) => (w1, some err, n)
    | (w1, none) =>
      match w1.perform (Action.volumeCreate n.Name vol.Name p) with
      | (w2, some err) => (w2, some err, n)
      | (w2, none) => prepareNodeLoop Join q w2 { n with params := n.params ++ vol.args } rest

/-- The method `prepareNode`. -/
def QemuProvider.prepareNode (Join : List String → String) (q : QemuProvider) (w : World)
    (n : Node) : World × Option Error × Node :=
  prepareNodeLoop Join q w n n.volumes

/-- The loop `for _, n := range c.Nodes` of `Start`: the host, the returned
error and the nodes after the loop. -/
def prepareNodes (Join : List String → String) (q : QemuProvider) :
    World → List Node → World × Option Error × List Node
  | w, [] => (w, none, [])
  | w, n :: rest =>
    match q.prepareNode Join w n with
    | (w1, some err, n1) => (w1, some err, n1 :: rest)
    | (w1, none, n1) =>
      match prepareNodes Join q w1 rest with
      | (w2, err, rest1) => (w2, err, n1 :: rest1)

/-- The effect of `fetchImage(ctx, image)`. -/
def fetchImageAction (image : String) : Action :=
  Action.run "rkt" ["--pull-policy=new", "--insecure-options=image", "fetch", image]

/-- The method `fetchImage`. -/
def fetchImage (w : World) (image : String) : World × Option Error :=
  w.perform (fetchImageAction image)

/-- The method `preparePod`, over the apps still to fetch. -/
def preparePod : World → List PodApp → World × Option Error
  | w, [] => (w, none)
  | w, a :: rest =>
    match fetchImage w a.Image with
    | (w1, some err) => (w1, some err)
    | (w1, none) => preparePod w1 rest

/-- The loop `for _, p := range c.Pods` of `Start`. -/
def preparePods : World → List Pod → World × Option Error
  | w, [] => (w, none)
  | w, p :: rest =>
    match preparePod w p.Apps with
    | (w1, some err) => (w1, some err)
    | (w1, none) => preparePods w1 rest

/-- The calls `env.Go(...)` of `Start` for the nodes: one task per node. -/
def goNodes : World → List Node → World
  | w, [] => w
  | w, n :: rest => goNodes (w.perform (Action.goTask (Task.startNode n.Name))).1 rest

/-- The calls `env.Go(...)` of `Start` for the pods: one task per pod. -/
def goPods : World → List Pod → World
  | w, [] => w
  | w, p :: rest => goPods (w.perform (Action.goTask (Task.startPod p.Name))).1 rest

/-- The body of `Start` after `NewRootfs()` has succeeded and before the
deferred `root.Destroy()`. The result is `none` when the Go code panics. -/
def QemuProvider.startBody (Join : List String → String) (q : QemuProvider) (w : World)
    (c : Cluster) : Option (World × Option Error) :=
  match createNatRules w with
  | none => none
  | some (w1, some err) => some (w1, some err)
  | some (w1, none) =>
    match createNetworks w1 c.Networks with
    | (w2, some err) => some (w2, some err)
    | (w2, none) =>
      match prepareDataFolders w2 c.DataFolders with
      | (w3, some err) => some (w3, some err)
      | (w3, none) =>
        match prepareNodes Join q w3 c.Nodes with
        | (w4, some err, _) => some (w4, some err)
        | (w4, none, nodes) =>
          match preparePods w4 c.Pods with
          | (w5, some err) => some (w5, some err)
          | (w5, none) =>
            match w5.perform (Action.bmcSetup (c.Networks.map (fun n => n.Name))) with
            | (w6, some err) => some (w6, some err)
            | (w6, none) =>
              let w7 := (w6.perform (Action.goTask Task.handleNode)).1
              let w8 := goNodes w7 nodes
              let w9 := goPods w8 c.Pods
              let w10 := (w9.perform Action.envStop).1
              some (w10.perform Action.envWait)

/-- The method `Start`: the host after the call and the returned error. The
result is `none` when the Go code panics. -/
def QemuProvider.Start (Join : List String → String) (q : QemuProvider) (w : World)
    (c : Cluster) : Option (World × Option Error) :=
  match w.perform Action.newRootfs with
  | (w0, some err) => some (w0, some err)
  | (w0, none) =>
    match q.startBody Join w0 c with
    | none => none
    | some (w1, err) => some ((w1.perform Action.rootDestroy).1, err)

/-- The setup steps of `Start` for a cluster, in order: root filesystem
staging, NAT rules, networks, data folders, the volumes of the nodes (directory
and creation), the images of the pods, BMC server setup. -/
def setupActions (Join : List String → String) (q : QemuProvider) (c : Cluster) :
    List Action :=
  [Action.newRootfs]
    ++ createNatRulesCommands.map toAction
    ++ c.Networks.map (fun n => Action.networkCreate n.Name)
    ++ c.DataFolders.map (fun df => Action.dataFolderPrepare df.Name)
    ++ c.Nodes.flatMap (fun n => n.volumes.flatMap (fun vol =>
        [Action.mkdirAll (Join [q.dataDir, "volumes", n.Name]),
          Action.volumeCreate n.Name vol.Name (Join [q.dataDir, "volumes", n.Name])]))
    ++ c.Pods.flatMap (fun p => p.Apps.map (fun a => fetchImageAction a.Image))
    ++ [Action.bmcSetup (c.Networks.map (fun n => n.Name))]

/-- The tasks `Start` launches and its wait, in order: the BMC handler, one
task per node, one task per pod, `env.Stop()`, `env.Wait()`. -/
def launchActions (c : Cluster) : List Action :=
  [Action.goTask Task.handleNode]
    ++ c.Nodes.map (fun n => Action.goTask (Task.startNode n.Name))
    ++ c.Pods.map (fun p => Action.goTask (Task.startPod p.Name))
    ++ [Action.envStop, Action.envWait]

/-- The result of effect number `i` of `actions` right after the effects
before it, starting in world `w`. -/
def actionOutcomeAt (w : World) (actions : List Action) (i : Nat) : Option Error :=
  w.outcome (w.trace ++ actions.take i) (actions.getD i Action.envWait)

/-- Perform the effects in order, stopping at the first that fails. -/
def performAll : World → List Action → World × Option Error
  | w, [] => (w, none)
  | w, a :: rest =>
    match w.perform a with
    | (w1, some err) => (w1, some err)
    | (w1, none) => performAll w1 rest

/-- Whether an effect is the launch of a node task or of a pod task. -/
def isNodeOrPodTask : Action → Bool
  | Action.goTask (Task.startNode _) => true
  | Action.goTask (Task.startPod _) => true
  | _ => false

/-- A cluster with the network `net0`, the data folder `data`, the node
`exampleNode false ["net0"]` and no pod. -/
def exampleCluster : Cluster :=
  { Networks := [{ Name := "net0" }],
    Nodes := [exampleNode false ["net0"]],
    Pods := [],
    DataFolders := [{ Name := "data" }] }

/-- A cluster that declares no network (and no node, pod or data folder). -/
def emptyCluster : Cluster :=
  { Networks := [], Nodes := [], Pods := [], DataFolders := [] }

/-- A node `node1` with 2 CPUs, 2G of memory, no interface and no configured
SMBIOS serial. -/
def exampleUnserialledNode : Node :=
  { Name := "node1", Interfaces := [], CPU := 2, Memory := "2G", UEFI := false,
    IgnitionFile := "", SMBIOS := { Manufacturer := "", Product := "", Serial := "" },
    volumes := [], params := [] }

/-- The run of `startNode` for `exampleUnserialledNode` when the monitor socket
is there at the first round and the VM process exits without error. -/
def exampleDefaultSerialRun : NodeRun :=
  { node :=
      { Name := "node1", Interfaces := [], CPU := 2, Memory := "2G", UEFI := false,
        IgnitionFile := "",
        SMBIOS := { Manufacturer := "", Product := "", Serial := nodeSerial "node1" },
        volumes := [], params := [] },
    tng := exampleProvider.tng,
    world := hostFailing [],
    args := some ["-enable-kvm", "-smp", "2", "-m", "2G", "-smbios",
      "type=1" ++ (",serial=" ++ nodeSerial "node1"),
      "-boot", "reboot-timeout=30000", "-serial", "stdio",
      "-monitor", "unix:/run/placemat/node1.monitor,server,nowait"],
    stdout := some { data := [], serial := nodeSerial "node1", sent := false, ch := [] },
    dialed := true,
    registered := some (nodeSerial "node1", startedVM),
    returned := some none }

/-! # Properties -/

theorem take_indexOf_eq_takeWhile (p : List UInt8) (c : UInt8) :
    p.take (p.indexOf c) = p.takeWhile (fun b => b != c) := by
  induction p with
  | nil => rfl
  | cons x xs ih =>
    by_cases h : x = c
    · subst h
      simp [List.indexOf_cons, List.takeWhile_cons]
    · have h2 : (x == c) = false := by simpa using h
      simp [List.indexOf_cons, List.takeWhile_cons, h2, ih, h]

theorem IndexByte_eq_neg_one (p : List UInt8) (c : UInt8) :
    (IndexByte p c == -1) = !decide (c ∈ p) := by
  unfold IndexByte
  by_cases h : c ∈ p
  · have : ((p.indexOf c : Nat) : Int) ≠ -1 := by omega
    simp [h, this]
  · simp [h]

theorem Write_sent (T : List UInt8 → List UInt8) (w : processWriter) (p : List UInt8)
    (h : w.sent = true) : w.Write T p = (w, p.length, none) := by
  simp [processWriter.Write, h]

theorem Write_noNewline (T : List UInt8 → List UInt8) (w : processWriter) (p : List UInt8)
    (hs : w.sent = false) (hp : (10 : UInt8) ∉ p) :
    w.Write T p =
      (if (w.data ++ p).length > maxBufferSize then { w with data := [] }
        else { w with data := w.data ++ p }, p.length, none) := by
  simp only [processWriter.Write, hs, IndexByte_eq_neg_one, hp]
  by_cases h : maxBufferSize < w.data.length + p.length <;> simp [h]

theorem Write_newline (T : List UInt8 → List UInt8) (w : processWriter) (p : List UInt8)
    (hs : w.sent = false) (hp : (10 : UInt8) ∈ p) :
    w.Write T p =
      ({ data := w.data ++ p.takeWhile (fun b => b != 10), serial := w.serial, sent := true,
         ch := w.ch ++ [bmcInfo.mk w.serial (T (w.data ++ p.takeWhile (fun b => b != 10)))] },
        p.length, none) := by
  have hi : (IndexByte p 10).toNat = p.indexOf 10 := by simp [IndexByte, hp]
  simp [processWriter.Write, hs, IndexByte_eq_neg_one, hp, hi, take_indexOf_eq_takeWhile]

theorem writeAll_append (T : List UInt8 → List UInt8) (w : processWriter)
    (a b : List (List UInt8)) :
    w.writeAll T (a ++ b) = (w.writeAll T a).writeAll T b := by
  induction a generalizing w with
  | nil => rfl
  | cons x xs ih => simp [processWriter.writeAll, ih]

theorem writeAll_sent (T : List UInt8 → List UInt8) (w : processWriter)
    (ps : List (List UInt8)) (h : w.sent = true) : w.writeAll T ps = w := by
  induction ps with
  | nil => rfl
  | cons x xs ih => simp [processWriter.writeAll, Write_sent T w x h, ih]


theorem writeAll_sends (T : List UInt8 → List UInt8) (ps : List (List UInt8)) :
    ∀ w : processWriter, ∃ sends : List bmcInfo,
      (w.writeAll T ps).ch = w.ch ++ sends ∧ sends.length ≤ 1 ∧
        (sends ≠ [] → (w.writeAll T ps).sent = true) := by
  induction ps with
  | nil => intro w; exact ⟨[], by simp [processWriter.writeAll]⟩
  | cons p ps ih =>
    intro w
    cases hs : w.sent with
    | true => exact ⟨[], by simp [writeAll_sent T w (p :: ps) hs]⟩
    | false =>
      by_cases hp : (10 : UInt8) ∈ p
      · refine ⟨[bmcInfo.mk w.serial (T (w.data ++ p.takeWhile (fun b => b != 10)))], ?_⟩
        simp only [processWriter.writeAll, Write_newline T w p hs hp]
        rw [writeAll_sent T _ ps rfl]
        simp
      · obtain ⟨sends, h1, h2, h3⟩ := ih (w.Write T p).1
        refine ⟨sends, ?_, h2, ?_⟩
        · simp only [processWriter.writeAll, h1]
          rw [Write_noNewline T w p hs hp]
          split_ifs <;> rfl
        · simpa only [processWriter.writeAll] using h3

theorem writeAll_noNewline (T : List UInt8 → List UInt8) (cs : List (List UInt8)) :
    ∀ w : processWriter, w.sent = false → (∀ c ∈ cs, (10 : UInt8) ∉ c) →
      (w.writeAll T cs).ch = w.ch ∧ (w.writeAll T cs).sent = false ∧
        (w.writeAll T cs).serial = w.serial := by
  induction cs with
  | nil => intro w hs _; exact ⟨rfl, hs, rfl⟩
  | cons c cs ih =>
    intro w hs hc
    have hc0 : (10 : UInt8) ∉ c := hc c (List.mem_cons_self _ _)
    have hw : (w.Write T c).1.ch = w.ch ∧ (w.Write T c).1.sent = false ∧
        (w.Write T c).1.serial = w.serial := by
      rw [Write_noNewline T w c hs hc0]
      split_ifs <;> exact ⟨rfl, hs, rfl⟩
    obtain ⟨h1, h2, h3⟩ := ih (w.Write T c).1 hw.2.1 (fun x hx => hc x (List.mem_cons_of_mem _ hx))
    simp only [processWriter.writeAll]
    exact ⟨h1.trans hw.1, h2, h3.trans hw.2.2⟩

/-- C1: over any sequence of `Write` calls on any `processWriter` at most one
`bmcInfo` is added to the channel, and once the channel has received one, a
further `Write` of any chunk leaves the writer (buffer, flag and channel)
as it is and returns `n = len(p)` with a nil error. -/
theorem processWriter_sends_at_most_once (T : List UInt8 → List UInt8) (w : processWriter)
    (ps : List (List UInt8)) :
    (∃ sends : List bmcInfo, (w.writeAll T ps).ch = w.ch ++ sends ∧ sends.length ≤ 1) ∧
    (∀ p : List UInt8, (w.writeAll T ps).ch ≠ w.ch →
      (w.writeAll T ps).Write T p = (w.writeAll T ps, p.length, none)) := by
  obtain ⟨sends, h1, h2, h3⟩ := writeAll_sends T ps w
  refine ⟨⟨sends, h1, h2⟩, ?_⟩
  intro p hne
  apply Write_sent
  apply h3
  intro h0
  apply hne
  rw [h1, h0, List.append_nil]

/-- Witness of C1: after the chunks "1\n" a write of "2\n" changes nothing. -/
theorem processWriter_sends_at_most_once_witness :
    ((processWriter.mk [] "s" false []).writeAll asciiTrimSpace [[49, 10]]).ch
        ≠ (processWriter.mk [] "s" false []).ch ∧
      ((processWriter.mk [] "s" false []).writeAll asciiTrimSpace [[49, 10]]).Write
          asciiTrimSpace [50, 10]
        = ((processWriter.mk [] "s" false []).writeAll asciiTrimSpace [[49, 10]], 2, none) :=
  ⟨by decide,
    (processWriter_sends_at_most_once asciiTrimSpace (processWriter.mk [] "s" false [])
      [[49, 10]]).2 [50, 10] (by decide)⟩


theorem snoc_eq_append_cons {α : Type} (xs pre post : List α) (c x : α)
    (h : xs ++ [c] = pre ++ x :: post) :
    (post = [] ∧ pre = xs ∧ x = c) ∨ ∃ post1, post = post1 ++ [c] ∧ xs = pre ++ x :: post1 := by
  rcases List.eq_nil_or_concat post with hp | ⟨L, b, hp⟩
  · subst hp
    have h2 : xs ++ [c] = pre ++ [x] := h
    obtain ⟨h3, h4⟩ := List.append_inj' h2 rfl
    left
    exact ⟨rfl, h3.symm, by simpa using h4.symm⟩
  · subst hp
    have h2 : xs ++ [c] = (pre ++ x :: L) ++ [b] := by simpa using h
    obtain ⟨h3, h4⟩ := List.append_inj' h2 rfl
    right
    have hb : c = b := by simpa using h4
    subst hb
    exact ⟨L, by simp, h3⟩

theorem discards_eq (w : processWriter) (c : List UInt8) (hs : w.sent = false)
    (hc : (10 : UInt8) ∉ c) :
    w.discards c = decide (maxBufferSize < (w.data ++ c).length) := by
  simp [processWriter.discards, hs, IndexByte_eq_neg_one, hc]

theorem writeAll_buffer (T : List UInt8 → List UInt8) (w : processWriter)
    (hs : w.sent = false) (hd : w.data = []) (cs : List (List UInt8)) :
    (∀ c ∈ cs, (10 : UInt8) ∉ c) →
    ∃ k, k ≤ cs.length ∧ (w.writeAll T cs).data = (cs.drop k).flatten ∧
      (k = 0 ∨ ∃ pre c, cs.take k = pre ++ [c] ∧ (w.writeAll T pre).discards c = true) ∧
      (∀ pre c post, cs = pre ++ c :: post → k ≤ pre.length →
        (w.writeAll T pre).discards c = false) := by
  induction cs using List.reverseRecOn with
  | nil =>
    intro _
    refine ⟨0, Nat.le_refl _, by simp [processWriter.writeAll, hd], Or.inl rfl, ?_⟩
    intro pre c post h
    simp at h
  | append_singleton xs c ih =>
    intro hc
    have hxs : ∀ x ∈ xs, (10 : UInt8) ∉ x := fun x hx => hc x (by simp [hx])
    have hc0 : (10 : UInt8) ∉ c := hc c (by simp)
    obtain ⟨k, hk, hdata, hlast, hnone⟩ := ih hxs
    have hsent := (writeAll_noNewline T xs w hs hxs).2.1
    have hstep : w.writeAll T (xs ++ [c]) = ((w.writeAll T xs).Write T c).1 := by
      rw [writeAll_append]; rfl
    by_cases hov : maxBufferSize < ((w.writeAll T xs).data ++ c).length
    · refine ⟨xs.length + 1, by simp, ?_, Or.inr ⟨xs, c, by simp, ?_⟩, ?_⟩
      · rw [hstep, Write_noNewline T _ c hsent hc0, if_pos hov]
        simp
      · rw [discards_eq _ _ hsent hc0]; simpa using hov
      · intro pre x post h hle
        have hl := congrArg List.length h
        simp at hl
        omega
    · refine ⟨k, by simp; omega, ?_, ?_, ?_⟩
      · rw [hstep, Write_noNewline T _ c hsent hc0, if_neg hov]
        simp [hdata, List.drop_append_of_le_length hk]
      · rcases hlast with h0 | ⟨pre, x, h1, h2⟩
        · exact Or.inl h0
        · exact Or.inr ⟨pre, x, by rw [List.take_append_of_le_length hk]; exact h1, h2⟩
      · intro pre x post h hle
        rcases snoc_eq_append_cons xs pre post c x h with ⟨_, h2, h3⟩ | ⟨post1, _, h2⟩
        · subst h2; subst h3
          rw [discards_eq _ _ hsent hc0]; simpa using hov
        · exact hnone pre x post1 h2 hle

/-- C3: chunks without a newline, written to a writer that has not sent, send
nothing and leave `sent` false; each such `Write` leaves the buffer empty when
the accumulated length exceeds `maxBufferSize` (256) and otherwise keeps the
accumulated bytes. -/
theorem processWriter_no_newline_never_sends (T : List UInt8 → List UInt8) (w : processWriter)
    (cs : List (List UInt8)) (hs : w.sent = false) (hc : ∀ c ∈ cs, (10 : UInt8) ∉ c) :
    (w.writeAll T cs).ch = w.ch ∧ (w.writeAll T cs).sent = false ∧
    maxBufferSize = 256 ∧
    ∀ pre c post, cs = pre ++ c :: post →
      (maxBufferSize < ((w.writeAll T pre).data ++ c).length →
        ((w.writeAll T pre).Write T c).1.data = []) ∧
      (((w.writeAll T pre).data ++ c).length ≤ maxBufferSize →
        ((w.writeAll T pre).Write T c).1.data = (w.writeAll T pre).data ++ c) := by
  obtain ⟨h1, h2, _⟩ := writeAll_noNewline T cs w hs hc
  refine ⟨h1, h2, rfl, ?_⟩
  intro pre c post hsplit
  have hpre : ∀ x ∈ pre, (10 : UInt8) ∉ x := fun x hx => hc x (by simp [hsplit, hx])
  have hc0 : (10 : UInt8) ∉ c := hc c (by simp [hsplit])
  have hsent := (writeAll_noNewline T pre w hs hpre).2.1
  rw [Write_noNewline T _ c hsent hc0]
  constructor
  · intro h; rw [if_pos h]
  · intro h; rw [if_neg (by omega)]


/-- Witness of C3: the chunks "1" and "23" send nothing and do not set `sent`. -/
theorem processWriter_no_newline_never_sends_witness :
    (processWriter.mk [] "s" false []).sent = false ∧
      (∀ c ∈ ([[49], [50, 51]] : List (List UInt8)), (10 : UInt8) ∉ c) ∧
      ((processWriter.mk [] "s" false []).writeAll asciiTrimSpace [[49], [50, 51]]).ch = [] ∧
      ((processWriter.mk [] "s" false []).writeAll asciiTrimSpace [[49], [50, 51]]).sent
        = false :=
  ⟨rfl, by decide,
    (processWriter_no_newline_never_sends asciiTrimSpace (processWriter.mk [] "s" false [])
      [[49], [50, 51]] rfl (by decide)).1,
    (processWriter_no_newline_never_sends asciiTrimSpace (processWriter.mk [] "s" false [])
      [[49], [50, 51]] rfl (by decide)).2.1⟩

/-- C2: a `Write` of a chunk `p` that contains a newline, to a writer that has
not sent, adds exactly one `bmcInfo` to the channel, with the writer's serial
and with `TrimSpace` of the buffer followed by the bytes of `p` before its
first newline. After newline-free chunks `cs` written to a writer with an empty
buffer, that buffer is the concatenation of the chunks after the last `Write`
that discarded (all of `cs` when none did). -/
theorem processWriter_newline_sends_trimmed_line (T : List UInt8 → List UInt8)
    (w : processWriter) (p : List UInt8) (hs : w.sent = false) (hp : (10 : UInt8) ∈ p) :
    (w.Write T p).1.ch
        = w.ch ++ [bmcInfo.mk w.serial (T (w.data ++ p.takeWhile (fun b => b != 10)))] ∧
    (∀ cs : List (List UInt8), w.data = [] → (∀ c ∈ cs, (10 : UInt8) ∉ c) →
      ∃ k, k ≤ cs.length ∧
        (k = 0 ∨ ∃ pre c, cs.take k = pre ++ [c] ∧ (w.writeAll T pre).discards c = true) ∧
        (∀ pre c post, cs = pre ++ c :: post → k ≤ pre.length →
          (w.writeAll T pre).discards c = false) ∧
        (w.writeAll T (cs ++ [p])).ch
          = w.ch ++ [bmcInfo.mk w.serial
              (T ((cs.drop k).flatten ++ p.takeWhile (fun b => b != 10)))]) := by
  constructor
  · rw [Write_newline T w p hs hp]
  · intro cs hd hc
    obtain ⟨k, hk, hdata, hlast, hnone⟩ := writeAll_buffer T w hs hd cs hc
    obtain ⟨h1, h2, h3⟩ := writeAll_noNewline T cs w hs hc
    refine ⟨k, hk, hlast, hnone, ?_⟩
    have hstep : w.writeAll T (cs ++ [p]) = ((w.writeAll T cs).Write T p).1 := by
      rw [writeAll_append]; rfl
    rw [hstep, Write_newline T _ p h2 hp]
    simp only [h1, h3, hdata]

/-- Witness of C2: with " " buffered, the chunk "1\n2" sends the address "1". -/
theorem processWriter_newline_sends_trimmed_line_witness :
    (processWriter.mk [32] "s" false []).sent = false ∧
      (10 : UInt8) ∈ ([49, 10, 50] : List UInt8) ∧
      ((processWriter.mk [32] "s" false []).Write asciiTrimSpace [49, 10, 50]).1.ch
        = [bmcInfo.mk "s" [49]] :=
  ⟨rfl, by decide,
    (processWriter_newline_sends_trimmed_line asciiTrimSpace (processWriter.mk [32] "s" false [])
      [49, 10, 50] rfl (by decide)).1⟩

/-! ## VM handle -/

/-- Counterexample to C4 as stated: on the handle `startNode` creates
(`running: true`) two calls of `powerOn` write the reset-and-continue command
zero times, and on a stopped handle two calls of `powerOff` write the stop
command zero times. -/
theorem powerOn_twice_running_writes_nothing :
    ((startedVM.powerOn none).powerOn none).monitor.timesWritten "system_reset\ncont\n" = 0 ∧
    (((nodeVM.mk (Conn.mk []) false).powerOff none).powerOff none).monitor.timesWritten
      "stop\n" = 0 := by
  decide

/-- C4 (amended): the second of two consecutive `powerOn` calls never writes;
the pair writes the reset-and-continue command exactly once when the handle was
not running and nothing when it was running. The same holds for `powerOff` and
the stop command with the roles of running and not running exchanged. -/
theorem power_twice_idempotent (n : nodeVM) (r1 r2 : Option Error) :
    (n.powerOn r1).powerOn r2 = n.powerOn r1 ∧
    (n.running = false →
      ((n.powerOn r1).powerOn r2).monitor.written
        = n.monitor.written ++ ["system_reset\ncont\n"]) ∧
    (n.running = true → ((n.powerOn r1).powerOn r2).monitor.written = n.monitor.written) ∧
    (n.powerOff r1).powerOff r2 = n.powerOff r1 ∧
    (n.running = true →
      ((n.powerOff r1).powerOff r2).monitor.written = n.monitor.written ++ ["stop\n"]) ∧
    (n.running = false → ((n.powerOff r1).powerOff r2).monitor.written = n.monitor.written) := by
  cases n with
  | mk m running =>
    cases running <;> simp [nodeVM.powerOn, nodeVM.powerOff, WriteString]

/-- Witness of C4 (amended): a stopped handle powered on twice, the first write
failing, has the command in its monitor once. -/
theorem power_twice_idempotent_witness :
    (nodeVM.mk (Conn.mk []) false).running = false ∧
      (((nodeVM.mk (Conn.mk []) false).powerOn (some "EPIPE")).powerOn none).monitor.written
        = ["system_reset\ncont\n"] :=
  ⟨rfl, (power_twice_idempotent (nodeVM.mk (Conn.mk []) false) (some "EPIPE") none).2.1 rfl⟩

/-- C5: `powerOn` on a handle that is not running writes exactly
"system_reset\ncont\n" to the monitor and sets `running`; on a running handle it
changes nothing. `powerOff` on a running handle writes exactly "stop\n" and
clears `running`; on a stopped handle it changes nothing. The flag that
`isRunning` reports does not depend on the result of the write. -/
theorem power_commands (n : nodeVM) (r : Option Error) :
    (n.running = false →
      n.powerOn r = nodeVM.mk (Conn.mk (n.monitor.written ++ ["system_reset\ncont\n"])) true) ∧
    (n.running = true → n.powerOn r = n) ∧
    (n.running = true →
      n.powerOff r = nodeVM.mk (Conn.mk (n.monitor.written ++ ["stop\n"])) false) ∧
    (n.running = false → n.powerOff r = n) ∧
    (n.powerOn r).isRunning = true ∧ (n.powerOff r).isRunning = false := by
  cases n with
  | mk m running =>
    cases running <;> simp [nodeVM.powerOn, nodeVM.powerOff, nodeVM.isRunning, WriteString]

/-- Witness of C5: powering off a running handle whose write fails. -/
theorem power_commands_witness :
    startedVM.running = true ∧
      startedVM.powerOff (some "EPIPE") = nodeVM.mk (Conn.mk ["stop\n"]) false :=
  ⟨rfl, (power_commands startedVM (some "EPIPE")).2.2.1 rfl⟩

/-! ## Command sequencing -/

theorem outcomeAt_zero (w : World) (c : List String) (cs : List (List String)) :
    outcomeAt w (c :: cs) 0 = w.outcome w.trace (toAction c) := by
  simp [outcomeAt]

theorem outcomeAt_succ (w : World) (c : List String) (cs : List (List String)) (j : Nat) :
    outcomeAt w (c :: cs) (j + 1)
      = outcomeAt (World.mk (w.trace ++ [toAction c]) w.outcome) cs j := by
  simp [outcomeAt]

theorem execCommands_cons (w : World) (name : String) (args : List String)
    (rest : List (List String)) :
    execCommands w ((name :: args) :: rest)
      = match w.outcome w.trace (Action.run name args) with
        | some err => some (World.mk (w.trace ++ [Action.run name args]) w.outcome, some err)
        | none => execCommands (World.mk (w.trace ++ [Action.run name args]) w.outcome) rest := by
  simp only [execCommands, World.perform]
  cases w.outcome w.trace (Action.run name args) <;> rfl

theorem execCommands_spec (cmds : List (List String)) :
    ∀ w : World, (∀ c ∈ cmds, c ≠ []) →
    (∀ k e, k < cmds.length → (∀ j, j < k → outcomeAt w cmds j = none) →
      outcomeAt w cmds k = some e →
      execCommands w cmds
        = some (World.mk (w.trace ++ (cmds.take (k + 1)).map toAction) w.outcome, some e)) ∧
    ((∀ j, j < cmds.length → outcomeAt w cmds j = none) →
      execCommands w cmds = some (World.mk (w.trace ++ cmds.map toAction) w.outcome, none)) ∧
    (∀ w1, execCommands w cmds = some (w1, none) →
      ∀ j, j < cmds.length → outcomeAt w cmds j = none) := by
  induction cmds with
  | nil =>
    intro w _
    refine ⟨?_, ?_, ?_⟩
    · intro k e hk; simp at hk
    · intro _; simp [execCommands]
    · intro w1 _ j hj; simp at hj
  | cons c cs ih =>
    intro w hne
    have hc : c ≠ [] := hne c (List.mem_cons_self _ _)
    have hcs : ∀ x ∈ cs, x ≠ [] := fun x hx => hne x (List.mem_cons_of_mem _ hx)
    obtain ⟨name, args, rfl⟩ : ∃ name args, c = name :: args := by
      cases c with
      | nil => exact absurd rfl hc
      | cons a b => exact ⟨a, b, rfl⟩
    obtain ⟨ih1, ih2, ih3⟩ := ih (World.mk (w.trace ++ [toAction (name :: args)]) w.outcome) hcs
    rw [execCommands_cons]
    refine ⟨?_, ?_, ?_⟩
    · intro k e hk hpre hfail
      cases k with
      | zero =>
        rw [outcomeAt_zero] at hfail
        simp only [toAction] at hfail
        simp [hfail, toAction]
      | succ k =>
        have h0 := hpre 0 (Nat.succ_pos k)
        rw [outcomeAt_zero] at h0
        simp only [toAction] at h0
        rw [outcomeAt_succ] at hfail
        have hk1 : k < cs.length := by simpa using hk
        have := ih1 k e hk1 (fun j hj => by
          have := hpre (j + 1) (Nat.succ_lt_succ hj)
          rwa [outcomeAt_succ] at this) hfail
        simp only [h0]
        simp only [toAction] at this
        rw [this]
        simp [toAction]
    · intro hall
      have h0 := hall 0 (by simp)
      rw [outcomeAt_zero] at h0
      simp only [toAction] at h0
      have := ih2 (fun j hj => by
        have := hall (j + 1) (by simpa using hj)
        rwa [outcomeAt_succ] at this)
      simp only [h0]
      simp only [toAction] at this
      rw [this]
      simp [toAction]
    · intro w1 hres j hj
      cases h0 : w.outcome w.trace (Action.run name args) with
      | some err => simp [h0] at hres
      | none =>
        simp only [h0] at hres
        cases j with
        | zero => rw [outcomeAt_zero]; simpa [toAction] using h0
        | succ j =>
          rw [outcomeAt_succ]
          exact ih3 w1 hres j (by simpa using hj)

/-- C6: `execCommands` on non-empty commands returns (it does not panic); if
command `k` is the first to fail, exactly the commands up to and including `k`
have been run, in list order, and its error is returned; nil is returned
exactly when every command succeeded, and then all of them have been run. -/
theorem execCommands_fail_fast (w : World) (cmds : List (List String))
    (hne : ∀ c ∈ cmds, c ≠ []) :
    (∃ w1 r, execCommands w cmds = some (w1, r)) ∧
    (∀ k e, k < cmds.length → (∀ j, j < k → outcomeAt w cmds j = none) →
      outcomeAt w cmds k = some e →
      execCommands w cmds
        = some (World.mk (w.trace ++ (cmds.take (k + 1)).map toAction) w.outcome, some e)) ∧
    (∀ w1, execCommands w cmds = some (w1, none) ↔
      (w1 = World.mk (w.trace ++ cmds.map toAction) w.outcome ∧
        ∀ j, j < cmds.length → outcomeAt w cmds j = none)) := by
  obtain ⟨h1, h2, h3⟩ := execCommands_spec cmds w hne
  refine ⟨?_, h1, ?_⟩
  · by_cases hall : ∀ j, j < cmds.length → outcomeAt w cmds j = none
    · exact ⟨_, _, h2 hall⟩
    · have hex : ∃ k, k < cmds.length ∧ outcomeAt w cmds k ≠ none := by
        by_contra hcon
        apply hall
        intro j hj
        by_contra hj2
        exact hcon ⟨j, hj, hj2⟩
      classical
      obtain ⟨hk, hfail⟩ := Nat.find_spec hex
      obtain ⟨e, he⟩ := Option.ne_none_iff_exists'.mp hfail
      refine ⟨_, _, h1 (Nat.find hex) e hk ?_ he⟩
      intro j hj
      by_contra hj2
      exact Nat.find_min hex hj ⟨Nat.lt_trans hj hk, hj2⟩
  · intro w1
    constructor
    · intro hres
      have hall := h3 w1 hres
      have := h2 hall
      rw [hres] at this
      exact ⟨by simpa using this, hall⟩
    · rintro ⟨rfl, hall⟩
      exact h2 hall

/-- Witness of C6: of the commands `true`, `false`, `echo x` the third is not
run and the error of `false` is returned. -/
theorem execCommands_fail_fast_witness :
    (∀ c ∈ [["true"], ["false"], ["echo", "x"]], c ≠ ([] : List String)) ∧
      execCommands (hostFailing [Action.run "false" []]) [["true"], ["false"], ["echo", "x"]]
        = some (World.mk [Action.run "true" [], Action.run "false" []]
            (hostFailing [Action.run "false" []]).outcome, some "exit status 1") :=
  ⟨by decide,
    (execCommands_fail_fast (hostFailing [Action.run "false" []])
      [["true"], ["false"], ["echo", "x"]] (by decide)).2.1 1 "exit status 1"
      (by decide) (by decide) (by decide)⟩

theorem execCommandsForceLoop_cons (w : World) (fe : Option Error) (name : String)
    (args : List String) (rest : List (List String)) :
    execCommandsForceLoop w fe ((name :: args) :: rest)
      = execCommandsForceLoop (World.mk (w.trace ++ [Action.run name args]) w.outcome)
          (if (w.outcome w.trace (Action.run name args)).isSome && fe.isNone
            then w.outcome w.trace (Action.run name args) else fe) rest := by
  simp only [execCommandsForceLoop, World.perform]

theorem execCommandsForceLoop_spec (cmds : List (List String)) :
    ∀ (w : World) (fe : Option Error), (∀ c ∈ cmds, c ≠ []) →
    ∃ r, execCommandsForceLoop w fe cmds
        = some (World.mk (w.trace ++ cmds.map toAction) w.outcome, r) ∧
      (∀ e, fe = some e → r = some e) ∧
      (fe = none →
        ((∀ j, j < cmds.length → outcomeAt w cmds j = none) → r = none) ∧
        (∀ k e, k < cmds.length → (∀ j, j < k → outcomeAt w cmds j = none) →
          outcomeAt w cmds k = some e → r = some e)) := by
  induction cmds with
  | nil =>
    intro w fe _
    refine ⟨fe, by simp [execCommandsForceLoop], fun e h => h, fun h => ⟨fun _ => h, ?_⟩⟩
    intro k e hk; simp at hk
  | cons c cs ih =>
    intro w fe hne
    have hc : c ≠ [] := hne c (List.mem_cons_self _ _)
    have hcs : ∀ x ∈ cs, x ≠ [] := fun x hx => hne x (List.mem_cons_of_mem _ hx)
    obtain ⟨name, args, rfl⟩ : ∃ name args, c = name :: args := by
      cases c with
      | nil => exact absurd rfl hc
      | cons a b => exact ⟨a, b, rfl⟩
    rw [execCommandsForceLoop_cons]
    obtain ⟨r, hr, hsome, hnone⟩ := ih (World.mk (w.trace ++ [Action.run name args]) w.outcome)
      (if (w.outcome w.trace (Action.run name args)).isSome && fe.isNone
        then w.outcome w.trace (Action.run name args) else fe) hcs
    refine ⟨r, by simpa [toAction] using hr, ?_, ?_⟩
    · intro e he
      apply hsome
      simp [he]
    · intro hfe
      subst hfe
      cases h0 : w.outcome w.trace (Action.run name args) with
      | some err =>
        have hr2 : r = some err := hsome err (by simp [h0])
        constructor
        · intro hall
          have := hall 0 (by simp)
          rw [outcomeAt_zero] at this
          simp [toAction, h0] at this
        · intro k e hk hpre hfail
          cases k with
          | zero =>
            rw [outcomeAt_zero] at hfail
            simp only [toAction, h0] at hfail
            rw [hr2, ← hfail]
          | succ k =>
            have := hpre 0 (Nat.succ_pos k)
            rw [outcomeAt_zero] at this
            simp [toAction, h0] at this
      | none =>
        obtain ⟨hn1, hn2⟩ := hnone (by simp [h0])
        constructor
        · intro hall
          apply hn1
          intro j hj
          have := hall (j + 1) (by simpa using hj)
          rwa [outcomeAt_succ] at this
        · intro k e hk hpre hfail
          cases k with
          | zero =>
            rw [outcomeAt_zero] at hfail
            simp [toAction, h0] at hfail
          | succ k =>
            rw [outcomeAt_succ] at hfail
            exact hn2 k e (by simpa using hk) (fun j hj => by
              have := hpre (j + 1) (Nat.succ_lt_succ hj)
              rwa [outcomeAt_succ] at this) hfail

/-- C7: `execCommandsForce` on non-empty commands runs every command, in list
order, whatever fails; it returns the error of the first command that failed,
and nil exactly when none failed. -/
theorem execCommandsForce_best_effort (w : World) (cmds : List (List String))
    (hne : ∀ c ∈ cmds, c ≠ []) :
    ∃ r, execCommandsForce w cmds
        = some (World.mk (w.trace ++ cmds.map toAction) w.outcome, r) ∧
      (∀ k e, k < cmds.length → (∀ j, j < k → outcomeAt w cmds j = none) →
        outcomeAt w cmds k = some e → r = some e) ∧
      (r = none ↔ ∀ j, j < cmds.length → outcomeAt w cmds j = none) := by
  obtain ⟨r, hr, _, hnone⟩ := execCommandsForceLoop_spec cmds w none hne
  obtain ⟨h1, h2⟩ := hnone rfl
  refine ⟨r, hr, h2, ?_, h1⟩
  intro hrn
  by_contra hall
  have hex : ∃ k, k < cmds.length ∧ outcomeAt w cmds k ≠ none := by
    by_contra hcon
    apply hall
    intro j hj
    by_contra hj2
    exact hcon ⟨j, hj, hj2⟩
  classical
  obtain ⟨hk, hfail⟩ := Nat.find_spec hex
  obtain ⟨e, he⟩ := Option.ne_none_iff_exists'.mp hfail
  have hre : r = some e := by
    refine h2 (Nat.find hex) e hk ?_ he
    intro j hj
    by_contra hj2
    exact Nat.find_min hex hj ⟨Nat.lt_trans hj hk, hj2⟩
  rw [hrn] at hre
  exact Option.noConfusion hre

/-- Witness of C7: of the commands `false`, `true` both are run. -/
theorem execCommandsForce_best_effort_witness :
    (∀ c ∈ [["false"], ["true"]], c ≠ ([] : List String)) ∧
      ∃ r, execCommandsForce (hostFailing [Action.run "false" []]) [["false"], ["true"]]
          = some (World.mk [Action.run "false" [], Action.run "true" []]
              (hostFailing [Action.run "false" []]).outcome, r) ∧
        (∀ k e, k < 2 →
          (∀ j, j < k →
            outcomeAt (hostFailing [Action.run "false" []]) [["false"], ["true"]] j = none) →
          outcomeAt (hostFailing [Action.run "false" []]) [["false"], ["true"]] k = some e →
          r = some e) ∧
        (r = none ↔ ∀ j, j < 2 →
          outcomeAt (hostFailing [Action.run "false" []]) [["false"], ["true"]] j = none) :=
  ⟨by decide,
    execCommandsForce_best_effort (hostFailing [Action.run "false" []]) [["false"], ["true"]]
      (by decide)⟩

/-! ## Pod network namespace -/

theorem foldl_append_singleton {α β : Type} (g : α → β) (l : List α) :
    ∀ acc : List β, l.foldl (fun acc x => acc ++ [g x]) acc = acc ++ l.map g := by
  induction l with
  | nil => intro acc; simp
  | cons x xs ih => intro acc; simp [ih]

theorem makePodNSLoop_eq (ns : String) (ips : AddrMap) (veths : List String) :
    ∀ (i : Nat) (cmds : List (List String)),
      makePodNSLoop ns ips i veths cmds
        = cmds ++ (veths.enumFrom i).flatMap (podVethCommands ns ips) := by
  induction veths with
  | nil => intro i cmds; simp [makePodNSLoop]
  | cons v vs ih =>
    intro i cmds
    simp only [makePodNSLoop, ih, List.enumFrom_cons, List.flatMap_cons, podVethCommands]
    rw [foldl_append_singleton
      (fun ip => ["ip", "netns", "exec", ns, "ip", "a", "add", ip, "dev", "eth" ++ toString i])]
    simp

theorem makePodNSCommands_ne_nil (pod : String) (veths : List String) (ips : AddrMap) :
    ∀ c ∈ makePodNSCommands pod veths ips, c ≠ [] := by
  intro c hc
  simp only [makePodNSCommands, makePodNSLoop_eq, List.mem_append, List.mem_cons,
    List.mem_flatMap, podVethCommands, List.mem_map, List.mem_singleton, List.not_mem_nil,
    or_false] at hc
  rcases hc with (h | h) | ⟨iv, _, h | ⟨ip, _, h⟩⟩ <;> subst h <;> simp

/-- C8: the command list of `makePodNS` is: add the namespace "pm_"+pod, set
`lo` up inside it, then for the veth at each index `i`, in list order, the move
into the namespace as `eth<i>` and up, followed by one `ip a add <addr> dev
eth<i>` per address of that veth in the configured order. These are the
commands run, in order, when none fails. For two interfaces with distinct
veths addressed 10.0.0.5/24 and 10.0.0.6/24 the list assigns exactly these
addresses to `eth0` and `eth1`. -/
theorem makePodNS_commands (w : World) (pod : String) (veths : List String) (ips : AddrMap) :
    makePodNSCommands pod veths ips
      = [["ip", "netns", "add", "pm_" ++ pod],
          ["ip", "netns", "exec", "pm_" ++ pod, "ip", "link", "set", "lo", "up"]]
        ++ veths.enum.flatMap (podVethCommands ("pm_" ++ pod) ips) ∧
    ((∀ j, j < (makePodNSCommands pod veths ips).length →
        outcomeAt w (makePodNSCommands pod veths ips) j = none) →
      makePodNS w pod veths ips
        = some (World.mk (w.trace ++ (makePodNSCommands pod veths ips).map toAction) w.outcome,
            none)) ∧
    (∀ v0 v1 : String, v0 ≠ v1 →
      makePodNSCommands pod [v0, v1]
          (podAddrMap [(v0, ["10.0.0.5/24"]), (v1, ["10.0.0.6/24"])] AddrMap.empty)
        = [["ip", "netns", "add", "pm_" ++ pod],
            ["ip", "netns", "exec", "pm_" ++ pod, "ip", "link", "set", "lo", "up"],
            ["ip", "link", "set", v0, "netns", "pm_" ++ pod, "name", "eth0", "up"],
            ["ip", "netns", "exec", "pm_" ++ pod, "ip", "a", "add", "10.0.0.5/24", "dev", "eth0"],
            ["ip", "link", "set", v1, "netns", "pm_" ++ pod, "name", "eth1", "up"],
            ["ip", "netns", "exec", "pm_" ++ pod, "ip", "a", "add", "10.0.0.6/24", "dev",
              "eth1"]]) := by
  refine ⟨?_, ?_, ?_⟩
  · simp [makePodNSCommands, makePodNSLoop_eq, List.enum]
  · intro hall
    exact (execCommands_spec _ w (makePodNSCommands_ne_nil pod veths ips)).2.1 hall
  · intro v0 v1 hne
    have h01 : ¬ (v0 = v1) := hne
    have e0 : "eth" ++ toString (0 : Nat) = "eth0" := by decide
    have e1 : "eth" ++ toString (1 : Nat) = "eth1" := by decide
    simp [makePodNSCommands, makePodNSLoop, podAddrMap, AddrMap.set, AddrMap.empty, h01, e0, e1]

/-- Witness of C8: the veths `pmveth0` and `pmveth1` of a pod `web`. -/
theorem makePodNS_commands_witness :
    "pmveth0" ≠ "pmveth1" ∧
      makePodNSCommands "web" ["pmveth0", "pmveth1"]
          (podAddrMap [("pmveth0", ["10.0.0.5/24"]), ("pmveth1", ["10.0.0.6/24"])] AddrMap.empty)
        = [["ip", "netns", "add", "pm_web"],
            ["ip", "netns", "exec", "pm_web", "ip", "link", "set", "lo", "up"],
            ["ip", "link", "set", "pmveth0", "netns", "pm_web", "name", "eth0", "up"],
            ["ip", "netns", "exec", "pm_web", "ip", "a", "add", "10.0.0.5/24", "dev", "eth0"],
            ["ip", "link", "set", "pmveth1", "netns", "pm_web", "name", "eth1", "up"],
            ["ip", "netns", "exec", "pm_web", "ip", "a", "add", "10.0.0.6/24", "dev", "eth1"]] :=
  ⟨by decide,
    (makePodNS_commands (hostFailing []) "web" [] AddrMap.empty).2.2 "pmveth0" "pmveth1"
      (by decide)⟩

/-! ## NAT rules -/

/-- C9: for each of iptables and ip6tables `createNatRules` creates the chain
PLACEMAT in the tables filter and nat and appends a jump to it from nat
POSTROUTING and from filter FORWARD; the command list of `destroyNatRules`
deletes exactly those jumps, flushes and deletes exactly those chains, and
places every jump deletion before the deletion of the chain the jump
targets. -/
theorem destroyNatRules_undoes_createNatRules :
    createNatRulesCommands.map natOp
      = [some (NatOp.newChain "iptables" "filter" "PLACEMAT"),
          some (NatOp.newChain "iptables" "nat" "PLACEMAT"),
          some (NatOp.appendJump "iptables" "nat" "POSTROUTING" "PLACEMAT"),
          some (NatOp.appendJump "iptables" "filter" "FORWARD" "PLACEMAT"),
          some (NatOp.newChain "ip6tables" "filter" "PLACEMAT"),
          some (NatOp.newChain "ip6tables" "nat" "PLACEMAT"),
          some (NatOp.appendJump "ip6tables" "nat" "POSTROUTING" "PLACEMAT"),
          some (NatOp.appendJump "ip6tables" "filter" "FORWARD" "PLACEMAT")] ∧
    destroyNatRulesCommands.map natOp
      = [some (NatOp.deleteJump "iptables" "filter" "FORWARD" "PLACEMAT"),
          some (NatOp.deleteJump "iptables" "nat" "POSTROUTING" "PLACEMAT"),
          some (NatOp.flushChain "iptables" "filter" "PLACEMAT"),
          some (NatOp.deleteChain "iptables" "filter" "PLACEMAT"),
          some (NatOp.flushChain "iptables" "nat" "PLACEMAT"),
          some (NatOp.deleteChain "iptables" "nat" "PLACEMAT"),
          some (NatOp.deleteJump "ip6tables" "filter" "FORWARD" "PLACEMAT"),
          some (NatOp.deleteJump "ip6tables" "nat" "POSTROUTING" "PLACEMAT"),
          some (NatOp.flushChain "ip6tables" "filter" "PLACEMAT"),
          some (NatOp.deleteChain "ip6tables" "filter" "PLACEMAT"),
          some (NatOp.flushChain "ip6tables" "nat" "PLACEMAT"),
          some (NatOp.deleteChain "ip6tables" "nat" "PLACEMAT")] ∧
    (jumpsDeleted destroyNatRulesCommands).Perm (jumpsAppended createNatRulesCommands) ∧
    chainsFlushed destroyNatRulesCommands = chainsCreated createNatRulesCommands ∧
    chainsDeleted destroyNatRulesCommands = chainsCreated createNatRulesCommands ∧
    (jumpsAppended destroyNatRulesCommands = [] ∧ chainsCreated destroyNatRulesCommands = []) ∧
    (∀ i, i < destroyNatRulesCommands.length → ∀ j, j < destroyNatRulesCommands.length →
      deletesJumpInto (destroyNatRulesCommands.getD i []) (destroyNatRulesCommands.getD j [])
        = true →
      i < j) := by
  refine ⟨?_, ?_, ?_, ?_, ?_, ?_, ?_⟩ <;> decide

/-! ## Teardown -/

theorem destroyTaps_eq (taps : List String) :
    ∀ w : World, destroyTaps w taps
      = World.mk (w.trace ++ taps.map deleteTapAction) w.outcome := by
  induction taps with
  | nil => intro w; simp [destroyTaps]
  | cons t ts ih => intro w; simp [destroyTaps, ih, deleteTap, World.perform]

theorem destroyVeths_eq (veths : List String) :
    ∀ w : World, destroyVeths w veths
      = World.mk (w.trace ++ veths.map deleteVethAction) w.outcome := by
  induction veths with
  | nil => intro w; simp [destroyVeths]
  | cons t ts ih => intro w; simp [destroyVeths, ih, deleteVeth, World.perform]

theorem destroyPods_eq (pods : List Pod) :
    ∀ w : World, destroyPods w pods
      = World.mk (w.trace ++ pods.map (fun p => deletePodNSAction p.Name)) w.outcome := by
  induction pods with
  | nil => intro w; simp [destroyPods]
  | cons t ts ih => intro w; simp [destroyPods, ih, deletePodNS, World.perform]

theorem destroyNatRules_runs_all (w : World) :
    ∃ r, destroyNatRules w
      = some (World.mk (w.trace ++ destroyNatRulesCommands.map toAction) w.outcome, r) := by
  obtain ⟨r, hr, _⟩ := execCommandsForceLoop_spec destroyNatRulesCommands w none (by decide)
  exact ⟨r, hr⟩

theorem destroyNetworks_eq (nets : List Network) :
    ∀ w : World, destroyNetworks w nets
      = some (World.mk
          (w.trace ++ nets.flatMap (fun _ => destroyNatRulesCommands.map toAction))
          w.outcome) := by
  induction nets with
  | nil => intro w; simp [destroyNetworks]
  | cons n ns ih =>
    intro w
    obtain ⟨r, hr⟩ := destroyNatRules_runs_all w
    simp only [destroyNetworks, hr, ih, List.flatMap_cons, List.append_assoc]

/-- C10: whatever the results of the removals, `Destroy` returns nil, and the
effects it performs are, in this order: removal of the temp directory,
`deleteTap` for every name issued by the tap name generator, `deleteVeth` for
every name issued by the veth name generator, `deletePodNS` for every pod of
the cluster, then the NAT teardown commands once per network. -/
theorem Destroy_best_effort (q : QemuProvider) (w : World) (c : Cluster) :
    q.Destroy w c
      = some (World.mk
          (w.trace ++ [Action.removeAll q.tempDir]
            ++ q.tng.GeneratedNames.map deleteTapAction
            ++ q.vng.GeneratedNames.map deleteVethAction
            ++ c.Pods.map (fun p => deletePodNSAction p.Name)
            ++ c.Networks.flatMap (fun _ => destroyNatRulesCommands.map toAction))
          w.outcome, none) := by
  simp only [QemuProvider.Destroy, World.perform, destroyTaps_eq, destroyVeths_eq,
    destroyPods_eq, destroyNetworks_eq]

/-! ## Size of the interceptor buffer -/

theorem Write_noNewline_bound (T : List UInt8 → List UInt8) (w : processWriter) (p : List UInt8)
    (hs : w.sent = false) (hp : (10 : UInt8) ∉ p) :
    (w.Write T p).1.sent = false ∧ (w.Write T p).1.ch = w.ch ∧
      (w.Write T p).1.serial = w.serial ∧ (w.Write T p).1.data.length ≤ maxBufferSize := by
  rw [Write_noNewline T w p hs hp]
  split_ifs with h
  · exact ⟨hs, rfl, rfl, by simp⟩
  · exact ⟨hs, rfl, rfl, Nat.le_of_not_lt h⟩

set_option maxRecDepth 100000 in
/-- Counterexample to C19 as stated: one chunk of 257 bytes `a` and a newline,
written to a fresh writer, leaves 257 bytes in the buffer and sends an address
of 257 bytes, more than `maxBufferSize`. -/
theorem processWriter_newline_chunk_exceeds_bound :
    ((processWriter.mk [] "s" false []).Write asciiTrimSpace
        (List.replicate 257 97 ++ [10])).1.data.length = 257 ∧
    ((processWriter.mk [] "s" false []).Write asciiTrimSpace
        (List.replicate 257 97 ++ [10])).1.ch = [bmcInfo.mk "s" (List.replicate 257 97)] ∧
    (List.replicate 257 (97 : UInt8)).length = 257 ∧
    ¬ (257 ≤ maxBufferSize) := by
  decide

theorem writeAll_bound (T : List UInt8 → List UInt8) (ps : List (List UInt8)) :
    ∀ w : processWriter, w.sent = false → w.data.length ≤ maxBufferSize →
    ((w.writeAll T ps).sent = false ∧ (w.writeAll T ps).ch = w.ch ∧
        (w.writeAll T ps).data.length ≤ maxBufferSize) ∨
    (∃ pre p post, ps = pre ++ p :: post ∧ (∀ c ∈ pre, (10 : UInt8) ∉ c) ∧ (10 : UInt8) ∈ p ∧
      (w.writeAll T pre).data.length ≤ maxBufferSize ∧
      (w.writeAll T ps).data = (w.writeAll T pre).data ++ p.takeWhile (fun b => b != 10) ∧
      (w.writeAll T ps).ch = w.ch ++ [bmcInfo.mk w.serial
        (T ((w.writeAll T pre).data ++ p.takeWhile (fun b => b != 10)))]) := by
  induction ps with
  | nil => intro w hs hd; exact Or.inl ⟨hs, rfl, hd⟩
  | cons p ps ih =>
    intro w hs hd
    by_cases hp : (10 : UInt8) ∈ p
    · refine Or.inr ⟨[], p, ps, rfl, by simp, hp, hd, ?_, ?_⟩
      · simp only [processWriter.writeAll, Write_newline T w p hs hp]
        rw [writeAll_sent T _ ps rfl]
      · simp only [processWriter.writeAll, Write_newline T w p hs hp]
        rw [writeAll_sent T _ ps rfl]
    · obtain ⟨h1, h2, h3, h4⟩ := Write_noNewline_bound T w p hs hp
      rcases ih (w.Write T p).1 h1 h4 with ⟨g1, g2, g3⟩ | ⟨pre, q, post, g1, g2, g3, g4, g5, g6⟩
      · exact Or.inl ⟨g1, g2.trans h2, g3⟩
      · refine Or.inr ⟨p :: pre, q, post, by simp [g1], ?_, g3, g4, g5, ?_⟩
        · intro c hc
          rcases List.mem_cons.mp hc with rfl | hc
          · exact hp
          · exact g2 c hc
        · simp only [processWriter.writeAll]
          rw [g6, h2, h3]

/-- C19 (amended): from a writer that has not sent and holds at most
`maxBufferSize` (256) bytes, as long as nothing has been sent the buffer
retained after each `Write` is at most 256 bytes long. The `Write` that sends
appends the bytes of its chunk before the first newline to such a buffer
without a size check: the buffer retained then, and the address sent when
`TrimSpace` does not lengthen its argument, are at most 256 plus the number of
bytes before that newline long. -/
theorem processWriter_buffer_bound (T : List UInt8 → List UInt8) (w : processWriter)
    (ps : List (List UInt8)) (hs : w.sent = false) (hd : w.data.length ≤ maxBufferSize) :
    ((w.writeAll T ps).sent = false ∧ (w.writeAll T ps).ch = w.ch ∧
        (w.writeAll T ps).data.length ≤ maxBufferSize) ∨
    (∃ pre p post, ps = pre ++ p :: post ∧ (∀ c ∈ pre, (10 : UInt8) ∉ c) ∧ (10 : UInt8) ∈ p ∧
      (w.writeAll T pre).data.length ≤ maxBufferSize ∧
      (w.writeAll T ps).data = (w.writeAll T pre).data ++ p.takeWhile (fun b => b != 10) ∧
      (w.writeAll T ps).data.length ≤ maxBufferSize + (p.takeWhile (fun b => b != 10)).length ∧
      ∃ address, (w.writeAll T ps).ch = w.ch ++ [bmcInfo.mk w.serial address] ∧
        address = T ((w.writeAll T pre).data ++ p.takeWhile (fun b => b != 10)) ∧
        ((∀ s, (T s).length ≤ s.length) →
          address.length ≤ maxBufferSize + (p.takeWhile (fun b => b != 10)).length)) := by
  rcases writeAll_bound T ps w hs hd with h | ⟨pre, p, post, g1, g2, g3, g4, g5, g6⟩
  · exact Or.inl h
  · refine Or.inr ⟨pre, p, post, g1, g2, g3, g4, g5, ?_, _, g6, rfl, ?_⟩
    · rw [g5, List.length_append]; omega
    · intro hT
      have := hT ((w.writeAll T pre).data ++ p.takeWhile (fun b => b != 10))
      rw [List.length_append] at this
      omega

theorem asciiTrimSpace_length_le (s : List UInt8) : (asciiTrimSpace s).length ≤ s.length := by
  unfold asciiTrimSpace
  rw [List.length_reverse]
  calc ((s.dropWhile asciiSpace).reverse.dropWhile asciiSpace).length
      ≤ (s.dropWhile asciiSpace).reverse.length := (List.dropWhile_sublist _).length_le
    _ = (s.dropWhile asciiSpace).length := List.length_reverse _
    _ ≤ s.length := (List.dropWhile_sublist _).length_le

/-- Witness of C19 (amended): the chunks "1" and "23" leave a fresh writer
unsent with at most 256 bytes buffered. -/
theorem processWriter_buffer_bound_witness :
    (processWriter.mk [] "s" false []).sent = false ∧
      (processWriter.mk [] "s" false []).data.length ≤ maxBufferSize ∧
      ((processWriter.mk [] "s" false []).writeAll asciiTrimSpace [[49], [50, 51]]).data.length
        ≤ maxBufferSize :=
  ⟨rfl, by decide,
    (processWriter_buffer_bound asciiTrimSpace (processWriter.mk [] "s" false [])
      [[49], [50, 51]] rfl (by decide)).elim (fun h => h.2.2)
      (fun _ => by decide)⟩

/-! ## MAC addresses -/

theorem hexDigit_spec : ∀ n, n < 16 →
    hexValue (hexDigit n) = some n ∧ isLowerHex (hexDigit n) = true := by
  decide

theorem parseOctet_hexDigit (n : Nat) (h : n < 256) :
    parseOctet (hexDigit (n / 16)) (hexDigit (n % 16)) = some n := by
  have h1 := (hexDigit_spec (n / 16) (by omega)).1
  have h2 := (hexDigit_spec (n % 16) (by omega)).1
  simp only [parseOctet, h1, h2]
  congr 1
  omega

theorem generateRandomMACForKVM_data (b0 b1 b2 : UInt8) :
    (generateRandomMACForKVM b0 b1 b2).data
      = ['5', '2', ':', '5', '4', ':', '0', '0', ':',
          hexDigit (b0.toNat / 16), hexDigit (b0.toNat % 16), ':',
          hexDigit (b1.toNat / 16), hexDigit (b1.toNat % 16), ':',
          hexDigit (b2.toNat / 16), hexDigit (b2.toNat % 16)] := by
  simp [generateRandomMACForKVM, hex02, String.data_append]

theorem ParseMAC_generateRandomMACForKVM (b0 b1 b2 : UInt8) :
    ParseMAC (generateRandomMACForKVM b0 b1 b2)
      = some [0x52, 0x54, 0x00, b0.toNat, b1.toNat, b2.toNat] := by
  have h0 := parseOctet_hexDigit b0.toNat (UInt8.toNat_lt b0)
  have h1 := parseOctet_hexDigit b1.toNat (UInt8.toNat_lt b1)
  have h2 := parseOctet_hexDigit b2.toNat (UInt8.toNat_lt b2)
  have p0 : parseOctet '5' '2' = some 0x52 := by decide
  have p1 : parseOctet '5' '4' = some 0x54 := by decide
  have p2 : parseOctet '0' '0' = some 0x00 := by decide
  simp only [ParseMAC, generateRandomMACForKVM_data, h0, h1, h2, p0, p1, p2]

/-- C14: for all three random bytes the result of `generateRandomMACForKVM`
has exactly 17 characters, is in canonical colon-hex form (six groups of two
lower-case hexadecimal digits separated by colons), begins with the vendor
prefix "52:54:00", and parses as the MAC address 52:54:00 followed by the
three random bytes; the first octet 0x52 has the locally-administered bit
(0x02) set and the multicast bit (0x01) clear. -/
theorem generateRandomMACForKVM_canonical (b0 b1 b2 : UInt8) :
    (generateRandomMACForKVM b0 b1 b2).length = 17 ∧
    isCanonicalMAC (generateRandomMACForKVM b0 b1 b2) = true ∧
    (∃ rest, generateRandomMACForKVM b0 b1 b2 = "52:54:00" ++ rest) ∧
    ParseMAC (generateRandomMACForKVM b0 b1 b2)
      = some [0x52, 0x54, 0x00, b0.toNat, b1.toNat, b2.toNat] ∧
    (0x52 &&& 0x02 = 0x02 ∧ 0x52 &&& 0x01 = 0x00) := by
  refine ⟨?_, ?_, ?_, ParseMAC_generateRandomMACForKVM b0 b1 b2, by decide⟩
  · rw [String.length, generateRandomMACForKVM_data]
    rfl
  · have l0 := (hexDigit_spec (b0.toNat / 16) (by have := UInt8.toNat_lt b0; omega)).2
    have l1 := (hexDigit_spec (b0.toNat % 16) (by omega)).2
    have l2 := (hexDigit_spec (b1.toNat / 16) (by have := UInt8.toNat_lt b1; omega)).2
    have l3 := (hexDigit_spec (b1.toNat % 16) (by omega)).2
    have l4 := (hexDigit_spec (b2.toNat / 16) (by have := UInt8.toNat_lt b2; omega)).2
    have l5 := (hexDigit_spec (b2.toNat % 16) (by omega)).2
    have d : isLowerHex '5' = true ∧ isLowerHex '2' = true ∧ isLowerHex '4' = true ∧
        isLowerHex '0' = true := by decide
    simp only [isCanonicalMAC, generateRandomMACForKVM_data, List.all_cons, List.all_nil,
      l0, l1, l2, l3, l4, l5, d.1, d.2.1, d.2.2.1, d.2.2.2, Bool.and_self]
  · exact ⟨":" ++ hex02 b0 ++ ":" ++ hex02 b1 ++ ":" ++ hex02 b2, by
      simp only [generateRandomMACForKVM, String.append_assoc]⟩

/-- C15: `generateRandomMACForKVM` is injective in the three random bytes: two
generations return the same string only if the random source gave the same
three bytes. -/
theorem generateRandomMACForKVM_injective (b0 b1 b2 c0 c1 c2 : UInt8)
    (h : generateRandomMACForKVM b0 b1 b2 = generateRandomMACForKVM c0 c1 c2) :
    b0 = c0 ∧ b1 = c1 ∧ b2 = c2 := by
  have hb := ParseMAC_generateRandomMACForKVM b0 b1 b2
  have hc := ParseMAC_generateRandomMACForKVM c0 c1 c2
  rw [h, hc] at hb
  simp only [Option.some.injEq, List.cons.injEq, and_true, true_and] at hb
  exact ⟨UInt8.ext hb.1.symm, UInt8.ext hb.2.1.symm, UInt8.ext hb.2.2.symm⟩

/-- Witness of C15: the equation holds at equal bytes. -/
theorem generateRandomMACForKVM_injective_witness :
    generateRandomMACForKVM 0 171 255 = generateRandomMACForKVM 0 171 255 ∧
      ((0 : UInt8) = 0 ∧ (171 : UInt8) = 171 ∧ (255 : UInt8) = 255) :=
  ⟨rfl, generateRandomMACForKVM_injective 0 171 255 0 171 255 rfl⟩

/-! ## Menu to template arguments -/

namespace Template

theorem fillToRAddresses_getElem? (bases : List (List Nat)) (spineIdx : Nat)
    (racks : List Nat) :
    ∀ (addrs : List (Option IPNet)) (i : Nat),
      (fillToRAddresses bases spineIdx racks addrs)[i]?
        = if i < addrs.length ∧ i / 2 ∈ racks then
            some (some (addToIP (baseAt bases spineIdx (i / 2)) (if i % 2 = 0 then 0 else 2) 31))
          else addrs[i]? := by
  induction racks with
  | nil => intro addrs i; simp [fillToRAddresses]
  | cons q rest ih =>
    intro addrs i
    simp only [fillToRAddresses, ih, List.length_set, List.mem_cons, torPerRack]
    by_cases hlt : i < addrs.length
    · by_cases hrest : i / 2 ∈ rest
      · simp [hlt, hrest]
      · by_cases hq : i / 2 = q
        · subst hq
          simp only [hlt, hrest, and_false, if_false, or_false, and_self, if_true]
          by_cases hpar : i % 2 = 0
          · have h1 : i / 2 * 2 = i := by omega
            have h2 : i / 2 * 2 + 1 ≠ i := by omega
            rw [List.getElem?_set_ne h2, h1, List.getElem?_set_self hlt]
            simp [hpar]
          · have h2 : i / 2 * 2 + 1 = i := by omega
            rw [h2, List.getElem?_set_self (by simpa using hlt)]
            simp [hpar]
        · have h1 : q * 2 ≠ i := by omega
          have h2 : q * 2 + 1 ≠ i := by omega
          simp only [hlt, hrest, hq, and_false, if_false, or_self]
          rw [List.getElem?_set_ne h2, List.getElem?_set_ne h1]
    · have hnone : addrs[i]? = none := List.getElem?_eq_none (by omega)
      have h2 : ((addrs.set (q * 2) (some (addToIP (baseAt bases spineIdx q) 0 31))).set
          (q * 2 + 1) (some (addToIP (baseAt bases spineIdx q) 2 31)))[i]? = none :=
        List.getElem?_eq_none (by simp; omega)
      simp [hlt, hnone, h2]

theorem baseAt_spineToRackBases (menu : Menu) (s r : Nat) (hs : s < menu.Inventory.Spine)
    (hr : r < menu.Inventory.Rack.length) :
    baseAt (spineToRackBases menu) s r
      = (menu.Network.SpineTor + uint32 ((s * menu.Inventory.Rack.length + r) * torPerRack * 2))
          % 2 ^ 32 := by
  simp [baseAt, spineToRackBases, List.getD_eq_getElem?_getD, List.getElem?_map,
    List.getElem?_range hs, List.getElem?_range hr]

theorem index_lt_of_lt (s r S R : Nat) (hs : s < S) (hr : r < R) : s * R + r < S * R := by
  have h1 : (s + 1) * R ≤ S * R := Nat.mul_le_mul_right R hs
  have h2 : (s + 1) * R = s * R + R := Nat.succ_mul s R
  omega

theorem baseAt_no_overflow (menu : Menu) (s r : Nat) (hs : s < menu.Inventory.Spine)
    (hr : r < menu.Inventory.Rack.length)
    (hov : menu.Network.SpineTor + 4 * (menu.Inventory.Spine * menu.Inventory.Rack.length)
      ≤ 2 ^ 32) :
    baseAt (spineToRackBases menu) s r
        = menu.Network.SpineTor + 4 * (s * menu.Inventory.Rack.length + r) ∧
      menu.Network.SpineTor + 4 * (s * menu.Inventory.Rack.length + r) + 3 < 2 ^ 32 := by
  have hlt := index_lt_of_lt s r _ _ hs hr
  rw [baseAt_spineToRackBases menu s r hs hr]
  simp only [uint32, torPerRack]
  constructor
  · rw [Nat.mod_eq_of_lt (a := (s * menu.Inventory.Rack.length + r) * 2 * 2) (by omega),
      Nat.mod_eq_of_lt (by omega)]
    omega
  · omega

theorem addToIP_no_overflow (ip k p : Nat) (h : ip + k < 2 ^ 32) :
    addToIP ip k p = IPNet.mk (ip + k) (CIDRMask p) := by
  have hk : k < 2 ^ 32 := by omega
  simp only [addToIP, uint32, Nat.mod_eq_of_lt hk, Nat.mod_eq_of_lt h]

theorem ToTemplateArgs_ok (menu : Menu)
    (hn : ∀ node ∈ menu.Nodes, node.NodeType = 0 ∨ node.NodeType = 1 ∨ node.NodeType = 2) :
    ToTemplateArgs menu = Except.ok
      { Racks := (List.range menu.Inventory.Rack.length).map
          (buildRack menu (spineToRackBases menu)),
        Spines := (List.range menu.Inventory.Spine).map
          (buildSpine menu (spineToRackBases menu)) } := by
  have hall : menu.Nodes.all
      (fun node => node.NodeType == 0 || node.NodeType == 1 || node.NodeType == 2) = true := by
    rw [List.all_eq_true]
    intro node hnode
    rcases hn node hnode with h | h | h <;> simp [h]
  simp only [ToTemplateArgs, hall, if_true]

theorem sameLink31_of_even (a : Nat) (h : a % 2 = 0) : sameLink31 a (a + 1) := by
  constructor
  · omega
  · omega

/-- C18: for a menu with valid node types, `S` spines and `R` racks whose
spine-ToR addresses do not overflow 32 bits, `ToTemplateArgs` succeeds, and
for every spine `s < S` and rack `r < R`, with `base = SpineTor + 4*(s*R + r)`:
`Spines[s].ToR1Address(r)` is `base`/31, `Racks[r].ToR1.SpineAddresses[s]` is
`base+1`/31, `Spines[s].ToR2Address(r)` is `base+2`/31 and
`Racks[r].ToR2.SpineAddresses[s]` is `base+3`/31; when `SpineTor` is even each
spine-side address and the matching ToR-side address are the two hosts of one
/31 link. -/
theorem ToTemplateArgs_spine_tor_links (menu : Menu)
    (hn : ∀ node ∈ menu.Nodes, node.NodeType = 0 ∨ node.NodeType = 1 ∨ node.NodeType = 2)
    (hov : menu.Network.SpineTor + 4 * (menu.Inventory.Spine * menu.Inventory.Rack.length)
      ≤ 2 ^ 32) :
    ∃ ta, ToTemplateArgs menu = Except.ok ta ∧
      ∀ s r, s < menu.Inventory.Spine → r < menu.Inventory.Rack.length →
        ∃ spine rack, ta.Spines[s]? = some spine ∧ ta.Racks[r]? = some rack ∧
          spine.ToR1Address r = some (some (IPNet.mk
            (menu.Network.SpineTor + 4 * (s * menu.Inventory.Rack.length + r)) (CIDRMask 31))) ∧
          rack.ToR1.SpineAddresses[s]? = some (IPNet.mk
            (menu.Network.SpineTor + 4 * (s * menu.Inventory.Rack.length + r) + 1)
            (CIDRMask 31)) ∧
          spine.ToR2Address r = some (some (IPNet.mk
            (menu.Network.SpineTor + 4 * (s * menu.Inventory.Rack.length + r) + 2)
            (CIDRMask 31))) ∧
          rack.ToR2.SpineAddresses[s]? = some (IPNet.mk
            (menu.Network.SpineTor + 4 * (s * menu.Inventory.Rack.length + r) + 3)
            (CIDRMask 31)) ∧
          (menu.Network.SpineTor % 2 = 0 →
            sameLink31 (menu.Network.SpineTor + 4 * (s * menu.Inventory.Rack.length + r))
              (menu.Network.SpineTor + 4 * (s * menu.Inventory.Rack.length + r) + 1) ∧
            sameLink31 (menu.Network.SpineTor + 4 * (s * menu.Inventory.Rack.length + r) + 2)
              (menu.Network.SpineTor + 4 * (s * menu.Inventory.Rack.length + r) + 3)) := by
  refine ⟨_, ToTemplateArgs_ok menu hn, ?_⟩
  intro s r hs hr
  obtain ⟨hbase, hmax⟩ := baseAt_no_overflow menu s r hs hr hov
  refine ⟨buildSpine menu (spineToRackBases menu) s, buildRack menu (spineToRackBases menu) r,
    by simp [List.getElem?_map, List.getElem?_range hs],
    by simp [List.getElem?_map, List.getElem?_range hr], ?_, ?_, ?_, ?_, ?_⟩
  · have hlen : r * 2 < (List.replicate (torPerRack * menu.Inventory.Rack.length)
        (none : Option IPNet)).length := by simp [torPerRack]; omega
    have hmem : r * 2 / 2 ∈ List.range menu.Inventory.Rack.length := by
      rw [Nat.mul_div_cancel r (by decide : 0 < 2)]; exact List.mem_range.mpr hr
    simp only [Spine.ToR1Address, buildSpine, fillToRAddresses_getElem?, hlen, hmem, and_self,
      if_true]
    rw [Nat.mul_div_cancel r (by decide : 0 < 2), hbase]
    simp only [Nat.mul_mod_left, if_true]
    rw [addToIP_no_overflow _ _ _ (by omega)]
    rfl
  · simp only [buildRack, constructToRAddresses, List.getElem?_map, List.getElem?_range hs,
      Option.map_some', hbase]
    rw [addToIP_no_overflow _ _ _ (by omega)]
  · have hlen : r * 2 + 1 < (List.replicate (torPerRack * menu.Inventory.Rack.length)
        (none : Option IPNet)).length := by simp [torPerRack]; omega
    have hdiv : (r * 2 + 1) / 2 = r := by omega
    have hmem : (r * 2 + 1) / 2 ∈ List.range menu.Inventory.Rack.length := by
      rw [hdiv]; exact List.mem_range.mpr hr
    have hpar : ¬ ((r * 2 + 1) % 2 = 0) := by omega
    simp only [Spine.ToR2Address, buildSpine, fillToRAddresses_getElem?, hlen, hmem, and_self,
      if_true, hpar, if_false]
    rw [hdiv, hbase, addToIP_no_overflow _ _ _ (by omega)]
  · simp only [buildRack, constructToRAddresses, List.getElem?_map, List.getElem?_range hs,
      Option.map_some', hbase]
    rw [addToIP_no_overflow _ _ _ (by omega)]
  · intro heven
    constructor
    · exact sameLink31_of_even _ (by omega)
    · exact sameLink31_of_even _ (by omega)

/-- Witness of C18: two spines and two racks on 10.0.1.0. -/
theorem ToTemplateArgs_spine_tor_links_witness :
    (∀ node ∈ [NodeMenu.mk 0 2 "2G", NodeMenu.mk 1 1 "1G"],
        node.NodeType = 0 ∨ node.NodeType = 1 ∨ node.NodeType = 2) ∧
      167772416 + 4 * (2 * [RackMenu.mk 1 1, RackMenu.mk 2 0].length) ≤ 2 ^ 32 ∧
      ∃ ta, ToTemplateArgs (Menu.mk (NetworkMenu.mk 64600 167772416 (IPNet.mk 172294144
          (CIDRMask 26))) (InventoryMenu.mk 2 [RackMenu.mk 1 1, RackMenu.mk 2 0])
          [NodeMenu.mk 0 2 "2G", NodeMenu.mk 1 1 "1G"]) = Except.ok ta :=
  ⟨by decide, by decide,
    (ToTemplateArgs_spine_tor_links (Menu.mk (NetworkMenu.mk 64600 167772416 (IPNet.mk 172294144
        (CIDRMask 26))) (InventoryMenu.mk 2 [RackMenu.mk 1 1, RackMenu.mk 2 0])
        [NodeMenu.mk 0 2 "2G", NodeMenu.mk 1 1 "1G"]) (by decide) (by decide)).imp
      (fun _ h => h.1)⟩

theorem maskSize_CIDRMask : ∀ p, p < 33 → maskSize (CIDRMask p) = p := by
  decide

theorem makeNodeNetwork_eq (base : IPNet) (p i : Nat) (hp : p ≤ 32)
    (hm : base.Mask = CIDRMask p) (hov : base.IP + i * 2 ^ (32 - p) < 2 ^ 32) :
    makeNodeNetwork base i = IPNet.mk (base.IP + i * 2 ^ (32 - p)) base.Mask := by
  have hsize : maskSize base.Mask = p := by rw [hm]; exact maskSize_CIDRMask p (by omega)
  have hcomm : 2 ^ (32 - p) * i = i * 2 ^ (32 - p) := Nat.mul_comm _ _
  have hlt : i * 2 ^ (32 - p) < 2 ^ 32 := by omega
  simp only [makeNodeNetwork, hsize, uint32, hcomm, Nat.mod_eq_of_lt hlt, Nat.mod_eq_of_lt hov]

theorem buildRack_nodeNetwork (menu : Menu) (bases : List (List Nat)) (p r k : Nat)
    (hp : p ≤ 32) (hm : menu.Network.Node.Mask = CIDRMask p) (hk : k < 3)
    (hov : menu.Network.Node.IP + (r * 3 + k) * 2 ^ (32 - p) < 2 ^ 32) :
    (buildRack menu bases r).nodeNetwork k
      = IPNet.mk (menu.Network.Node.IP + (r * 3 + k) * 2 ^ (32 - p)) menu.Network.Node.Mask := by
  have h := makeNodeNetwork_eq menu.Network.Node p (r * 3 + k) hp hm hov
  rcases k with _ | _ | _ | k
  · simpa [Rack.nodeNetwork, buildRack, constructToRAddresses] using h
  · simpa [Rack.nodeNetwork, buildRack, constructToRAddresses] using h
  · simpa [Rack.nodeNetwork, buildRack, constructToRAddresses] using h
  · omega

theorem contains_subnet (ip mask p i a : Nat) (hp : p ≤ 32) (hm : mask = CIDRMask p) :
    (IPNet.mk (ip + i * 2 ^ (32 - p)) mask).contains a
      ↔ a / 2 ^ (32 - p) = ip / 2 ^ (32 - p) + i := by
  have hsize : maskSize mask = p := by rw [hm]; exact maskSize_CIDRMask p (by omega)
  have hpos : 0 < 2 ^ (32 - p) := Nat.pow_pos (by decide)
  simp only [IPNet.contains, hsize, Nat.add_mul_div_right _ _ hpos]

theorem rack_index_lt (r R k h : Nat) (hr : r < R) (hk : k < 3) :
    (r * 3 + k) * h + h ≤ 3 * R * h := by
  have h1 : r * 3 + k + 1 ≤ 3 * R := by omega
  have h2 := Nat.mul_le_mul_right h h1
  have h3 : (r * 3 + k + 1) * h = (r * 3 + k) * h + h := Nat.succ_mul _ _
  omega

/-- C20: for a base network with prefix length `p ≤ 32`,
`makeNodeNetwork(base, i)` keeps the mask of `base` and has the address
`base.IP + i * 2^(32-p)` whenever that does not overflow 32 bits; so
`ToTemplateArgs` gives rack `r` the subnets numbered `3r`, `3r+1` and `3r+2`,
and the node networks of all racks are pairwise disjoint (for every base
address, aligned to its prefix or not). -/
theorem makeNodeNetwork_consecutive (base : IPNet) (p : Nat) (hp : p ≤ 32)
    (hm : base.Mask = CIDRMask p) :
    (∀ i, base.IP + i * 2 ^ (32 - p) < 2 ^ 32 →
      makeNodeNetwork base i = IPNet.mk (base.IP + i * 2 ^ (32 - p)) base.Mask) ∧
    (∀ menu : Menu, menu.Network.Node = base →
      (∀ node ∈ menu.Nodes, node.NodeType = 0 ∨ node.NodeType = 1 ∨ node.NodeType = 2) →
      base.IP + 3 * menu.Inventory.Rack.length * 2 ^ (32 - p) ≤ 2 ^ 32 →
      ∃ ta, ToTemplateArgs menu = Except.ok ta ∧
        (∀ r, r < menu.Inventory.Rack.length → ∃ rack, ta.Racks[r]? = some rack ∧
          rack.node0Network = IPNet.mk (base.IP + (3 * r) * 2 ^ (32 - p)) base.Mask ∧
          rack.node1Network = IPNet.mk (base.IP + (3 * r + 1) * 2 ^ (32 - p)) base.Mask ∧
          rack.node2Network = IPNet.mk (base.IP + (3 * r + 2) * 2 ^ (32 - p)) base.Mask) ∧
        (∀ (r1 r2 k1 k2 : Nat) (rack1 rack2 : Rack), ta.Racks[r1]? = some rack1 → ta.Racks[r2]? = some rack2 →
          k1 < 3 → k2 < 3 → (r1, k1) ≠ (r2, k2) →
          ∀ a, ¬ ((rack1.nodeNetwork k1).contains a ∧ (rack2.nodeNetwork k2).contains a))) := by
  have hpos : 0 < 2 ^ (32 - p) := Nat.pow_pos (by decide)
  refine ⟨fun i hov => makeNodeNetwork_eq base p i hp hm hov, ?_⟩
  intro menu hbase hn hov
  subst hbase
  refine ⟨_, ToTemplateArgs_ok menu hn, ?_, ?_⟩
  · intro r hr
    refine ⟨buildRack menu (spineToRackBases menu) r,
      by simp [List.getElem?_map, List.getElem?_range hr], ?_, ?_, ?_⟩
    · have h := buildRack_nodeNetwork menu (spineToRackBases menu) p r 0 hp hm (by decide)
        (by have := rack_index_lt r _ 0 (2 ^ (32 - p)) hr (by decide); omega)
      simpa [Rack.nodeNetwork, Nat.mul_comm r 3] using h
    · have h := buildRack_nodeNetwork menu (spineToRackBases menu) p r 1 hp hm (by decide)
        (by have := rack_index_lt r _ 1 (2 ^ (32 - p)) hr (by decide); omega)
      simpa [Rack.nodeNetwork, Nat.mul_comm r 3] using h
    · have h := buildRack_nodeNetwork menu (spineToRackBases menu) p r 2 hp hm (by decide)
        (by have := rack_index_lt r _ 2 (2 ^ (32 - p)) hr (by decide); omega)
      simpa [Rack.nodeNetwork, Nat.mul_comm r 3] using h
  · intro r1 r2 k1 k2 rack1 rack2 h1 h2 hk1 hk2 hne a hboth
    have hr1 : r1 < menu.Inventory.Rack.length := by
      by_contra hcon
      rw [List.getElem?_eq_none (by simpa using hcon)] at h1
      exact Option.noConfusion h1
    have hr2 : r2 < menu.Inventory.Rack.length := by
      by_contra hcon
      rw [List.getElem?_eq_none (by simpa using hcon)] at h2
      exact Option.noConfusion h2
    have e1 : rack1 = buildRack menu (spineToRackBases menu) r1 := by
      simpa [List.getElem?_map, List.getElem?_range hr1] using h1.symm
    have e2 : rack2 = buildRack menu (spineToRackBases menu) r2 := by
      simpa [List.getElem?_map, List.getElem?_range hr2] using h2.symm
    have n1 := buildRack_nodeNetwork menu (spineToRackBases menu) p r1 k1 hp hm hk1
      (by have := rack_index_lt r1 _ k1 (2 ^ (32 - p)) hr1 hk1; omega)
    have n2 := buildRack_nodeNetwork menu (spineToRackBases menu) p r2 k2 hp hm hk2
      (by have := rack_index_lt r2 _ k2 (2 ^ (32 - p)) hr2 hk2; omega)
    rw [e1, e2, n1, n2, contains_subnet _ _ p _ a hp hm, contains_subnet _ _ p _ a hp hm]
      at hboth
    apply hne
    have hr : r1 = r2 := by omega
    have hk : k1 = k2 := by omega
    rw [hr, hk]

/-- Witness of C20: the first subnets of 10.69.0.0/26. -/
theorem makeNodeNetwork_consecutive_witness :
    26 ≤ 32 ∧ (IPNet.mk 172294144 (CIDRMask 26)).Mask = CIDRMask 26 ∧
      172294144 + 4 * 2 ^ (32 - 26) < 2 ^ 32 ∧
      makeNodeNetwork (IPNet.mk 172294144 (CIDRMask 26)) 4
        = IPNet.mk 172294400 (CIDRMask 26) :=
  ⟨by decide, rfl, by decide,
    (makeNodeNetwork_consecutive (IPNet.mk 172294144 (CIDRMask 26)) 26 (by decide)
      rfl).1 4 (by decide)⟩

end Template

/-! ## Starting a node: the wait for the monitor socket -/

theorem waitMonitor_replicate_append (k : Nat) (rest : List Poll) :
    waitMonitor (List.replicate k (Poll.mk (some ENOENT) false) ++ rest) = waitMonitor rest := by
  induction k with
  | zero => rfl
  | succ k ih =>
    have hne : IsNotExist ENOENT = true := by decide
    rw [List.replicate_succ, List.cons_append]
    simp only [waitMonitor, hne, if_true, Bool.false_eq_true, if_false]
    exact ih

theorem waitMonitor_found (ps : List Poll) (h : waitMonitor ps = WaitResult.found) :
    ∃ k d rest, ps = List.replicate k (Poll.mk (some ENOENT) false) ++ Poll.mk none d :: rest := by
  induction ps with
  | nil => simp [waitMonitor] at h
  | cons p rest ih =>
    obtain ⟨stat, done⟩ := p
    cases stat with
    | none => exact ⟨0, done, rest, rfl⟩
    | some e =>
      simp only [waitMonitor] at h
      by_cases hne : IsNotExist e = true
      · have he : e = ENOENT := by simpa [IsNotExist] using hne
        cases done with
        | true => simp [hne] at h
        | false =>
          simp only [hne, if_true, Bool.false_eq_true, if_false] at h
          obtain ⟨k, d, rest1, hk⟩ := ih h
          exact ⟨k + 1, d, rest1, by rw [he, hk]; rfl⟩
      · simp [hne] at h

theorem launchNode_not_connected (Join : List String → String) (env : NodeEnv)
    (q : QemuProvider) (w : World) (nodeCh : List bmcInfo) (n : Node) (run : NodeRun)
    (h : q.launchNode Join env w nodeCh n = some run) :
    run.dialed = false ∧ run.registered = none := by
  unfold QemuProvider.launchNode at h
  simp only at h
  split at h
  · exact Option.noConfusion h
  · cases h; exact ⟨rfl, rfl⟩
  · split at h
    · cases h; exact ⟨rfl, rfl⟩
    · cases h; exact ⟨rfl, rfl⟩

theorem startNode_of_launched (Join : List String → String) (env : NodeEnv)
    (q : QemuProvider) (w : World) (nodeCh : List bmcInfo) (n : Node) (run : NodeRun)
    (hl : q.launchNode Join env w nodeCh n = some run) (hr : run.returned = none) :
    q.startNode Join env w nodeCh n
      = some (superviseNode env.polls env.dialErr env.waitErr run) := by
  simp only [QemuProvider.startNode, hl, hr]

/-- C17: once `startNode` has started the VM process, with the wait for the
monitor socket as a loop over the results of `os.Stat` and the cancellation
flag: while every round reports that the file does not exist (and no
cancellation) the call is still waiting, having neither dialled nor
registered; cancellation seen in a not-exist round makes it return nil without
dialling or registering; a stat error other than not-exist is returned; a
successful stat leads to the dial, and the dial happens only after a
successful stat that follows not-exist rounds. -/
theorem startNode_monitor_wait (Join : List String → String) (env : NodeEnv)
    (q : QemuProvider) (w : World) (nodeCh : List bmcInfo) (n : Node) (run : NodeRun)
    (hl : q.launchNode Join env w nodeCh n = some run) (hr : run.returned = none) :
    (run.dialed = false ∧ run.registered = none) ∧
    (∀ k, env.polls = List.replicate k (Poll.mk (some ENOENT) false) →
      q.startNode Join env w nodeCh n = some run) ∧
    (∀ k e rest, IsNotExist e = true →
      env.polls = List.replicate k (Poll.mk (some ENOENT) false) ++ Poll.mk (some e) true :: rest →
      q.startNode Join env w nodeCh n = some { run with returned := some none }) ∧
    (∀ k e d rest, IsNotExist e = false →
      env.polls = List.replicate k (Poll.mk (some ENOENT) false) ++ Poll.mk (some e) d :: rest →
      q.startNode Join env w nodeCh n = some { run with returned := some (some e) }) ∧
    (∀ k d rest,
      env.polls = List.replicate k (Poll.mk (some ENOENT) false) ++ Poll.mk none d :: rest →
      ∃ r, q.startNode Join env w nodeCh n = some r ∧ r.dialed = true) ∧
    (∀ r, q.startNode Join env w nodeCh n = some r → r.dialed = true →
      ∃ k d rest,
        env.polls = List.replicate k (Poll.mk (some ENOENT) false) ++ Poll.mk none d :: rest) := by
  have hs := startNode_of_launched Join env q w nodeCh n run hl hr
  have hnc := launchNode_not_connected Join env q w nodeCh n run hl
  refine ⟨hnc, ?_, ?_, ?_, ?_, ?_⟩
  · intro k hk
    have h0 : waitMonitor env.polls = WaitResult.polling := by
      rw [hk, ← List.append_nil (List.replicate k _), waitMonitor_replicate_append]
      rfl
    rw [hs]
    simp only [superviseNode, h0]
  · intro k e rest he hk
    have h0 : waitMonitor env.polls = WaitResult.canceled := by
      rw [hk, waitMonitor_replicate_append]
      simp [waitMonitor, he]
    rw [hs]
    simp only [superviseNode, h0]
  · intro k e d rest he hk
    have h0 : waitMonitor env.polls = WaitResult.failed e := by
      rw [hk, waitMonitor_replicate_append]
      simp [waitMonitor, he]
    rw [hs]
    simp only [superviseNode, h0]
  · intro k d rest hk
    have h0 : waitMonitor env.polls = WaitResult.found := by
      rw [hk, waitMonitor_replicate_append]
      rfl
    rw [hs]
    simp only [superviseNode, h0]
    cases env.dialErr with
    | none => exact ⟨_, rfl, rfl⟩
    | some err => exact ⟨_, rfl, rfl⟩
  · intro r hr1 hd
    rw [hs] at hr1
    apply waitMonitor_found
    cases hw : waitMonitor env.polls with
    | found => rfl
    | canceled =>
      simp only [superviseNode, hw, Option.some.injEq] at hr1
      rw [← hr1] at hd
      simp [hnc.1] at hd
    | failed err =>
      simp only [superviseNode, hw, Option.some.injEq] at hr1
      rw [← hr1] at hd
      simp [hnc.1] at hd
    | polling =>
      simp only [superviseNode, hw, Option.some.injEq] at hr1
      rw [← hr1] at hd
      simp [hnc.1] at hd

/-- Witness of C17: the socket is missing in the first round and the context
is cancelled in the second: `startNode` returns nil, nothing dialled or
registered. -/
theorem startNode_monitor_wait_witness :
    exampleProvider.launchNode joinSlash
        (exampleEnv none [Poll.mk (some ENOENT) false, Poll.mk (some ENOENT) true])
        (hostFailing []) [] (exampleNode false []) = some exampleLaunchedRun ∧
      exampleLaunchedRun.returned = none ∧
      IsNotExist ENOENT = true ∧
      exampleProvider.startNode joinSlash
        (exampleEnv none [Poll.mk (some ENOENT) false, Poll.mk (some ENOENT) true])
        (hostFailing []) [] (exampleNode false [])
        = some { exampleLaunchedRun with returned := some none } :=
  ⟨rfl, rfl, rfl,
    (startNode_monitor_wait joinSlash
      (exampleEnv none [Poll.mk (some ENOENT) false, Poll.mk (some ENOENT) true])
      exampleProvider (hostFailing []) [] (exampleNode false []) exampleLaunchedRun rfl
      rfl).2.2.1 1 ENOENT [] rfl rfl⟩

/-! ## Starting a node: the arguments of the VM process -/

theorem outcomeAt_append_left (w : World) (a b : List (List String)) (j : Nat)
    (hj : j < a.length) : outcomeAt w (a ++ b) j = outcomeAt w a j := by
  simp only [outcomeAt, List.take_append_of_le_length (Nat.le_of_lt hj),
    List.getD_append _ _ _ _ hj]

theorem outcomeAt_append_right (w : World) (a b : List (List String)) (j : Nat) :
    outcomeAt w (a ++ b) (a.length + j)
      = outcomeAt (World.mk (w.trace ++ a.map toAction) w.outcome) b j := by
  have h1 : List.take (a.length + j) (a ++ b) = a ++ List.take j b := by
    rw [List.take_append]
  have h2 : (a ++ b).getD (a.length + j) [] = b.getD j [] := by
    rw [List.getD_append_right _ _ _ _ (Nat.le_add_right _ _)]
    simp
  simp only [outcomeAt, h1, h2, List.map_append, List.append_assoc]

theorem flatMap_enumFrom_succ {α β : Type} (f : Nat → α → List β) (l : List α) :
    ∀ n, (l.enumFrom (n + 1)).flatMap (fun p => f p.1 p.2)
      = (l.enumFrom n).flatMap (fun p => f (p.1 + 1) p.2) := by
  induction l with
  | nil => intro n; rfl
  | cons x xs ih =>
    intro n
    simp only [List.enumFrom_cons, List.flatMap_cons, ih (n + 1)]

theorem netdev_eq (vhost : Bool) (br tap : String) :
    (if vhost = true then
        "tap,id=" ++ br ++ ",ifname=" ++ tap ++ ",script=no,downscript=no" ++ ",vhost=on"
      else "tap,id=" ++ br ++ ",ifname=" ++ tap ++ ",script=no,downscript=no")
      = netdevArg vhost br tap := by
  cases vhost <;> simp [netdevArg]

theorem device_eq (uefi : Bool) (br mac : String) :
    ",".intercalate (if uefi = true then ["virtio-net-pci", "netdev=" ++ br, "mac=" ++ mac]
        ++ ["romfile="] else ["virtio-net-pci", "netdev=" ++ br, "mac=" ++ mac])
      = deviceArg uefi br mac := by
  cases uefi
  · apply String.ext
    simp [deviceArg, String.intercalate, String.intercalate.go, String.data_append]
  · apply String.ext
    simp [deviceArg, String.intercalate, String.intercalate.go, String.data_append]

theorem nameAt_New (g : nameGenerator) (k : Nat) : g.New.2.nameAt k = g.nameAt (k + 1) := by
  simp only [nameGenerator.nameAt, nameGenerator.New]
  rw [Nat.add_assoc, Nat.add_comm 1 k]

theorem nameAt_zero (g : nameGenerator) : g.nameAt 0 = g.New.1 := by
  simp [nameGenerator.nameAt, nameGenerator.New]

theorem nodeTapCommands_cons (g : nameGenerator) (br : String) (rest : List String) :
    nodeTapCommands g (br :: rest)
      = createTapCommands g.New.1 br ++ nodeTapCommands g.New.2 rest := by
  simp only [nodeTapCommands, List.enumFrom_cons, List.flatMap_cons, nameAt_zero, nameAt_New]
  rw [flatMap_enumFrom_succ (fun i br => createTapCommands (g.nameAt i) br) rest 0]

theorem nodeNetArgsFrom_cons (env : NodeEnv) (uefi : Bool) (g : nameGenerator) (i : Nat)
    (br : String) (rest : List String) :
    nodeNetArgsFrom env uefi g i (br :: rest)
      = ["-netdev", netdevArg env.vhostNetSupported br g.New.1,
          "-device", deviceArg uefi br
            (generateRandomMACForKVM (env.macBytes i).1 (env.macBytes i).2.1
              (env.macBytes i).2.2)]
        ++ nodeNetArgsFrom env uefi g.New.2 (i + 1) rest := by
  simp only [nodeNetArgsFrom, List.enumFrom_cons, List.flatMap_cons, nameAt_zero, nameAt_New,
    Nat.add_zero]
  rw [flatMap_enumFrom_succ (fun k br =>
    ["-netdev", netdevArg env.vhostNetSupported br (g.nameAt k),
      "-device", deviceArg uefi br
        (generateRandomMACForKVM (env.macBytes (i + k)).1 (env.macBytes (i + k)).2.1
          (env.macBytes (i + k)).2.2)]) rest 0]
  simp only [Nat.add_assoc, Nat.add_comm 1]

theorem after_succ (g : nameGenerator) (k : Nat) : g.New.2.after k = g.after (k + 1) := by
  simp only [nameGenerator.after, nameGenerator.mk.injEq]
  refine ⟨rfl, ?_, ?_⟩
  · simp only [nameGenerator.New]; omega
  · rw [List.range_succ_eq_map, List.map_cons, List.map_map]
    have hf : g.nameAt ∘ Nat.succ = g.New.2.nameAt := by
      funext k; simp only [Function.comp, nameAt_New]
    rw [hf, nameAt_zero]
    simp [nameGenerator.New]

theorem after_zero (g : nameGenerator) : g.after 0 = g := by
  cases g
  simp [nameGenerator.after]

theorem createTap_ok (w : World) (tap br : String)
    (h : ∀ j, j < (createTapCommands tap br).length →
      outcomeAt w (createTapCommands tap br) j = none) :
    createTap w tap br
      = some (World.mk (w.trace ++ (createTapCommands tap br).map toAction) w.outcome,
          none) := by
  have hne : ∀ c ∈ createTapCommands tap br, c ≠ [] := by
    intro c hc
    simp only [createTapCommands, List.mem_cons, List.mem_singleton, List.not_mem_nil,
      or_false] at hc
    rcases hc with h | h | h <;> subst h <;> simp
  exact (execCommands_spec _ w hne).2.1 h

theorem startNodeTaps_ok (env : NodeEnv) (uefi : Bool) (brs : List String) :
    ∀ (w : World) (tng : nameGenerator) (i : Nat) (params : List String),
      (∀ j, j < (nodeTapCommands tng brs).length →
        outcomeAt w (nodeTapCommands tng brs) j = none) →
      startNodeTaps env uefi w tng i brs params
        = some (World.mk (w.trace ++ (nodeTapCommands tng brs).map toAction) w.outcome,
            tng.after brs.length, none, params ++ nodeNetArgsFrom env uefi tng i brs) := by
  induction brs with
  | nil =>
    intro w tng i params _
    simp [startNodeTaps, nodeTapCommands, nodeNetArgsFrom, after_zero]
  | cons br rest ih =>
    intro w tng i params h
    rw [nodeTapCommands_cons] at h
    have h1 : createTap w tng.New.1 br
        = some (World.mk (w.trace ++ (createTapCommands tng.New.1 br).map toAction) w.outcome,
            none) := by
      apply createTap_ok
      intro j hj
      rw [← outcomeAt_append_left w _ (nodeTapCommands tng.New.2 rest) j hj]
      exact h j (by rw [List.length_append]; omega)
    have h2 := ih (World.mk (w.trace ++ (createTapCommands tng.New.1 br).map toAction) w.outcome)
      tng.New.2 (i + 1)
      (params ++ ["-netdev", netdevArg env.vhostNetSupported br tng.New.1]
        ++ ["-device", deviceArg uefi br
          (generateRandomMACForKVM (env.macBytes i).1 (env.macBytes i).2.1
            (env.macBytes i).2.2)])
      (by
        intro j hj
        rw [← outcomeAt_append_right]
        exact h _ (by rw [List.length_append]; omega))
    simp only [startNodeTaps, h1]
    rw [netdev_eq, device_eq, h2]
    simp only [nodeTapCommands_cons, nodeNetArgsFrom_cons, after_succ, List.map_append,
      List.append_assoc, List.length_cons, List.cons_append, List.nil_append]

theorem ite_append_list {α : Type} (c : Prop) [Decidable c] (p x : List α) :
    (if c then p ++ x else p) = p ++ (if c then x else []) := by
  split_ifs <;> simp

theorem ite_list_append {α : Type} (c : Prop) [Decidable c] (p x : List α) :
    (if c then p else p ++ x) = p ++ (if c then [] else x) := by
  split_ifs <;> simp

theorem ite_string_append (c : Prop) [Decidable c] (p x : String) :
    (if c then p else p ++ x) = p ++ (if c then "" else x) := by
  split_ifs <;> simp

theorem qemuParams_snd (Join : List String → String) (q : QemuProvider) (n : Node) :
    (q.qemuParams Join n).2
      = { n with SMBIOS := { n.SMBIOS with Serial := effectiveSerial n } } := by
  simp only [QemuProvider.qemuParams, effectiveSerial, beq_iff_eq]
  split_ifs with h
  · rfl
  · rfl

theorem qemuParams_fst (Join : List String → String) (q : QemuProvider) (n : Node) :
    (q.qemuParams Join n).1
      = ["-enable-kvm"]
        ++ (if n.IgnitionFile = "" then []
            else ["-fw_cfg", "opt/com.coreos/config,file=" ++ n.IgnitionFile])
        ++ (if n.CPU = 0 then [] else ["-smp", toString n.CPU])
        ++ (if n.Memory = "" then [] else ["-m", n.Memory])
        ++ (if q.NoGraphic = true then
              ["-nographic", "-serial", "unix:" ++ q.socketPath Join n.Name ++ ",server,nowait"]
            else [])
        ++ (if n.UEFI = true then
              ["-drive", "if=pflash,file=" ++ defaultOVMFCodePath ++ ",format=raw,readonly",
                "-drive", "if=pflash,file=" ++ q.nvramPath Join n.Name ++ ",format=raw"]
            else [])
        ++ ["-smbios", smbiosArg n (effectiveSerial n)] := by
  have hs : (if (n.SMBIOS.Serial == "") = true then
        ({ n with SMBIOS := { n.SMBIOS with Serial := nodeSerial n.Name } } : Node)
      else n).SMBIOS.Serial = effectiveSerial n := by
    simp only [effectiveSerial, beq_iff_eq]
    split_ifs <;> rfl
  simp only [QemuProvider.qemuParams, hs, bne_iff_ne, ne_eq, ite_not, ite_string_append,
    smbiosArg]
  by_cases h1 : n.IgnitionFile = "" <;> by_cases h2 : n.CPU = 0 <;>
    by_cases h3 : n.Memory = "" <;> by_cases h4 : q.NoGraphic = true <;>
    by_cases h5 : n.UEFI = true <;>
    simp [h1, h2, h3, h4, h5]

theorem nodeNetArgsFrom_length (env : NodeEnv) (uefi : Bool) (brs : List String) :
    ∀ (g : nameGenerator) (i : Nat),
      (nodeNetArgsFrom env uefi g i brs).length = 4 * brs.length := by
  induction brs with
  | nil => intro g i; rfl
  | cons br rest ih =>
    intro g i
    rw [nodeNetArgsFrom_cons, List.length_append, ih, List.length_cons]
    simp only [List.length_cons, List.length_nil]
    omega

theorem launchNode_eq (Join : List String → String) (env : NodeEnv) (q : QemuProvider)
    (w : World) (nodeCh : List bmcInfo) (n : Node)
    (htaps : ∀ j, j < (nodeTapCommands q.tng n.Interfaces).length →
      outcomeAt w (nodeTapCommands q.tng n.Interfaces) j = none)
    (hnv : n.UEFI = true →
      (createNVRAM (World.mk (w.trace ++ (nodeTapCommands q.tng n.Interfaces).map toAction)
        w.outcome) env.nvramStat (q.nvramPath Join n.Name)).2 = none) :
    q.launchNode Join env w nodeCh n
      = some
        { node := (q.qemuParams Join n).2,
          tng := q.tng.after n.Interfaces.length,
          world := (if n.UEFI = true then
            createNVRAM (World.mk (w.trace ++ (nodeTapCommands q.tng n.Interfaces).map toAction)
              w.outcome) env.nvramStat (q.nvramPath Join n.Name)
            else (World.mk (w.trace ++ (nodeTapCommands q.tng n.Interfaces).map toAction)
              w.outcome, none)).1,
          args := some (n.params ++ (q.qemuParams Join n).1
            ++ nodeNetArgsFrom env n.UEFI q.tng 0 n.Interfaces
            ++ ["-boot", "reboot-timeout=30000", "-serial", "stdio", "-monitor",
              "unix:" ++ q.monitorSocketPath Join n.Name ++ ",server,nowait"]),
          stdout := some
            { data := [], serial := effectiveSerial n, sent := false, ch := nodeCh },
          dialed := false,
          registered := none,
          returned := env.startErr.map some } := by
  have hu : (q.qemuParams Join n).2.UEFI = n.UEFI := by rw [qemuParams_snd]
  have hi : (q.qemuParams Join n).2.Interfaces = n.Interfaces := by rw [qemuParams_snd]
  have hn : (q.qemuParams Join n).2.Name = n.Name := by rw [qemuParams_snd]
  have hs : (q.qemuParams Join n).2.SMBIOS.Serial = effectiveSerial n := by rw [qemuParams_snd]
  have ht : "reboot-timeout=" ++ toString (defaultRebootTimeout / Millisecond)
      = "reboot-timeout=30000" := by decide
  have htap := startNodeTaps_ok env n.UEFI n.Interfaces w q.tng 0
    (n.params ++ (q.qemuParams Join n).1) htaps
  unfold QemuProvider.launchNode
  simp only [hu, hi, hn, hs, htap, ht]
  by_cases huefi : n.UEFI = true
  · have h2 := hnv huefi
    simp only [huefi, if_true] at h2 ⊢
    simp only [h2, List.append_assoc, List.cons_append, List.nil_append]
  · simp only [huefi, if_false, List.append_assoc, List.cons_append, List.nil_append]
    simp

theorem launchNode_nvram_fail (Join : List String → String) (env : NodeEnv) (q : QemuProvider)
    (w : World) (nodeCh : List bmcInfo) (n : Node)
    (htaps : ∀ j, j < (nodeTapCommands q.tng n.Interfaces).length →
      outcomeAt w (nodeTapCommands q.tng n.Interfaces) j = none)
    (huefi : n.UEFI = true) (e : Error)
    (hfail : (createNVRAM (World.mk (w.trace ++ (nodeTapCommands q.tng n.Interfaces).map toAction)
        w.outcome) env.nvramStat (q.nvramPath Join n.Name)).2 = some e) :
    q.launchNode Join env w nodeCh n
      = some
        { node := (q.qemuParams Join n).2,
          tng := q.tng.after n.Interfaces.length,
          world := (createNVRAM
            (World.mk (w.trace ++ (nodeTapCommands q.tng n.Interfaces).map toAction) w.outcome)
            env.nvramStat (q.nvramPath Join n.Name)).1,
          args := none,
          stdout := none,
          dialed := false,
          registered := none,
          returned := some (some e) } := by
  have hu : (q.qemuParams Join n).2.UEFI = n.UEFI := by rw [qemuParams_snd]
  have hi : (q.qemuParams Join n).2.Interfaces = n.Interfaces := by rw [qemuParams_snd]
  have hn : (q.qemuParams Join n).2.Name = n.Name := by rw [qemuParams_snd]
  have htap := startNodeTaps_ok env n.UEFI n.Interfaces w q.tng 0
    (n.params ++ (q.qemuParams Join n).1) htaps
  unfold QemuProvider.launchNode
  simp only [hu, hi, hn, htap]
  simp only [huefi, if_true, hfail]

/-- Counterexample to C12 as stated. First, a UEFI node with one interface
whose tap creation succeeds, on a host where the copy of the NVRAM template
fails: `startNode` has minted the tap name and run the tap commands, but
returns the error of the copy without an argument list, so no list ends with
`-boot`, `-serial` and `-monitor`. Second, a node with CPU 0 whose own
parameters are `-smp 0`: the argument list contains `-smp` although CPU is
zero. -/
theorem startNode_nvram_failure_no_args :
    (exampleProvider.startNode joinSlash (exampleEnv (some ENOENT) [])
        (hostFailing [Action.run "cp"
          ["/usr/share/OVMF/OVMF_VARS.fd", "/var/scratch/placemat/nvram/node1.fd"]]) []
        (exampleNode true ["br0"])).map
      (fun r => (r.args, r.returned, r.tng.generatedNames, r.world.trace))
    = some (none, some (some "exit status 1"), ["pmtap0"],
        [Action.run "ip" ["tuntap", "add", "pmtap0", "mode", "tap"],
          Action.run "ip" ["link", "set", "pmtap0", "master", "br0"],
          Action.run "ip" ["link", "set", "pmtap0", "up"],
          Action.run "cp"
            ["/usr/share/OVMF/OVMF_VARS.fd", "/var/scratch/placemat/nvram/node1.fd"]]) ∧
    (Node.mk "node1" [] 0 "" false "" (SMBIOSConfig.mk "" "" "SN-1") [] ["-smp", "0"]).CPU = 0 ∧
    (exampleProvider.startNode joinSlash (exampleEnv none []) (hostFailing []) []
        (Node.mk "node1" [] 0 "" false "" (SMBIOSConfig.mk "" "" "SN-1") []
          ["-smp", "0"])).map (fun r => r.args)
      = some (some ["-smp", "0", "-enable-kvm", "-smbios", "type=1,serial=SN-1",
          "-boot", "reboot-timeout=30000", "-serial", "stdio",
          "-monitor", "unix:/run/placemat/node1.monitor,server,nowait"]) := by
  decide

/-- C12 (amended): for a node with `k` interfaces whose tap creations all
succeed, `startNode` mints exactly `k` tap names. When moreover UEFI is not set
or the NVRAM creation does not fail, it builds the argument list: the node's
own parameters, the arguments of `qemuParams`, then `k` `-netdev`/`-device`
pairs in interface order (`vhost=on` only with vhost support, `romfile=` only
with UEFI), then `-boot reboot-timeout=30000`, `-serial stdio` and `-monitor
unix:<monitor socket path>,server,nowait`. When UEFI is set and the NVRAM
creation fails, `startNode` returns that error and builds no argument list,
binds no writer and dials nothing. The arguments of `qemuParams` are, in
order, `-enable-kvm`, the `-fw_cfg` pair iff an ignition file is set, the pair
`-smp <CPU>` iff CPU is non-zero, the pair `-m <Memory>` iff Memory is
non-empty, the no-graphic and UEFI arguments iff these are set, and the
`-smbios` pair. -/
theorem startNode_args (Join : List String → String) (env : NodeEnv) (q : QemuProvider)
    (w : World) (nodeCh : List bmcInfo) (n : Node)
    (htaps : ∀ j, j < (nodeTapCommands q.tng n.Interfaces).length →
      outcomeAt w (nodeTapCommands q.tng n.Interfaces) j = none) :
    ((n.UEFI = true →
        (createNVRAM (World.mk (w.trace ++ (nodeTapCommands q.tng n.Interfaces).map toAction)
          w.outcome) env.nvramStat (q.nvramPath Join n.Name)).2 = none) →
      (q.launchNode Join env w nodeCh n).map (fun r => (r.args, r.tng))
          = some (some (n.params ++ (q.qemuParams Join n).1
              ++ nodeNetArgsFrom env n.UEFI q.tng 0 n.Interfaces
              ++ ["-boot", "reboot-timeout=30000", "-serial", "stdio", "-monitor",
                "unix:" ++ q.monitorSocketPath Join n.Name ++ ",server,nowait"]),
            q.tng.after n.Interfaces.length) ∧
        (q.startNode Join env w nodeCh n).map (fun r => (r.args, r.tng))
          = (q.launchNode Join env w nodeCh n).map (fun r => (r.args, r.tng))) ∧
    (∀ e, n.UEFI = true →
      (createNVRAM (World.mk (w.trace ++ (nodeTapCommands q.tng n.Interfaces).map toAction)
        w.outcome) env.nvramStat (q.nvramPath Join n.Name)).2 = some e →
      (q.startNode Join env w nodeCh n).map
          (fun r => (r.args, r.returned, r.tng, r.stdout, r.dialed, r.registered))
        = some (none, some (some e), q.tng.after n.Interfaces.length, none, false, none)) ∧
    (nodeNetArgsFrom env n.UEFI q.tng 0 n.Interfaces).length = 4 * n.Interfaces.length ∧
    (q.tng.after n.Interfaces.length).generatedNames
      = q.tng.generatedNames ++ (List.range n.Interfaces.length).map q.tng.nameAt ∧
    (q.qemuParams Join n).1
      = ["-enable-kvm"]
        ++ (if n.IgnitionFile = "" then []
            else ["-fw_cfg", "opt/com.coreos/config,file=" ++ n.IgnitionFile])
        ++ (if n.CPU = 0 then [] else ["-smp", toString n.CPU])
        ++ (if n.Memory = "" then [] else ["-m", n.Memory])
        ++ (if q.NoGraphic = true then
              ["-nographic", "-serial", "unix:" ++ q.socketPath Join n.Name ++ ",server,nowait"]
            else [])
        ++ (if n.UEFI = true then
              ["-drive", "if=pflash,file=" ++ defaultOVMFCodePath ++ ",format=raw,readonly",
                "-drive", "if=pflash,file=" ++ q.nvramPath Join n.Name ++ ",format=raw"]
            else [])
        ++ ["-smbios", smbiosArg n (effectiveSerial n)] := by
  refine ⟨?_, ?_, nodeNetArgsFrom_length env n.UEFI n.Interfaces q.tng 0, rfl,
    qemuParams_fst Join q n⟩
  · intro hnv
    have hl := launchNode_eq Join env q w nodeCh n htaps hnv
    refine ⟨?_, ?_⟩
    · rw [hl]; rfl
    · rw [QemuProvider.startNode, hl]
      cases env.startErr with
      | none =>
        simp only [Option.map_none', Option.map_some', superviseNode]
        cases waitMonitor env.polls with
        | found => cases env.dialErr <;> rfl
        | canceled => rfl
        | failed err => rfl
        | polling => rfl
      | some err => rfl
  · intro e huefi hfail
    rw [QemuProvider.startNode, launchNode_nvram_fail Join env q w nodeCh n htaps huefi e hfail]
    rfl

/-- Witness of C12 (amended): `node1` with the interfaces `br0` and `br1` on a
host where every command succeeds. -/
theorem startNode_args_witness :
    (∀ j, j < (nodeTapCommands exampleProvider.tng (exampleNode false ["br0", "br1"]).Interfaces).length →
      outcomeAt (hostFailing [])
        (nodeTapCommands exampleProvider.tng (exampleNode false ["br0", "br1"]).Interfaces) j
        = none) ∧
      (exampleProvider.launchNode joinSlash (exampleEnv none []) (hostFailing []) []
          (exampleNode false ["br0", "br1"])).map (fun r => (r.args, r.tng))
        = some (some ["-enable-kvm", "-smp", "2", "-m", "2G", "-smbios", "type=1,serial=SN-1",
            "-netdev", "tap,id=br0,ifname=pmtap0,script=no,downscript=no",
            "-device", "virtio-net-pci,netdev=br0,mac=52:54:00:00:01:02",
            "-netdev", "tap,id=br1,ifname=pmtap1,script=no,downscript=no",
            "-device", "virtio-net-pci,netdev=br1,mac=52:54:00:01:01:02",
            "-boot", "reboot-timeout=30000", "-serial", "stdio",
            "-monitor", "unix:/run/placemat/node1.monitor,server,nowait"],
          nameGenerator.mk "pmtap" 2 ["pmtap0", "pmtap1"]) :=
  ⟨by decide,
    ((startNode_args joinSlash (exampleEnv none []) exampleProvider (hostFailing []) []
      (exampleNode false ["br0", "br1"]) (by decide)).1 (fun h => absurd h (by decide))).1⟩

/-! ## The serial of a node -/

theorem sha1Sum_length (msg : List UInt8) : (sha1Sum msg).length = 20 := by
  simp [sha1Sum, wordBytes]

theorem flatMap_hex_length (l : List UInt8) :
    (l.flatMap (fun b => (hex02 b).data)).length = 2 * l.length := by
  induction l with
  | nil => rfl
  | cons b bs ih =>
    rw [List.flatMap_cons, List.length_append, ih, List.length_cons]
    simp only [hex02, List.length_cons, List.length_nil]
    omega

theorem nodeSerial_length (name : String) : (nodeSerial name).length = 40 := by
  rw [nodeSerial, String.length, flatMap_hex_length, sha1Sum_length]

theorem nodeSerial_lower_hex (name : String) :
    ∀ c ∈ (nodeSerial name).data, isLowerHex c = true := by
  intro c hc
  simp only [nodeSerial, List.mem_flatMap, hex02, List.mem_cons, List.mem_singleton,
    List.not_mem_nil, or_false] at hc
  obtain ⟨b, _, h | h⟩ := hc
  · rw [h]
    exact (hexDigit_spec _ (by have := UInt8.toNat_lt b; omega)).2
  · rw [h]
    exact (hexDigit_spec _ (by omega)).2

theorem startNodeTaps_params (env : NodeEnv) (uefi : Bool) (brs : List String) :
    ∀ (w : World) (tng : nameGenerator) (i : Nat) (params : List String)
      (w1 : World) (tng1 : nameGenerator) (e : Option Error) (ps : List String),
      startNodeTaps env uefi w tng i brs params = some (w1, tng1, e, ps) →
      ∃ extra, ps = params ++ extra := by
  induction brs with
  | nil =>
    intro w tng i params w1 tng1 e ps h
    simp only [startNodeTaps, Option.some.injEq, Prod.mk.injEq] at h
    exact ⟨[], by simp [h.2.2.2]⟩
  | cons br rest ih =>
    intro w tng i params w1 tng1 e ps h
    simp only [startNodeTaps] at h
    split at h
    · exact Option.noConfusion h
    · simp only [Option.some.injEq, Prod.mk.injEq] at h
      exact ⟨[], by simp [h.2.2.2]⟩
    · obtain ⟨extra, hx⟩ := ih _ _ _ _ _ _ _ _ h
      exact ⟨_, by rw [hx, List.append_assoc, List.append_assoc]⟩

theorem launchNode_fields (Join : List String → String) (env : NodeEnv) (q : QemuProvider)
    (w : World) (nodeCh : List bmcInfo) (n : Node) (run : NodeRun)
    (h : q.launchNode Join env w nodeCh n = some run) :
    run.node = (q.qemuParams Join n).2 ∧
    (∀ pw, run.stdout = some pw →
      pw = processWriter.mk [] (q.qemuParams Join n).2.SMBIOS.Serial false nodeCh) ∧
    (∀ args, run.args = some args →
      ∃ post, args = n.params ++ (q.qemuParams Join n).1 ++ post) := by
  unfold QemuProvider.launchNode at h
  simp only at h
  split at h
  · exact Option.noConfusion h
  · cases h
    exact ⟨rfl, fun pw hpw => Option.noConfusion hpw, fun a ha => Option.noConfusion ha⟩
  · rename_i w1 tng1 params1 htaps
    obtain ⟨extra, hx⟩ := startNodeTaps_params _ _ _ _ _ _ _ _ _ _ _ htaps
    split at h
    · cases h
      exact ⟨rfl, fun pw hpw => Option.noConfusion hpw, fun a ha => Option.noConfusion ha⟩
    · cases h
      refine ⟨rfl, ?_, ?_⟩
      · intro pw hpw
        simp only [Option.some.injEq] at hpw
        exact hpw.symm
      · intro args ha
        simp only [Option.some.injEq] at ha
        refine ⟨extra ++ (["-boot",
          "reboot-timeout=" ++ toString (defaultRebootTimeout / Millisecond)]
            ++ (["-serial", "stdio"] ++ ["-monitor", "unix:"
              ++ q.monitorSocketPath Join (q.qemuParams Join n).2.Name ++ ",server,nowait"])), ?_⟩
        rw [← ha, hx]
        simp only [List.append_assoc]

theorem superviseNode_fields (polls : List Poll) (dialErr waitErr : Option Error)
    (run : NodeRun) :
    (superviseNode polls dialErr waitErr run).node = run.node ∧
    (superviseNode polls dialErr waitErr run).args = run.args ∧
    (superviseNode polls dialErr waitErr run).stdout = run.stdout ∧
    (run.registered = none →
      ∀ r, (superviseNode polls dialErr waitErr run).registered = some r →
        r.1 = run.node.SMBIOS.Serial) := by
  unfold superviseNode
  cases waitMonitor polls with
  | found =>
    cases dialErr with
    | none =>
      refine ⟨rfl, rfl, rfl, ?_⟩
      intro _ r hr
      simp only [Option.some.injEq] at hr
      rw [← hr]
    | some err =>
      refine ⟨rfl, rfl, rfl, ?_⟩
      intro h0 r hr
      simp only [h0] at hr
      exact Option.noConfusion hr
  | canceled =>
    refine ⟨rfl, rfl, rfl, ?_⟩
    intro h0 r hr
    simp only [h0] at hr
    exact Option.noConfusion hr
  | failed err =>
    refine ⟨rfl, rfl, rfl, ?_⟩
    intro h0 r hr
    simp only [h0] at hr
    exact Option.noConfusion hr
  | polling =>
    refine ⟨rfl, rfl, rfl, ?_⟩
    intro h0 r hr
    simp only [h0] at hr
    exact Option.noConfusion hr

set_option maxRecDepth 1000000 in
/-- The model of `nodeSerial` on the SHA-1 test vector "abc". -/
theorem nodeSerial_abc : nodeSerial "abc" = "a9993e364706816aba3e25717850c26c9cd0d89d" := by
  decide!

set_option maxRecDepth 1000000 in
/-- The model of `nodeSerial` on the empty name. -/
theorem nodeSerial_empty : nodeSerial "" = "da39a3ee5e6b4b0d3255bfef95601890afd80709" := by
  decide!

set_option maxRecDepth 1000000 in
/-- The model of `nodeSerial` on the two-block SHA-1 test vector. -/
theorem nodeSerial_two_blocks :
    nodeSerial "abcdbcdecdefdefgefghfghighijhijkijkljklmklmnlmnomnopnopq"
      = "84983e441c3bd26ebaae4aa1f95129e5e54670f1" := by
  decide!

set_option maxRecDepth 1000000 in
/-- The model of `nodeSerial` on a name of 130 bytes, three blocks. -/
theorem nodeSerial_three_blocks :
    nodeSerial
      "aaaaaaaaaaaaaaaaaaaaaaaaaaaaaaaaaaaaaaaaaaaaaaaaaaaaaaaaaaaaaaaaaaaaaaaaaaaaaaaaaaaaaaaaaaaaaaaaaaaaaaaaaaaaaaaaaaaaaaaaaaaaaaaaaa"
      = "e1cd437ec3e8a60db34e1d150a4fc73882d83b41" := by
  decide!

set_option maxRecDepth 1000000 in
/-- The model of `nodeSerial` on the name `node1`. -/
theorem nodeSerial_node1 : nodeSerial "node1" = "f937c37e949d9efa20d2958af309235c73ec039a" := by
  decide!

/-- C13: with `s` the configured SMBIOS serial of the node when it is not
empty and `nodeSerial(name)` otherwise, the last argument of `qemuParams` is
the `-smbios` value `type=1...,serial=s`, and in every run of `startNode` the
node's serial after the call, the serial of the writer bound to stdout (hence of
the `bmcInfo` it sends) and the serial passed to `registerVM` are `s`, and the
`-smbios` value is among the arguments. A configured serial is kept.
`nodeSerial(name)` is the lower-case hexadecimal form of the SHA-1 digest of
the bytes of the name, 40 characters long, as checked on the SHA-1 test
vectors of one, two and three blocks; equal names give equal serials. -/
theorem node_serial_consistent (Join : List String → String) (env : NodeEnv)
    (q : QemuProvider) (w : World) (nodeCh : List bmcInfo) (n : Node) :
    (∃ pre smb, (q.qemuParams Join n).1
        = pre ++ ["-smbios", "type=1" ++ smb ++ (",serial=" ++ effectiveSerial n)]) ∧
    (∀ run, q.startNode Join env w nodeCh n = some run →
      run.node.SMBIOS.Serial = effectiveSerial n ∧
      (∀ args, run.args = some args →
        ∃ pre smb post,
          args = pre ++ ["-smbios", "type=1" ++ smb ++ (",serial=" ++ effectiveSerial n)]
            ++ post) ∧
      (∀ pw, run.stdout = some pw →
        pw.serial = effectiveSerial n ∧
        ∀ (T : List UInt8 → List UInt8) (p : List UInt8), (10 : UInt8) ∈ p →
          ∃ address, (pw.Write T p).1.ch = nodeCh ++ [bmcInfo.mk (effectiveSerial n) address]) ∧
      (∀ r, run.registered = some r → r.1 = effectiveSerial n)) ∧
    (n.SMBIOS.Serial ≠ "" → effectiveSerial n = n.SMBIOS.Serial) ∧
    (n.SMBIOS.Serial = "" → effectiveSerial n = nodeSerial n.Name) ∧
    (nodeSerial n.Name).length = 40 ∧
    (∀ c ∈ (nodeSerial n.Name).data, isLowerHex c = true) ∧
    (∀ m : Node, m.Name = n.Name → nodeSerial m.Name = nodeSerial n.Name) ∧
    nodeSerial n.Name
      = String.mk ((sha1Sum n.Name.toUTF8.data.toList).flatMap (fun b => (hex02 b).data)) ∧
    (sha1Sum n.Name.toUTF8.data.toList).length = 20 ∧
    nodeSerial "abc" = "a9993e364706816aba3e25717850c26c9cd0d89d" ∧
    nodeSerial "" = "da39a3ee5e6b4b0d3255bfef95601890afd80709" ∧
    nodeSerial "abcdbcdecdefdefgefghfghighijhijkijkljklmklmnlmnomnopnopq"
      = "84983e441c3bd26ebaae4aa1f95129e5e54670f1" ∧
    nodeSerial
      "aaaaaaaaaaaaaaaaaaaaaaaaaaaaaaaaaaaaaaaaaaaaaaaaaaaaaaaaaaaaaaaaaaaaaaaaaaaaaaaaaaaaaaaaaaaaaaaaaaaaaaaaaaaaaaaaaaaaaaaaaaaaaaaaaa"
      = "e1cd437ec3e8a60db34e1d150a4fc73882d83b41" ∧
    nodeSerial "node1" = "f937c37e949d9efa20d2958af309235c73ec039a" := by
  have hsmb : ∃ pre smb, (q.qemuParams Join n).1
      = pre ++ ["-smbios", "type=1" ++ smb ++ (",serial=" ++ effectiveSerial n)] := by
    have hsa : smbiosArg n (effectiveSerial n)
        = "type=1"
          ++ ((if n.SMBIOS.Manufacturer = "" then "" else ",manufacturer=" ++ n.SMBIOS.Manufacturer)
            ++ (if n.SMBIOS.Product = "" then "" else ",product=" ++ n.SMBIOS.Product))
          ++ (",serial=" ++ effectiveSerial n) := by
      simp only [smbiosArg, String.append_assoc]
    rw [qemuParams_fst, hsa]
    exact ⟨_, _, rfl⟩
  have hser : (q.qemuParams Join n).2.SMBIOS.Serial = effectiveSerial n := by
    rw [qemuParams_snd]
  refine ⟨hsmb, ?_, ?_, ?_, nodeSerial_length n.Name, nodeSerial_lower_hex n.Name,
    fun m hm => by rw [hm], rfl, sha1Sum_length _, nodeSerial_abc, nodeSerial_empty,
    nodeSerial_two_blocks, nodeSerial_three_blocks, nodeSerial_node1⟩
  · intro run hrun
    have key : ∃ run0, q.launchNode Join env w nodeCh n = some run0 ∧
        run.node = run0.node ∧ run.args = run0.args ∧ run.stdout = run0.stdout ∧
        (∀ r, run.registered = some r → r.1 = run0.node.SMBIOS.Serial) := by
      simp only [QemuProvider.startNode] at hrun
      split at hrun
      · exact Option.noConfusion hrun
      · rename_i run0 hl
        have hnc := launchNode_not_connected Join env q w nodeCh n run0 hl
        split at hrun
        · cases hrun
          refine ⟨run, hl, rfl, rfl, rfl, ?_⟩
          intro r hr
          rw [hnc.2] at hr
          exact Option.noConfusion hr
        · cases hrun
          obtain ⟨f1, f2, f3, f4⟩ := superviseNode_fields env.polls env.dialErr env.waitErr run0
          exact ⟨run0, hl, f1, f2, f3, f4 hnc.2⟩
    obtain ⟨run0, hl, k1, k2, k3, k4⟩ := key
    obtain ⟨g1, g2, g3⟩ := launchNode_fields Join env q w nodeCh n run0 hl
    refine ⟨by rw [k1, g1, hser], ?_, ?_, ?_⟩
    · intro args ha
      rw [k2] at ha
      obtain ⟨post, hp⟩ := g3 args ha
      obtain ⟨pre, smb, hq⟩ := hsmb
      exact ⟨n.params ++ pre, smb, post, by rw [hp, hq]; simp only [List.append_assoc]⟩
    · intro pw hpw
      rw [k3] at hpw
      have hw := g2 pw hpw
      rw [hser] at hw
      subst hw
      refine ⟨rfl, ?_⟩
      intro T p hp
      exact ⟨_, by rw [Write_newline T _ p rfl hp]⟩
    · intro r hr
      rw [k4 r hr, g1, hser]
  · intro h
    simp only [effectiveSerial, h, if_false]
  · intro h
    simp only [effectiveSerial, h, if_true]

/-- Witness of C13: `node1` without a configured serial is registered under
the SHA-1 of its name. -/
theorem node_serial_consistent_witness :
    exampleProvider.startNode joinSlash (exampleEnv none [Poll.mk none false]) (hostFailing [])
        [] exampleUnserialledNode = some exampleDefaultSerialRun ∧
      exampleDefaultSerialRun.registered = some (nodeSerial "node1", startedVM) ∧
      (nodeSerial "node1", startedVM).1 = effectiveSerial exampleUnserialledNode ∧
      nodeSerial "node1" = "f937c37e949d9efa20d2958af309235c73ec039a" :=
  ⟨rfl, rfl,
    ((node_serial_consistent joinSlash (exampleEnv none [Poll.mk none false]) exampleProvider
      (hostFailing []) [] exampleUnserialledNode).2.1 exampleDefaultSerialRun rfl).2.2.2
      (nodeSerial "node1", startedVM) rfl,
    (node_serial_consistent joinSlash (exampleEnv none [Poll.mk none false]) exampleProvider
      (hostFailing []) [] exampleUnserialledNode).2.2.2.2.2.2.2.2.2.2.2.2.2⟩

/-! ## Start -/

theorem performAll_append (a b : List Action) :
    ∀ w : World, performAll w (a ++ b)
      = match performAll w a with
        | (w1, some err) => (w1, some err)
        | (w1, none) => performAll w1 b := by
  induction a with
  | nil => intro w; rfl
  | cons x xs ih =>
    intro w
    simp only [List.cons_append, performAll]
    cases h : (w.perform x).2 with
    | none =>
      have hp : w.perform x = ((w.perform x).1, none) := by rw [← h]
      rw [hp]
      exact ih _
    | some err =>
      have hp : w.perform x = ((w.perform x).1, some err) := by rw [← h]
      rw [hp]

theorem actionOutcomeAt_zero (w : World) (a : Action) (l : List Action) :
    actionOutcomeAt w (a :: l) 0 = w.outcome w.trace a := by
  simp [actionOutcomeAt]

theorem actionOutcomeAt_succ (w : World) (a : Action) (l : List Action) (j : Nat) :
    actionOutcomeAt w (a :: l) (j + 1)
      = actionOutcomeAt (World.mk (w.trace ++ [a]) w.outcome) l j := by
  simp [actionOutcomeAt]

theorem performAll_cons (w : World) (a : Action) (l : List Action) :
    performAll w (a :: l)
      = match w.outcome w.trace a with
        | some err => (World.mk (w.trace ++ [a]) w.outcome, some err)
        | none => performAll (World.mk (w.trace ++ [a]) w.outcome) l := by
  simp only [performAll, World.perform]
  cases w.outcome w.trace a <;> rfl

theorem performAll_spec (l : List Action) :
    ∀ w : World,
    (∀ k e, k < l.length → (∀ j, j < k → actionOutcomeAt w l j = none) →
      actionOutcomeAt w l k = some e →
      performAll w l = (World.mk (w.trace ++ l.take (k + 1)) w.outcome, some e)) ∧
    ((∀ j, j < l.length → actionOutcomeAt w l j = none) →
      performAll w l = (World.mk (w.trace ++ l) w.outcome, none)) := by
  induction l with
  | nil =>
    intro w
    refine ⟨?_, ?_⟩
    · intro k e hk; simp at hk
    · intro _; simp [performAll]
  | cons a l ih =>
    intro w
    obtain ⟨ih1, ih2⟩ := ih (World.mk (w.trace ++ [a]) w.outcome)
    rw [performAll_cons]
    refine ⟨?_, ?_⟩
    · intro k e hk hpre hfail
      cases k with
      | zero =>
        rw [actionOutcomeAt_zero] at hfail
        simp [hfail]
      | succ k =>
        have h0 := hpre 0 (Nat.succ_pos k)
        rw [actionOutcomeAt_zero] at h0
        rw [actionOutcomeAt_succ] at hfail
        have := ih1 k e (by simpa using hk) (fun j hj => by
          have := hpre (j + 1) (Nat.succ_lt_succ hj)
          rwa [actionOutcomeAt_succ] at this) hfail
        simp only [h0, this]
        simp
    · intro hall
      have h0 := hall 0 (by simp)
      rw [actionOutcomeAt_zero] at h0
      have := ih2 (fun j hj => by
        have := hall (j + 1) (by simpa using hj)
        rwa [actionOutcomeAt_succ] at this)
      simp only [h0, this]
      simp

theorem execCommands_eq_performAll (cmds : List (List String)) :
    ∀ w : World, (∀ c ∈ cmds, c ≠ []) →
      execCommands w cmds = some (performAll w (cmds.map toAction)) := by
  induction cmds with
  | nil => intro w _; rfl
  | cons c cs ih =>
    intro w hne
    have hc : c ≠ [] := hne c (List.mem_cons_self _ _)
    have hcs : ∀ x ∈ cs, x ≠ [] := fun x hx => hne x (List.mem_cons_of_mem _ hx)
    obtain ⟨name, args, rfl⟩ : ∃ name args, c = name :: args := by
      cases c with
      | nil => exact absurd rfl hc
      | cons a b => exact ⟨a, b, rfl⟩
    rw [execCommands_cons, List.map_cons, performAll_cons]
    simp only [toAction]
    cases w.outcome w.trace (Action.run name args) with
    | none => exact ih _ hcs
    | some err => rfl

theorem createNetworks_eq (nets : List Network) :
    ∀ w : World, createNetworks w nets
      = performAll w (nets.map (fun n => Action.networkCreate n.Name)) := by
  induction nets with
  | nil => intro w; rfl
  | cons n rest ih =>
    intro w
    simp only [createNetworks, List.map_cons, performAll]
    cases h : (w.perform (Action.networkCreate n.Name)).2 with
    | none =>
      have hp : w.perform (Action.networkCreate n.Name)
          = ((w.perform (Action.networkCreate n.Name)).1, none) := by rw [← h]
      rw [hp]
      exact ih _
    | some err =>
      have hp : w.perform (Action.networkCreate n.Name)
          = ((w.perform (Action.networkCreate n.Name)).1, some err) := by rw [← h]
      rw [hp]

theorem prepareDataFolders_eq (dfs : List DataFolder) :
    ∀ w : World, prepareDataFolders w dfs
      = performAll w (dfs.map (fun df => Action.dataFolderPrepare df.Name)) := by
  induction dfs with
  | nil => intro w; rfl
  | cons n rest ih =>
    intro w
    simp only [prepareDataFolders, List.map_cons, performAll]
    cases h : (w.perform (Action.dataFolderPrepare n.Name)).2 with
    | none =>
      have hp : w.perform (Action.dataFolderPrepare n.Name)
          = ((w.perform (Action.dataFolderPrepare n.Name)).1, none) := by rw [← h]
      rw [hp]
      exact ih _
    | some err =>
      have hp : w.perform (Action.dataFolderPrepare n.Name)
          = ((w.perform (Action.dataFolderPrepare n.Name)).1, some err) := by rw [← h]
      rw [hp]

theorem preparePod_eq (apps : List PodApp) :
    ∀ w : World, preparePod w apps
      = performAll w (apps.map (fun a => fetchImageAction a.Image)) := by
  induction apps with
  | nil => intro w; rfl
  | cons n rest ih =>
    intro w
    simp only [preparePod, fetchImage, List.map_cons, performAll]
    cases h : (w.perform (fetchImageAction n.Image)).2 with
    | none =>
      have hp : w.perform (fetchImageAction n.Image)
          = ((w.perform (fetchImageAction n.Image)).1, none) := by rw [← h]
      rw [hp]
      exact ih _
    | some err =>
      have hp : w.perform (fetchImageAction n.Image)
          = ((w.perform (fetchImageAction n.Image)).1, some err) := by rw [← h]
      rw [hp]

theorem preparePods_eq (pods : List Pod) :
    ∀ w : World, preparePods w pods
      = performAll w (pods.flatMap (fun p => p.Apps.map (fun a => fetchImageAction a.Image))) := by
  induction pods with
  | nil => intro w; rfl
  | cons p rest ih =>
    intro w
    rw [List.flatMap_cons, performAll_append, preparePods, preparePod_eq]
    cases h : (performAll w (p.Apps.map (fun a => fetchImageAction a.Image))).2 with
    | none =>
      have hp : performAll w (p.Apps.map (fun a => fetchImageAction a.Image))
          = ((performAll w (p.Apps.map (fun a => fetchImageAction a.Image))).1, none) := by
        rw [← h]
      rw [hp]
      exact ih _
    | some err =>
      have hp : performAll w (p.Apps.map (fun a => fetchImageAction a.Image))
          = ((performAll w (p.Apps.map (fun a => fetchImageAction a.Image))).1, some err) := by
        rw [← h]
      rw [hp]

theorem prepareNodeLoop_eq (Join : List String → String) (q : QemuProvider)
    (vols : List Volume) :
    ∀ (w : World) (n : Node),
      ((prepareNodeLoop Join q w n vols).1, (prepareNodeLoop Join q w n vols).2.1)
        = performAll w (vols.flatMap (fun vol =>
            [Action.mkdirAll (Join [q.dataDir, "volumes", n.Name]),
              Action.volumeCreate n.Name vol.Name (Join [q.dataDir, "volumes", n.Name])])) ∧
      (prepareNodeLoop Join q w n vols).2.2.Name = n.Name := by
  induction vols with
  | nil => intro w n; exact ⟨rfl, rfl⟩
  | cons vol rest ih =>
    intro w n
    simp only [List.flatMap_cons, List.cons_append, List.nil_append, performAll_cons,
      prepareNodeLoop, World.perform]
    cases w.outcome w.trace (Action.mkdirAll (Join [q.dataDir, "volumes", n.Name])) with
    | some err => exact ⟨rfl, rfl⟩
    | none =>
      simp only
      cases w.outcome (w.trace ++ [Action.mkdirAll (Join [q.dataDir, "volumes", n.Name])])
        (Action.volumeCreate n.Name vol.Name (Join [q.dataDir, "volumes", n.Name])) with
      | some err => exact ⟨rfl, rfl⟩
      | none =>
        simp only
        exact ih _ { n with params := n.params ++ vol.args }

theorem prepareNodes_eq (Join : List String → String) (q : QemuProvider) (nodes : List Node) :
    ∀ w : World,
      ((prepareNodes Join q w nodes).1, (prepareNodes Join q w nodes).2.1)
        = performAll w (nodes.flatMap (fun n => n.volumes.flatMap (fun vol =>
            [Action.mkdirAll (Join [q.dataDir, "volumes", n.Name]),
              Action.volumeCreate n.Name vol.Name (Join [q.dataDir, "volumes", n.Name])]))) ∧
      (prepareNodes Join q w nodes).2.2.map (fun n => n.Name) = nodes.map (fun n => n.Name) := by
  induction nodes with
  | nil => intro w; exact ⟨rfl, rfl⟩
  | cons n rest ih =>
    intro w
    obtain ⟨h1, h2⟩ := prepareNodeLoop_eq Join q n.volumes w n
    rw [List.flatMap_cons, performAll_append, ← h1]
    simp only [prepareNodes, QemuProvider.prepareNode]
    cases he : (prepareNodeLoop Join q w n n.volumes).2.1 with
    | some err =>
      have hp : prepareNodeLoop Join q w n n.volumes
          = ((prepareNodeLoop Join q w n n.volumes).1, some err,
              (prepareNodeLoop Join q w n n.volumes).2.2) := by rw [← he]
      rw [hp]
      exact ⟨rfl, by simp only [List.map_cons, h2]⟩
    | none =>
      have hp : prepareNodeLoop Join q w n n.volumes
          = ((prepareNodeLoop Join q w n n.volumes).1, none,
              (prepareNodeLoop Join q w n n.volumes).2.2) := by rw [← he]
      rw [hp]
      obtain ⟨g1, g2⟩ := ih (prepareNodeLoop Join q w n n.volumes).1
      exact ⟨g1, by simp only [List.map_cons, h2, g2]⟩

theorem goNodes_eq (nodes : List Node) :
    ∀ w : World, goNodes w nodes
      = World.mk (w.trace ++ nodes.map (fun n => Action.goTask (Task.startNode n.Name)))
          w.outcome := by
  induction nodes with
  | nil => intro w; simp [goNodes]
  | cons n rest ih => intro w; simp [goNodes, ih, World.perform]

theorem goPods_eq (pods : List Pod) :
    ∀ w : World, goPods w pods
      = World.mk (w.trace ++ pods.map (fun p => Action.goTask (Task.startPod p.Name)))
          w.outcome := by
  induction pods with
  | nil => intro w; simp [goPods]
  | cons n rest ih => intro w; simp [goPods, ih, World.perform]

theorem performAll_world (l : List Action) :
    ∀ w : World, (performAll w l).1.outcome = w.outcome ∧
      ∃ k, k ≤ l.length ∧ (performAll w l).1.trace = w.trace ++ l.take k := by
  induction l with
  | nil => intro w; exact ⟨rfl, 0, Nat.le_refl _, by simp [performAll]⟩
  | cons a l ih =>
    intro w
    rw [performAll_cons]
    cases w.outcome w.trace a with
    | some err => exact ⟨rfl, 1, by simp, by simp⟩
    | none =>
      obtain ⟨h1, k, hk, h2⟩ := ih (World.mk (w.trace ++ [a]) w.outcome)
      exact ⟨h1, k + 1, by simpa using hk, by simp [h2]⟩

theorem performAll_append_some (a b : List Action) (w w1 : World) (e : Error)
    (h : performAll w a = (w1, some e)) : performAll w (a ++ b) = (w1, some e) := by
  rw [performAll_append, h]

theorem performAll_append_none (a b : List Action) (w w1 : World)
    (h : performAll w a = (w1, none)) : performAll w (a ++ b) = performAll w1 b := by
  rw [performAll_append, h]

theorem setupActions_tail (Join : List String → String) (q : QemuProvider) (c : Cluster) :
    setupActions Join q c
      = Action.newRootfs ::
        (createNatRulesCommands.map toAction
          ++ (c.Networks.map (fun n => Action.networkCreate n.Name)
          ++ (c.DataFolders.map (fun df => Action.dataFolderPrepare df.Name)
          ++ (c.Nodes.flatMap (fun n => n.volumes.flatMap (fun vol =>
                [Action.mkdirAll (Join [q.dataDir, "volumes", n.Name]),
                  Action.volumeCreate n.Name vol.Name (Join [q.dataDir, "volumes", n.Name])]))
          ++ (c.Pods.flatMap (fun p => p.Apps.map (fun a => fetchImageAction a.Image))
          ++ [Action.bmcSetup (c.Networks.map (fun n => n.Name))]))))) := by
  simp only [setupActions, List.append_assoc, List.cons_append, List.nil_append]

theorem startBody_eq (Join : List String → String) (q : QemuProvider) (w : World)
    (c : Cluster) :
    q.startBody Join w c
      = match performAll w (setupActions Join q c).tail with
        | (w1, some err) => some (w1, some err)
        | (w1, none) =>
          some (World.mk (w1.trace ++ launchActions c) w1.outcome,
            w1.outcome (w1.trace ++ (launchActions c).dropLast) Action.envWait) := by
  rw [setupActions_tail, List.tail_cons]
  unfold QemuProvider.startBody
  rw [createNatRules, execCommands_eq_performAll _ w (by decide)]
  rcases h1 : performAll w (createNatRulesCommands.map toAction) with ⟨w1, _ | e1⟩
  swap
  · rw [performAll_append_some _ _ _ _ _ h1]
  rw [performAll_append_none _ _ _ _ h1]
  simp only [createNetworks_eq]
  rcases h2 : performAll w1 (c.Networks.map (fun n => Action.networkCreate n.Name))
    with ⟨w2, _ | e2⟩
  swap
  · rw [performAll_append_some _ _ _ _ _ h2]
    simp only [h2]
  rw [performAll_append_none _ _ _ _ h2]
  simp only [h2]
  simp only [prepareDataFolders_eq]
  rcases h3 : performAll w2 (c.DataFolders.map (fun df => Action.dataFolderPrepare df.Name))
    with ⟨w3, _ | e3⟩
  swap
  · rw [performAll_append_some _ _ _ _ _ h3]
    simp only [h3]
  rw [performAll_append_none _ _ _ _ h3]
  simp only [h3]
  obtain ⟨p1, p2⟩ := prepareNodes_eq Join q c.Nodes w3
  rcases h4 : prepareNodes Join q w3 c.Nodes with ⟨w4, r4, nodes4⟩
  rw [h4] at p1 p2
  simp only at p1 p2
  cases r4 with
  | some e4 =>
    rw [performAll_append_some _ _ _ _ _ p1.symm]
  | none =>
    rw [performAll_append_none _ _ _ _ p1.symm]
    simp only [preparePods_eq]
    rcases h5 : performAll w4
      (c.Pods.flatMap (fun p => p.Apps.map (fun a => fetchImageAction a.Image)))
      with ⟨w5, _ | e5⟩
    swap
    · rw [performAll_append_some _ _ _ _ _ h5]
      simp only [h5]
    rw [performAll_append_none _ _ _ _ h5]
    simp only [h5]
    simp only [performAll_cons, performAll, World.perform]
    cases w5.outcome w5.trace (Action.bmcSetup (c.Networks.map (fun n => n.Name))) with
    | some e6 => rfl
    | none =>
      have hn : nodes4.map (fun n => Action.goTask (Task.startNode n.Name))
          = c.Nodes.map (fun n => Action.goTask (Task.startNode n.Name)) := by
        have := congrArg (List.map (fun s => Action.goTask (Task.startNode s))) p2
        simpa [List.map_map, Function.comp] using this
      simp only [goNodes_eq, goPods_eq, hn, launchActions, List.append_assoc, List.cons_append,
        List.nil_append]
      congr 2
      simp [List.dropLast_append_cons, List.dropLast]

theorem Start_eq (Join : List String → String) (q : QemuProvider) (w : World) (c : Cluster) :
    q.Start Join w c
      = match w.outcome w.trace Action.newRootfs with
        | some err => some (World.mk (w.trace ++ [Action.newRootfs]) w.outcome, some err)
        | none =>
          match performAll (World.mk (w.trace ++ [Action.newRootfs]) w.outcome)
            (setupActions Join q c).tail with
          | (w1, some err) => some (World.mk (w1.trace ++ [Action.rootDestroy]) w1.outcome, some err)
          | (w1, none) =>
            some (World.mk (w1.trace ++ launchActions c ++ [Action.rootDestroy]) w1.outcome,
              w1.outcome (w1.trace ++ (launchActions c).dropLast) Action.envWait) := by
  simp only [QemuProvider.Start, World.perform, startBody_eq]
  cases w.outcome w.trace Action.newRootfs with
  | some err => rfl
  | none =>
    simp only
    rcases performAll (World.mk (w.trace ++ [Action.newRootfs]) w.outcome)
      (setupActions Join q c).tail with ⟨w1, _ | e⟩
    · rfl
    · rfl

theorem setupActions_no_task (Join : List String → String) (q : QemuProvider) (c : Cluster) :
    ∀ a ∈ setupActions Join q c, isNodeOrPodTask a = false := by
  intro a ha
  simp only [setupActions, List.mem_append, List.mem_cons, List.mem_singleton, List.mem_map,
    List.mem_flatMap, List.not_mem_nil, or_false] at ha
  rcases ha with (((((h | ⟨x, _, h⟩) | ⟨x, _, h⟩) | ⟨x, _, h⟩) | ⟨x, _, y, _, h | h⟩)
    | ⟨x, _, y, _, h⟩) | h
  · subst h; rfl
  · subst h; cases x <;> rfl
  · subst h; rfl
  · subst h; rfl
  · subst h; rfl
  · subst h; rfl
  · subst h; rfl
  · subst h; rfl

theorem Start_first_failure (Join : List String → String) (q : QemuProvider) (w : World)
    (c : Cluster) (k : Nat) (e : Error) (hk : k < (setupActions Join q c).length)
    (hpre : ∀ j, j < k → actionOutcomeAt w (setupActions Join q c) j = none)
    (hfail : actionOutcomeAt w (setupActions Join q c) k = some e) :
    q.Start Join w c
      = some (World.mk (w.trace ++ (setupActions Join q c).take (k + 1)
            ++ (if k = 0 then [] else [Action.rootDestroy])) w.outcome, some e) := by
  rw [Start_eq]
  have hS : setupActions Join q c = Action.newRootfs :: (setupActions Join q c).tail := by
    rw [setupActions_tail, List.tail_cons]
  rw [hS] at hk hpre hfail
  cases k with
  | zero =>
    rw [actionOutcomeAt_zero] at hfail
    rw [hfail, hS]
    simp
  | succ k =>
    have h0 := hpre 0 (Nat.succ_pos k)
    rw [actionOutcomeAt_zero] at h0
    rw [actionOutcomeAt_succ] at hfail
    have hp := (performAll_spec (setupActions Join q c).tail
      (World.mk (w.trace ++ [Action.newRootfs]) w.outcome)).1 k e (by simpa using hk)
      (fun j hj => by
        have := hpre (j + 1) (Nat.succ_lt_succ hj)
        rwa [actionOutcomeAt_succ] at this) hfail
    rw [h0]
    simp only [hp]
    rw [hS]
    simp

theorem Start_all_succeed (Join : List String → String) (q : QemuProvider) (w : World)
    (c : Cluster)
    (hall : ∀ j, j < (setupActions Join q c).length →
      actionOutcomeAt w (setupActions Join q c) j = none) :
    q.Start Join w c
      = some (World.mk (w.trace ++ setupActions Join q c ++ launchActions c
            ++ [Action.rootDestroy]) w.outcome,
          w.outcome (w.trace ++ setupActions Join q c ++ (launchActions c).dropLast)
            Action.envWait) := by
  rw [Start_eq]
  have hS : setupActions Join q c = Action.newRootfs :: (setupActions Join q c).tail := by
    rw [setupActions_tail, List.tail_cons]
  rw [hS] at hall
  have h0 := hall 0 (by simp)
  rw [actionOutcomeAt_zero] at h0
  have hp := (performAll_spec (setupActions Join q c).tail
    (World.mk (w.trace ++ [Action.newRootfs]) w.outcome)).2 (fun j hj => by
      have := hall (j + 1) (by simpa using hj)
      rwa [actionOutcomeAt_succ] at this)
  rw [h0]
  simp only [hp]
  rw [hS]
  simp

/-- C16: with the setup steps of `Start` in the order root filesystem, NAT
rules, networks, data folders, node volumes, pod images, BMC setup: if a step
is the first to fail, `Start` returns its error unchanged, having performed the
steps up to it, none after it and no launch (only the deferred `root.Destroy()`
when the root filesystem was staged); if every step succeeds, the BMC handler,
one task per node and one task per pod are launched after the last step and
the result of `env.Wait()` is returned; a node or pod task is launched only
when every setup step has succeeded. -/
theorem Start_fail_fast (Join : List String → String) (q : QemuProvider) (w : World)
    (c : Cluster) :
    (∀ k e, k < (setupActions Join q c).length →
      (∀ j, j < k → actionOutcomeAt w (setupActions Join q c) j = none) →
      actionOutcomeAt w (setupActions Join q c) k = some e →
      q.Start Join w c
        = some (World.mk (w.trace ++ (setupActions Join q c).take (k + 1)
              ++ (if k = 0 then [] else [Action.rootDestroy])) w.outcome, some e)) ∧
    ((∀ j, j < (setupActions Join q c).length →
        actionOutcomeAt w (setupActions Join q c) j = none) →
      q.Start Join w c
        = some (World.mk (w.trace ++ setupActions Join q c ++ launchActions c
              ++ [Action.rootDestroy]) w.outcome,
            w.outcome (w.trace ++ setupActions Join q c ++ (launchActions c).dropLast)
              Action.envWait)) ∧
    (∀ a ∈ setupActions Join q c, isNodeOrPodTask a = false) ∧
    (∀ w1 r, q.Start Join w c = some (w1, r) →
      (∃ a ∈ w1.trace.drop w.trace.length, isNodeOrPodTask a = true) →
      ∀ j, j < (setupActions Join q c).length →
        actionOutcomeAt w (setupActions Join q c) j = none) := by
  refine ⟨fun k e hk hpre hfail => Start_first_failure Join q w c k e hk hpre hfail,
    Start_all_succeed Join q w c, setupActions_no_task Join q c, ?_⟩
  intro w1 r hstart htask
  by_contra hall
  have hex : ∃ k, k < (setupActions Join q c).length ∧
      actionOutcomeAt w (setupActions Join q c) k ≠ none := by
    by_contra hcon
    apply hall
    intro j hj
    by_contra hj2
    exact hcon ⟨j, hj, hj2⟩
  classical
  obtain ⟨hk, hfail⟩ := Nat.find_spec hex
  obtain ⟨e, he⟩ := Option.ne_none_iff_exists'.mp hfail
  have hs := Start_first_failure Join q w c (Nat.find hex) e hk (fun j hj => by
    by_contra hj2
    exact Nat.find_min hex hj ⟨Nat.lt_trans hj hk, hj2⟩) he
  rw [hs] at hstart
  simp only [Option.some.injEq, Prod.mk.injEq] at hstart
  obtain ⟨a, ha, hta⟩ := htask
  rw [← hstart.1] at ha
  simp only [List.append_assoc, List.drop_left, List.mem_append] at ha
  rcases ha with ha | ha
  · have := setupActions_no_task Join q c a (List.mem_of_mem_take ha)
    rw [this] at hta
    exact Bool.noConfusion hta
  · split_ifs at ha
    · simp at ha
    · simp only [List.mem_singleton] at ha
      rw [ha] at hta
      exact Bool.noConfusion hta

/-- Witness of C16: on a host where the creation of network `net0` fails,
`Start` stops there: no data folder, no BMC setup, no task. -/
theorem Start_fail_fast_witness :
    9 < (setupActions joinSlash exampleProvider exampleCluster).length ∧
      (∀ j, j < 9 → actionOutcomeAt (hostFailing [Action.networkCreate "net0"])
        (setupActions joinSlash exampleProvider exampleCluster) j = none) ∧
      actionOutcomeAt (hostFailing [Action.networkCreate "net0"])
        (setupActions joinSlash exampleProvider exampleCluster) 9 = some "exit status 1" ∧
      exampleProvider.Start joinSlash (hostFailing [Action.networkCreate "net0"]) exampleCluster
        = some (World.mk
            [Action.newRootfs,
              Action.run "iptables" ["-N", "PLACEMAT", "-t", "filter"],
              Action.run "iptables" ["-N", "PLACEMAT", "-t", "nat"],
              Action.run "iptables" ["-t", "nat", "-A", "POSTROUTING", "-j", "PLACEMAT"],
              Action.run "iptables" ["-t", "filter", "-A", "FORWARD", "-j", "PLACEMAT"],
              Action.run "ip6tables" ["-N", "PLACEMAT", "-t", "filter"],
              Action.run "ip6tables" ["-N", "PLACEMAT", "-t", "nat"],
              Action.run "ip6tables" ["-t", "nat", "-A", "POSTROUTING", "-j", "PLACEMAT"],
              Action.run "ip6tables" ["-t", "filter", "-A", "FORWARD", "-j", "PLACEMAT"],
              Action.networkCreate "net0",
              Action.rootDestroy]
            (hostFailing [Action.networkCreate "net0"]).outcome, some "exit status 1") :=
  ⟨by decide, by decide, by decide,
    (Start_fail_fast joinSlash exampleProvider (hostFailing [Action.networkCreate "net0"])
      exampleCluster).1 9 "exit status 1" (by decide) (by decide) (by decide)⟩

/-- C11 at a cluster without networks, on a host where everything succeeds:
`Start` installs the NAT rules for iptables and ip6tables, but `Destroy` only
removes the temp directory and issues no NAT teardown command. -/
theorem Destroy_without_networks_keeps_nat_rules :
    (exampleProvider.Start joinSlash (hostFailing []) emptyCluster).map (fun r => r.1.trace)
      = some ([Action.newRootfs] ++ createNatRulesCommands.map toAction
          ++ [Action.bmcSetup [], Action.goTask Task.handleNode, Action.envStop, Action.envWait,
            Action.rootDestroy]) ∧
    (exampleProvider.Destroy (hostFailing []) emptyCluster).map (fun r => (r.1.trace, r.2))
      = some ([Action.removeAll "/var/scratch/placemat/temp/1"], none) ∧
    (∀ a ∈ destroyNatRulesCommands.map toAction,
      a ∉ [Action.removeAll "/var/scratch/placemat/temp/1"]) := by
  decide

end Placemat
